import Mathlib

/-!
TcpServer.hpp : connections, listener and client; network.h : configuration texts

A shallow embedding of the classes TcpConnection, TcpServer and TcpClient of
src/TcpServer.hpp, and of the text functions of src/servers/network.h
(__compactNetworkConfiguration__, __insideBrackets__, IPAddressFromString and
the reading of the access point settings in connectNetwork).

* The object is a record of its private fields, with the names of the source.
* The operating system is an oracle handed to each operation: what a
  non-blocking socket call returns, the errno it leaves, and what millis ()
  reads during that loop iteration.
* Every operation returns the new object together with the trace of the
  system calls and delays it issued, in program order.
* The two poll loops (recvData, sendData) take a bound on the number of loop
  iterations; a result of none says that the call is still inside its loop
  after that many iterations.
* The listener of TcpServer is a function of what its system calls return in
  each pass of its two loops; what another thread does to the object (the
  unload request of the destructor, the state written by the listener) is read
  through oracles as well.
* The texts of network.h are lists of characters; the functions of the Arduino
  String class and of the C library that network.h calls are written after
  their library sources and the C standard.
-/

/-! ## Constants -/

/-- Value of TcpConnection::INFINITE_TIMEOUT (enum TIME_OUT). -/
def INFINITE_TIMEOUT : Nat := 0

/-- Value the source gives EAGAIN (#define EAGAIN 11). -/
def EAGAIN : Int := 11

/-- Value the source gives ENAVAIL (#define ENAVAIL 119). -/
def ENAVAIL : Int := 119

/-- Value of EBADF in errno.h of the tool chain (the source takes it from the system header). -/
def EBADF : Int := 9

/-- Largest chunk handed to one send () call: min (bufferSize, 2048). -/
def SEND_CHUNK : Int := 2048

/-- Difference of two unsigned long readings of millis () as the 32-bit target computes it. -/
def elapsedMillis (now last : Nat) : Nat :=
  (now % 4294967296 + 4294967296 - last % 4294967296) % 4294967296

/-! ## Data model -/

/-- Private fields of class TcpConnection. The handler pointer is kept as its
non-NULL test, the handler parameter (a void pointer) is left out. The fields
__otherSideIP__ and __thisSideIP__ are arrays of 16 characters in the source
and hold a text of at most 15 bytes. -/
structure TcpConnection where
  __connectionHandlerCallback__ : Bool
  __socket__ : Int
  __otherSideIP__ : String
  __timeOutMillis__ : Nat
  __lastActiveMillis__ : Nat
  __thisSideIP__ : String
  __listenerThreadStarted__ : Bool
  __threadEnded__ : Bool
  __timeOut__ : Bool
deriving DecidableEq, Repr

/-- What one non-blocking socket call shows to its caller: the value returned,
errno (read only when ret is -1) and the reading of millis () in the same loop
iteration. -/
structure SysResult where
  ret : Int
  errno : Int
  now : Nat
deriving DecidableEq, Repr

/-- System calls and delays issued by the connection operations. -/
inductive Event where
  | recv (socket : Int) (len : Int) (ret : Int)
  | peek (socket : Int) (ret : Int)
  | send (socket : Int) (len : Int) (ret : Int)
  | delay (ms : Nat)
  | close (socket : Int)
  | getsockname (socket : Int)
deriving DecidableEq, Repr

/-- The statement at which a poll loop of recvData or sendData was left. -/
inductive ExitPoint where
  /-- The iteration bound was reached inside the loop: nothing was returned yet. -/
  | running
  /-- The test if (__socket__ == -1) at the head of an iteration. -/
  | socketClosed
  /-- Case -1 with an errno other than EAGAIN and ENAVAIL. -/
  | hardError
  /-- Case -1 with EAGAIN or ENAVAIL after the time-out test failed. -/
  | timedOut
  /-- Case 0 reached directly. -/
  | zeroResult
  /-- The default case of recvData, or the end of the while loop of sendData. -/
  | completed
deriving DecidableEq, Repr

/-- Result of a poll loop: the value returned (none while the loop is still
running when the iteration bound is reached), the statement at which the loop
was left, the object afterwards and the trace of what was issued. -/
structure Outcome where
  result : Option Int
  exit : ExitPoint
  conn : TcpConnection
  trace : List Event
deriving DecidableEq, Repr

/-- Puts the events of the current iteration in front of the rest of the run. -/
def Outcome.prepend (evs : List Event) (o : Outcome) : Outcome :=
  { o with trace := evs ++ o.trace }

/-- Values of enum AVAILABLE_TYPE. -/
inductive AVAILABLE_TYPE where
  | NOT_AVAILABLE
  | AVAILABLE
  | ERROR
deriving DecidableEq, Repr

/-! ## Operations of TcpConnection -/

/-- TcpConnection::closeConnection. The handle is swapped for -1 inside the
critical section; close () is issued afterwards when the old handle was not -1. -/
def TcpConnection.closeConnection (c : TcpConnection) : TcpConnection × List Event :=
  let connectionSocket := c.__socket__
  let c1 := { c with __socket__ := -1 }
  if connectionSocket ≠ -1 then (c1, [Event.close connectionSocket]) else (c1, [])

/-- The statements shared by recvData and sendData after the not-ready test
fails (the fall through to case 0): set the time-out flag, close, return v. -/
def TcpConnection.flagAndClose (c : TcpConnection) (ev : Event) (v : Int) (exit : ExitPoint) :
    Outcome :=
  let c1 := { c with __timeOut__ := true }
  let cl := c1.closeConnection
  ⟨some v, exit, cl.1, ev :: cl.2⟩

/-- The while (true) loop of TcpConnection::recvData; env k is what the k-th
recv () call observes, fuel bounds the number of iterations. -/
def TcpConnection.recvDataLoop (env : Nat → SysResult) (bufferSize : Int) :
    Nat → Nat → TcpConnection → Outcome
  | 0, _, c => ⟨none, ExitPoint.running, c, []⟩
  | fuel + 1, k, c =>
    if c.__socket__ = -1 then ⟨some 0, ExitPoint.socketClosed, c, []⟩
    else
      let r := env k
      let ev := Event.recv c.__socket__ bufferSize r.ret
      if r.ret = -1 then
        if r.errno = EAGAIN ∨ r.errno = ENAVAIL then
          if c.__timeOutMillis__ = INFINITE_TIMEOUT ∨
              elapsedMillis r.now c.__lastActiveMillis__ < c.__timeOutMillis__ then
            (TcpConnection.recvDataLoop env bufferSize fuel (k + 1) c).prepend [ev, Event.delay 1]
          else c.flagAndClose ev 0 ExitPoint.timedOut
        else c.flagAndClose ev 0 ExitPoint.hardError
      else if r.ret = 0 then ⟨some 0, ExitPoint.zeroResult, c, [ev]⟩
      else ⟨some r.ret, ExitPoint.completed, { c with __lastActiveMillis__ := r.now }, [ev]⟩

/-- TcpConnection::recvData (buffer, bufferSize). -/
def TcpConnection.recvData (c : TcpConnection) (env : Nat → SysResult) (bufferSize : Int)
    (fuel : Nat) : Outcome :=
  TcpConnection.recvDataLoop env bufferSize fuel 0 c

/-- TcpConnection::available; r is what the recv (MSG_PEEK) call observes. -/
def TcpConnection.available (c : TcpConnection) (r : SysResult) :
    AVAILABLE_TYPE × TcpConnection × List Event :=
  let ev := Event.peek c.__socket__ r.ret
  if r.ret = -1 then
    if r.errno = EAGAIN ∨ r.errno = EBADF then
      if c.__timeOutMillis__ = INFINITE_TIMEOUT ∨
          elapsedMillis r.now c.__lastActiveMillis__ ≥ c.__timeOutMillis__ then
        let c1 := { c with __timeOut__ := true }
        let cl := c1.closeConnection
        (AVAILABLE_TYPE.ERROR, cl.1, ev :: cl.2)
      else (AVAILABLE_TYPE.NOT_AVAILABLE, c, [ev])
    else (AVAILABLE_TYPE.ERROR, c, [ev])
  else (AVAILABLE_TYPE.AVAILABLE, c, [ev])

/-- The while (bufferSize) loop of TcpConnection::sendData; env k len is what
the k-th send () call observes when offered len bytes. -/
def TcpConnection.sendDataLoop (env : Nat → Int → SysResult) :
    Nat → Nat → TcpConnection → Int → Int → Outcome
  | 0, _, c, writtenTotal, bufferSize =>
    if bufferSize = 0 then ⟨some writtenTotal, ExitPoint.completed, c, []⟩
    else ⟨none, ExitPoint.running, c, []⟩
  | fuel + 1, k, c, writtenTotal, bufferSize =>
    if bufferSize = 0 then ⟨some writtenTotal, ExitPoint.completed, c, []⟩
    else if c.__socket__ = -1 then ⟨some writtenTotal, ExitPoint.socketClosed, c, []⟩
    else
      let len := min bufferSize SEND_CHUNK
      let r := env k len
      let ev := Event.send c.__socket__ len r.ret
      if r.ret = -1 then
        if r.errno = EAGAIN ∨ r.errno = ENAVAIL then
          if c.__timeOutMillis__ = INFINITE_TIMEOUT ∨
              elapsedMillis r.now c.__lastActiveMillis__ < c.__timeOutMillis__ then
            (TcpConnection.sendDataLoop env fuel (k + 1) c writtenTotal bufferSize).prepend
              [ev, Event.delay 1]
          else c.flagAndClose ev writtenTotal ExitPoint.timedOut
        else c.flagAndClose ev writtenTotal ExitPoint.hardError
      else if r.ret = 0 then ⟨some writtenTotal, ExitPoint.zeroResult, c, [ev]⟩
      else
        (TcpConnection.sendDataLoop env fuel (k + 1) { c with __lastActiveMillis__ := r.now }
          (writtenTotal + r.ret) (bufferSize - r.ret)).prepend [ev]

/-- TcpConnection::sendData (buffer, bufferSize). -/
def TcpConnection.sendData (c : TcpConnection) (env : Nat → Int → SysResult) (bufferSize : Int)
    (fuel : Nat) : Outcome :=
  TcpConnection.sendDataLoop env fuel 0 c 0 bufferSize

/-- TcpConnection::getThisSideIP; r is none when getsockname () fails and the
text of inet_ntoa otherwise. -/
def TcpConnection.getThisSideIP (c : TcpConnection) (r : Option String) :
    String × TcpConnection × List Event :=
  let ev := Event.getsockname c.__socket__
  match r with
  | none =>
    let c1 := { c with __thisSideIP__ := "" }
    (c1.__thisSideIP__, c1, [ev])
  | some a =>
    let c1 := if c.__thisSideIP__ = "" then { c with __thisSideIP__ := a } else c
    (c1.__thisSideIP__, c1, [ev])

/-- TcpConnection::getOtherSideIP. -/
def TcpConnection.getOtherSideIP (c : TcpConnection) : String := c.__otherSideIP__

/-- TcpConnection::started. -/
def TcpConnection.started (c : TcpConnection) : Bool := c.__listenerThreadStarted__

/-- TcpConnection::timeOut. -/
def TcpConnection.timeOut (c : TcpConnection) : Bool := c.__timeOut__

/-- TcpConnection::setTimeOut; now is the reading of millis (). -/
def TcpConnection.setTimeOut (c : TcpConnection) (timeOutMillis now : Nat) : TcpConnection :=
  { c with __timeOutMillis__ := timeOutMillis, __lastActiveMillis__ := now }

/-- TcpConnection::getTimeOut. -/
def TcpConnection.getTimeOut (c : TcpConnection) : Nat := c.__timeOutMillis__

/-! ## Sequences of calls -/

/-- One call of a public member function of TcpConnection together with what
the system answers during the call. -/
inductive ConnOp where
  | recvData (env : Nat → SysResult) (bufferSize : Int) (fuel : Nat)
  | sendData (env : Nat → Int → SysResult) (bufferSize : Int) (fuel : Nat)
  | available (r : SysResult)
  | closeConnection
  | setTimeOut (timeOutMillis now : Nat)
  | getTimeOut
  | getThisSideIP (r : Option String)
  | getOtherSideIP
  | timeOut
  | started

/-- The object and the trace after one call. -/
def TcpConnection.perform (c : TcpConnection) : ConnOp → TcpConnection × List Event
  | .recvData env bufferSize fuel =>
    ((c.recvData env bufferSize fuel).conn, (c.recvData env bufferSize fuel).trace)
  | .sendData env bufferSize fuel =>
    ((c.sendData env bufferSize fuel).conn, (c.sendData env bufferSize fuel).trace)
  | .available r => (c.available r).2
  | .closeConnection => c.closeConnection
  | .setTimeOut t now => (c.setTimeOut t now, [])
  | .getTimeOut => (c, [])
  | .getThisSideIP r => (c.getThisSideIP r).2
  | .getOtherSideIP => (c, [])
  | .timeOut => (c, [])
  | .started => (c, [])

/-- The object and the whole trace after a sequence of calls. -/
def TcpConnection.performAll (c : TcpConnection) : List ConnOp → TcpConnection × List Event
  | [] => (c, [])
  | op :: ops =>
    let s := c.perform op
    let t := TcpConnection.performAll s.1 ops
    (t.1, s.2 ++ t.2)

/-- The send () calls of a trace: the length offered and the value returned. -/
def sendCalls (tr : List Event) : List (Int × Int) :=
  tr.filterMap fun e => match e with
    | Event.send _ len ret => some (len, ret)
    | _ => none

/-- Sum of the positive values returned by the send () calls of a trace. -/
def sentBytes (tr : List Event) : Int :=
  ((sendCalls tr).map fun p => if 0 < p.2 then p.2 else 0).sum

/-- The chunk sizes sendData offers for n bytes on a link that takes every
chunk whole: the k-th is min (2048, n - 2048 k), for k below ceil (n / 2048). -/
def chunkSizes (n : Nat) : List Int :=
  (List.range ((n + 2047) / 2048)).map fun (k : Nat) => min SEND_CHUNK ((n : Int) - 2048 * (k : Int))

/-- Trace of n polls of recvData that found the socket not ready: each is a
failed recv () followed by SPIFFSsafeDelay (1). -/
def recvRetries (socket len : Int) : Nat → List Event
  | 0 => []
  | n + 1 => Event.recv socket len (-1) :: Event.delay 1 :: recvRetries socket len n

/-- The errno test of recvData and sendData for a call that is not ready. -/
def notReady (r : SysResult) : Prop :=
  r.ret = -1 ∧ (r.errno = EAGAIN ∨ r.errno = ENAVAIL)

instance (r : SysResult) : Decidable (notReady r) := by
  unfold notReady; infer_instance

/-- The time-out test of recvData and sendData: true while the call may go on waiting. -/
def inTime (c : TcpConnection) (r : SysResult) : Prop :=
  c.__timeOutMillis__ = INFINITE_TIMEOUT ∨
    elapsedMillis r.now c.__lastActiveMillis__ < c.__timeOutMillis__

instance (c : TcpConnection) (r : SysResult) : Decidable (inTime c r) := by
  unfold inTime; infer_instance

/-- A connection used in the examples: open socket 5, time-out T, last active at 0. -/
def sampleConnection (T : Nat) : TcpConnection :=
  { __connectionHandlerCallback__ := false, __socket__ := 5, __otherSideIP__ := "10.0.0.2",
    __timeOutMillis__ := T, __lastActiveMillis__ := 0, __thisSideIP__ := "",
    __listenerThreadStarted__ := false, __threadEnded__ := false, __timeOut__ := false }

/-- A link on which every send () takes the whole chunk at once. -/
def healthyLink (_k : Nat) (len : Int) : SysResult := ⟨len, 0, 0⟩

/-- A link that takes at most 1000 bytes on the first send () and is not ready
afterwards, while the clock runs from 10 to 2000. -/
def stallingLink (k : Nat) (len : Int) : SysResult :=
  if k = 0 then ⟨min len 1000, 0, 5⟩
  else if k = 1 then ⟨-1, EAGAIN, 10⟩
  else ⟨-1, EAGAIN, 2000⟩

/-- A socket whose every recv () fails with ECONNRESET (104), a hard error, while
the clock reads 1 + k at the k-th poll. -/
def resetSocket (k : Nat) : SysResult := ⟨-1, 104, 1 + k⟩

/-- A socket on which no data arrives: every recv () fails with EAGAIN, and the
clock reads start + k at the k-th poll. -/
def silentSocket (start : Nat) (k : Nat) : SysResult := ⟨-1, EAGAIN, start + k⟩

/-! ## Construction and destruction of TcpConnection -/

/-- Values of enum LISTENER_STATE_TYPE of class TcpServer. -/
inductive LISTENER_STATE_TYPE where
  | NOT_RUNNING
  | RUNNING
  | ACCEPTING_CONNECTIONS
  | STOPPED
  | FINISHED
deriving DecidableEq, Repr

/-- The enumerator values of the source: NOT_RUNNING = 9, RUNNING = 1,
ACCEPTING_CONNECTIONS = 2, STOPPED = 3, FINISHED = 4. -/
def LISTENER_STATE_TYPE.toInt : LISTENER_STATE_TYPE → Int
  | .NOT_RUNNING => 9
  | .RUNNING => 1
  | .ACCEPTING_CONNECTIONS => 2
  | .STOPPED => 3
  | .FINISHED => 4

/-- What the listener, the server, the client and the construction of a
connection issue: system calls, task creation, writes to __listenerState__,
and the objects constructed and deleted. Calls that the connection operations
also issue (close, delay) are carried by io. -/
inductive SrvEvent where
  | io (e : Event)
  | setState (st : LISTENER_STATE_TYPE)
  | socket (ret : Int)
  | setsockopt (socket : Int)
  | bind (socket : Int) (ret : Int)
  | listen (socket : Int) (ret : Int)
  | fcntl (socket : Int) (ret : Int)
  | accept (listenerSocket : Int) (ret : Int)
  | connect (socket : Int) (address : Nat) (port : Int) (ret : Int)
  | xTaskCreate (name : String) (stackSize : Nat) (created : Bool)
  | construct (c : TcpConnection)
  | destruct (c : TcpConnection)
deriving DecidableEq, Repr

/-- The texts that strcpy (this->__otherSideIP__, otherSideIP) of the two
constructors copies into the field char __otherSideIP__ [16] without writing
behind its end: C texts (no NUL character inside) of at most 15 bytes, as the
comment of the parameter asks for (15 characters at most). For any other text
the behaviour of the constructors is undefined, and the field of the model,
which then holds the whole text, says nothing about the code. -/
def otherSideIPFits (otherSideIP : String) : Prop :=
  otherSideIP.utf8ByteSize ≤ 15 ∧ '\x00' ∉ otherSideIP.toList

instance (otherSideIP : String) : Decidable (otherSideIPFits otherSideIP) := by
  unfold otherSideIPFits
  infer_instance

/-- The threaded mode constructor of TcpConnection, for a text accepted by
otherSideIPFits (the listener passes the text of inet_ntoa). now is the reading of
millis () in the initialiser of __lastActiveMillis__, taskCreated says whether
xTaskCreate returned pdPASS. The plain new expression of C++ does not return
NULL (it throws or aborts), so an object is always produced. -/
def TcpConnection.threadedConstructor (connectionHandlerCallback : Bool) (stackSize : Nat)
    (socket : Int) (otherSideIP : String) (timeOutMillis now : Nat) (taskCreated : Bool) :
    TcpConnection × List SrvEvent :=
  let c : TcpConnection :=
    { __connectionHandlerCallback__ := connectionHandlerCallback, __socket__ := socket,
      __otherSideIP__ := otherSideIP, __timeOutMillis__ := timeOutMillis,
      __lastActiveMillis__ := now, __thisSideIP__ := "", __listenerThreadStarted__ := true,
      __threadEnded__ := false, __timeOut__ := false }
  if connectionHandlerCallback then
    if taskCreated then (c, [SrvEvent.xTaskCreate "TcpConnection" stackSize true])
    else ({ c with __listenerThreadStarted__ := false },
      [SrvEvent.xTaskCreate "TcpConnection" stackSize false])
  else (c, [])

/-- The non-threaded mode constructor of TcpConnection, for a text accepted by
otherSideIPFits (the listener passes the text of inet_ntoa, TcpClient the text
its caller gives). -/
def TcpConnection.nonThreadedConstructor (socket : Int) (otherSideIP : String)
    (timeOutMillis now : Nat) : TcpConnection :=
  { __connectionHandlerCallback__ := false, __socket__ := socket,
    __otherSideIP__ := otherSideIP, __timeOutMillis__ := timeOutMillis,
    __lastActiveMillis__ := now, __thisSideIP__ := "", __listenerThreadStarted__ := false,
    __threadEnded__ := false, __timeOut__ := false }

/-- Result of a destructor or constructor that may wait for another thread:
returned is false when the wait is still going on at the iteration bound. -/
structure WaitOutcome (α : Type) where
  returned : Bool
  object : α
  trace : List SrvEvent

/-- The loop while (!__threadEnded__) SPIFFSsafeDelay (1) of the destructor;
ended k says whether the worker has set the flag before the k-th test. -/
def TcpConnection.waitThreadEnded (c : TcpConnection) (ended : Nat → Bool) :
    Nat → Nat → Bool × List SrvEvent
  | 0, k => (c.__threadEnded__ || ended k, [])
  | fuel + 1, k =>
    if c.__threadEnded__ || ended k then (true, [])
    else
      let w := TcpConnection.waitThreadEnded c ended fuel (k + 1)
      (w.1, SrvEvent.io (Event.delay 1) :: w.2)

/-- The destructor of TcpConnection: closeConnection, then the wait for the
worker when __listenerThreadStarted__ is set. -/
def TcpConnection.destructor (c : TcpConnection) (ended : Nat → Bool) (fuel : Nat) :
    WaitOutcome TcpConnection :=
  let cl := c.closeConnection
  if cl.1.__listenerThreadStarted__ then
    let w := cl.1.waitThreadEnded ended fuel 0
    ⟨w.1, cl.1, cl.2.map SrvEvent.io ++ w.2⟩
  else ⟨true, cl.1, cl.2.map SrvEvent.io⟩

/-! ## TcpServer -/

/-- Private fields of class TcpServer. The handler pointer is kept as its
non-NULL test, the handler parameter (a void pointer) is left out; the
firewall pointer is none when NULL. -/
structure TcpServer where
  __connectionHandlerCallback__ : Bool
  __connectionStackSize__ : Nat
  __timeOutMillis__ : Nat
  __serverIP__ : String
  __serverPort__ : Int
  __firewallCallback__ : Option (String → Bool)
  __connection__ : Option TcpConnection
  __listenerState__ : LISTENER_STATE_TYPE
  __instanceUnloading__ : Bool
  __lastActiveMillis__ : Nat
  __timeOut__ : Bool

/-- TcpServer::__threadedMode__. -/
def TcpServer.__threadedMode__ (s : TcpServer) : Bool := s.__connectionHandlerCallback__

/-- TcpServer::__callFirewallCallback__. -/
def TcpServer.__callFirewallCallback__ (s : TcpServer) (IP : String) : Bool :=
  match s.__firewallCallback__ with
  | some firewallCallback => firewallCallback IP
  | none => true

/-- TcpServer::connection. -/
def TcpServer.connection (s : TcpServer) : Option TcpConnection := s.__connection__

/-- TcpServer::timeOut; now is the reading of millis (). -/
def TcpServer.timeOut (s : TcpServer) (now : Nat) : Bool :=
  if s.__threadedMode__ then false
  else if s.__timeOutMillis__ = INFINITE_TIMEOUT then false
  else if elapsedMillis now s.__lastActiveMillis__ > s.__timeOutMillis__ then true
  else false

/-- What the listener meets in one pass of its outer loop: whether the
destructor has set __instanceUnloading__ before the loop test, and the values
returned by socket, bind, listen and fcntl. -/
structure StartEnv where
  unload : Bool
  socket : Int
  bind : Int
  listen : Int
  fcntl : Int
deriving DecidableEq, Repr

/-- What the listener meets in one pass of its inner loop: whether the
destructor has set __instanceUnloading__ before the loop test, the reading of
millis () in timeOut (), the value returned by accept, the text of inet_ntoa
for the peer, the value returned by fcntl on the new socket, the reading of
millis () when the connection object is constructed and whether xTaskCreate
for its worker returned pdPASS. -/
structure AcceptEnv where
  unload : Bool
  now : Nat
  connectionSocket : Int
  peerIP : String
  fcntl : Int
  constructedAt : Nat
  taskCreated : Bool
deriving DecidableEq, Repr

/-- The flag __instanceUnloading__ as the listener reads it: it is written by
the destructor only, and only to true. -/
def TcpServer.noteUnload (s : TcpServer) (unload : Bool) : TcpServer :=
  if unload then { s with __instanceUnloading__ := true } else s

/-- TcpServer::__newConnection__. In threaded mode the worker of a connection
that started runs on its own; a connection that did not start is deleted at
once (its destructor does not wait, started () being false). The branch for a
NULL result of new cannot be taken (see the constructors) and is left out. -/
def TcpServer.__newConnection__ (s : TcpServer) (connectionSocket : Int) (clientIP : String)
    (e : AcceptEnv) : TcpServer × List SrvEvent :=
  if s.__threadedMode__ then
    let n := TcpConnection.threadedConstructor s.__connectionHandlerCallback__
      s.__connectionStackSize__ connectionSocket clientIP s.__timeOutMillis__ e.constructedAt
      e.taskCreated
    let newConnection := n.1
    if !newConnection.started then
      let d := newConnection.destructor (fun _ => false) 0
      (s, n.2 ++ [SrvEvent.construct newConnection] ++ d.trace ++ [SrvEvent.destruct d.object])
    else (s, n.2 ++ [SrvEvent.construct newConnection])
  else
    let newConnection :=
      TcpConnection.nonThreadedConstructor connectionSocket clientIP s.__timeOutMillis__
        e.constructedAt
    ({ s with __connection__ := some newConnection }, [SrvEvent.construct newConnection])

/-- How one pass of the inner loop of the listener ends. -/
inductive AcceptStep where
  /-- The pass ends, by continue or at the end of the body: the loop test comes next. -/
  | again (s : TcpServer) (trace : List SrvEvent)
  /-- The pass ends by goto terminateListener. -/
  | terminate (s : TcpServer) (trace : List SrvEvent)

/-- The body of the inner loop of TcpServer::__listener__ (handle incoming
connections), entered after the loop test found __instanceUnloading__ clear. -/
def TcpServer.acceptStep (s : TcpServer) (listenerSocket : Int) (e : AcceptEnv) : AcceptStep :=
  let d := SrvEvent.io (Event.delay 1)
  if !s.__threadedMode__ && s.timeOut e.now then AcceptStep.terminate s [d]
  else
    let s1 := { s with __listenerState__ := LISTENER_STATE_TYPE.ACCEPTING_CONNECTIONS }
    let tr := [d, SrvEvent.setState LISTENER_STATE_TYPE.ACCEPTING_CONNECTIONS,
      SrvEvent.accept listenerSocket e.connectionSocket]
    if e.connectionSocket ≠ -1 then
      if !s1.__callFirewallCallback__ e.peerIP then
        AcceptStep.again s1 (tr ++ [SrvEvent.io (Event.close e.connectionSocket)])
      else if e.fcntl = -1 then
        AcceptStep.again s1 (tr ++ [SrvEvent.fcntl e.connectionSocket e.fcntl,
          SrvEvent.io (Event.close e.connectionSocket)])
      else
        let n := s1.__newConnection__ e.connectionSocket e.peerIP e
        if !n.1.__threadedMode__ then
          AcceptStep.terminate n.1 (tr ++ SrvEvent.fcntl e.connectionSocket e.fcntl :: n.2)
        else AcceptStep.again n.1 (tr ++ SrvEvent.fcntl e.connectionSocket e.fcntl :: n.2)
    else AcceptStep.again s1 tr

/-- Result of a run of the listener: finished is false when the listener is
still inside one of its loops at the iteration bound. -/
structure ListenerOutcome where
  finished : Bool
  server : TcpServer
  trace : List SrvEvent

/-- Puts the events of the current pass in front of the rest of the run. -/
def ListenerOutcome.prepend (evs : List SrvEvent) (o : ListenerOutcome) : ListenerOutcome :=
  { o with trace := evs ++ o.trace }

/-- The statements after the label terminateListener. -/
def TcpServer.terminateListener (s : TcpServer) (listenerSocket : Int) : ListenerOutcome :=
  ⟨true, { s with __listenerState__ := LISTENER_STATE_TYPE.FINISHED },
    [SrvEvent.setState LISTENER_STATE_TYPE.STOPPED, SrvEvent.io (Event.close listenerSocket),
     SrvEvent.setState LISTENER_STATE_TYPE.FINISHED]⟩

/-- The loop test the listener is about to make. -/
inductive ListenerAt where
  /-- The test of the outer loop (prepare listener socket). -/
  | prepare
  /-- The test of the inner loop (handle incoming connections). -/
  | accepting
deriving DecidableEq, Repr

/-- The two nested loops of TcpServer::__listener__ up to its end. startEnv i
is met in the i-th pass of the outer loop, acceptEnv j in the j-th pass of the
inner loop; listenerSocket is the local variable of that name; fuel bounds the
number of loop tests. -/
def TcpServer.listenerLoop (startEnv : Nat → StartEnv) (acceptEnv : Nat → AcceptEnv) :
    Nat → ListenerAt → Nat → Nat → Int → TcpServer → ListenerOutcome
  | 0, _, _, _, _, s => ⟨false, s, []⟩
  | fuel + 1, ListenerAt.prepare, i, j, listenerSocket, s =>
    let e := startEnv i
    let s := s.noteUnload e.unload
    if s.__instanceUnloading__ then s.terminateListener listenerSocket
    else if e.socket = -1 then
      (TcpServer.listenerLoop startEnv acceptEnv fuel ListenerAt.prepare (i + 1) j e.socket
        s).prepend [SrvEvent.socket e.socket, SrvEvent.io (Event.delay 1000)]
    else if e.bind = -1 then
      (s.terminateListener e.socket).prepend
        [SrvEvent.socket e.socket, SrvEvent.setsockopt e.socket, SrvEvent.bind e.socket e.bind]
    else if e.listen = -1 then
      (s.terminateListener e.socket).prepend
        [SrvEvent.socket e.socket, SrvEvent.setsockopt e.socket, SrvEvent.bind e.socket e.bind,
         SrvEvent.listen e.socket e.listen]
    else if e.fcntl = -1 then
      (s.terminateListener e.socket).prepend
        [SrvEvent.socket e.socket, SrvEvent.setsockopt e.socket, SrvEvent.bind e.socket e.bind,
         SrvEvent.listen e.socket e.listen, SrvEvent.fcntl e.socket e.fcntl]
    else
      (TcpServer.listenerLoop startEnv acceptEnv fuel ListenerAt.accepting (i + 1) j e.socket
        s).prepend
        [SrvEvent.socket e.socket, SrvEvent.setsockopt e.socket, SrvEvent.bind e.socket e.bind,
         SrvEvent.listen e.socket e.listen, SrvEvent.fcntl e.socket e.fcntl]
  | fuel + 1, ListenerAt.accepting, i, j, listenerSocket, s =>
    let e := acceptEnv j
    let s := s.noteUnload e.unload
    if s.__instanceUnloading__ then
      TcpServer.listenerLoop startEnv acceptEnv fuel ListenerAt.prepare i (j + 1) listenerSocket s
    else
      match s.acceptStep listenerSocket e with
      | AcceptStep.again s1 tr =>
        (TcpServer.listenerLoop startEnv acceptEnv fuel ListenerAt.accepting i (j + 1)
          listenerSocket s1).prepend tr
      | AcceptStep.terminate s1 tr => (s1.terminateListener listenerSocket).prepend tr

/-- TcpServer::__listener__: the state is set to RUNNING, listenerSocket to -1,
then the loops run. -/
def TcpServer.__listener__ (s : TcpServer) (startEnv : Nat → StartEnv)
    (acceptEnv : Nat → AcceptEnv) (fuel : Nat) : ListenerOutcome :=
  (TcpServer.listenerLoop startEnv acceptEnv fuel ListenerAt.prepare 0 0 (-1)
    { s with __listenerState__ := LISTENER_STATE_TYPE.RUNNING }).prepend
    [SrvEvent.setState LISTENER_STATE_TYPE.RUNNING]

/-! ## Construction and destruction of TcpServer, TcpClient -/

/-- The loop while (__listenerState__ == NOT_RUNNING) SPIFFSsafeDelay (1) at the
end of both constructors of TcpServer; observed k is the state the k-th test
reads. The result tells whether the loop was left, the state last read and the
delays made. -/
def TcpServer.waitListenerRunning (observed : Nat → LISTENER_STATE_TYPE) :
    Nat → Nat → Bool × LISTENER_STATE_TYPE × List SrvEvent
  | 0, k => (decide (observed k ≠ LISTENER_STATE_TYPE.NOT_RUNNING), observed k, [])
  | fuel + 1, k =>
    if observed k = LISTENER_STATE_TYPE.NOT_RUNNING then
      let w := TcpServer.waitListenerRunning observed fuel (k + 1)
      (w.1, w.2.1, SrvEvent.io (Event.delay 1) :: w.2.2)
    else (true, observed k, [])

/-- The statements common to both constructors of TcpServer after the
parameters are copied: the state is set to NOT_RUNNING, the listener task is
created and the constructor waits for the state to change. taskCreated says
whether xTaskCreate returned pdPASS; listenerState k is the state the listener
task has written when the k-th test is made. Without a listener task nothing
else writes the state, so every test reads what the constructor wrote. -/
def TcpServer.startListener (s : TcpServer) (taskCreated : Bool)
    (listenerState : Nat → LISTENER_STATE_TYPE) (fuel : Nat) : WaitOutcome TcpServer :=
  let s1 := { s with __listenerState__ := LISTENER_STATE_TYPE.NOT_RUNNING }
  let observed := fun k => if taskCreated then listenerState k else s1.__listenerState__
  let w := TcpServer.waitListenerRunning observed fuel 0
  ⟨w.1, { s1 with __listenerState__ := w.2.1 },
    SrvEvent.setState LISTENER_STATE_TYPE.NOT_RUNNING
      :: SrvEvent.xTaskCreate "TcpListener" 2048 taskCreated :: w.2.2⟩

/-- The constructor of a threaded TcpServer; now is the reading of millis () in
the initialiser of __lastActiveMillis__. -/
def TcpServer.threadedConstructor (connectionHandlerCallback : Bool)
    (connectionStackSize timeOutMillis : Nat) (serverIP : String) (serverPort : Int)
    (firewallCallback : Option (String → Bool)) (now : Nat) (taskCreated : Bool)
    (listenerState : Nat → LISTENER_STATE_TYPE) (fuel : Nat) : WaitOutcome TcpServer :=
  TcpServer.startListener
    { __connectionHandlerCallback__ := connectionHandlerCallback,
      __connectionStackSize__ := connectionStackSize, __timeOutMillis__ := timeOutMillis,
      __serverIP__ := serverIP, __serverPort__ := serverPort,
      __firewallCallback__ := firewallCallback, __connection__ := none,
      __listenerState__ := LISTENER_STATE_TYPE.NOT_RUNNING, __instanceUnloading__ := false,
      __lastActiveMillis__ := now, __timeOut__ := false }
    taskCreated listenerState fuel

/-- The constructor of a non-threaded TcpServer: the handler stays NULL; the
stack size, which this constructor leaves unset, is taken as 0. -/
def TcpServer.nonThreadedConstructor (timeOutMillis : Nat) (serverIP : String) (serverPort : Int)
    (firewallCallback : Option (String → Bool)) (now : Nat) (taskCreated : Bool)
    (listenerState : Nat → LISTENER_STATE_TYPE) (fuel : Nat) : WaitOutcome TcpServer :=
  TcpServer.startListener
    { __connectionHandlerCallback__ := false,
      __connectionStackSize__ := 0, __timeOutMillis__ := timeOutMillis,
      __serverIP__ := serverIP, __serverPort__ := serverPort,
      __firewallCallback__ := firewallCallback, __connection__ := none,
      __listenerState__ := LISTENER_STATE_TYPE.NOT_RUNNING, __instanceUnloading__ := false,
      __lastActiveMillis__ := now, __timeOut__ := false }
    taskCreated listenerState fuel

/-- TcpServer::started: waits while the state is numerically below
ACCEPTING_CONNECTIONS, then tells whether it is ACCEPTING_CONNECTIONS; observed k
is the state the k-th test reads. The result is none while the wait goes on. -/
def TcpServer.started (observed : Nat → LISTENER_STATE_TYPE) :
    Nat → Nat → Option Bool × List SrvEvent
  | 0, k =>
    if (observed k).toInt < LISTENER_STATE_TYPE.ACCEPTING_CONNECTIONS.toInt then (none, [])
    else (some (decide (observed k = LISTENER_STATE_TYPE.ACCEPTING_CONNECTIONS)), [])
  | fuel + 1, k =>
    if (observed k).toInt < LISTENER_STATE_TYPE.ACCEPTING_CONNECTIONS.toInt then
      let w := TcpServer.started observed fuel (k + 1)
      (w.1, SrvEvent.io (Event.delay 10) :: w.2)
    else (some (decide (observed k = LISTENER_STATE_TYPE.ACCEPTING_CONNECTIONS)), [])

/-- The loop while (__listenerState__ < FINISHED) SPIFFSsafeDelay (1) of the
destructor of TcpServer; observed k is the state the k-th test reads. -/
def TcpServer.waitListenerFinished (observed : Nat → LISTENER_STATE_TYPE) :
    Nat → Nat → Bool × LISTENER_STATE_TYPE × List SrvEvent
  | 0, k =>
    (decide (¬ (observed k).toInt < LISTENER_STATE_TYPE.FINISHED.toInt), observed k, [])
  | fuel + 1, k =>
    if (observed k).toInt < LISTENER_STATE_TYPE.FINISHED.toInt then
      let w := TcpServer.waitListenerFinished observed fuel (k + 1)
      (w.1, w.2.1, SrvEvent.io (Event.delay 1) :: w.2.2)
    else (true, observed k, [])

/-- The destructor of TcpServer: it deletes the connection of non-threaded mode
when there is one (the pointer is not reset), sets __instanceUnloading__ and
waits for the listener to finish. connEnded serves the destructor of that
connection, observed k is the listener state the k-th test reads. -/
def TcpServer.destructor (s : TcpServer) (connEnded : Nat → Bool)
    (observed : Nat → LISTENER_STATE_TYPE) (fuel : Nat) : WaitOutcome TcpServer :=
  let d : WaitOutcome Unit :=
    match s.__connection__ with
    | some c =>
      let dc := c.destructor connEnded fuel
      ⟨dc.returned, (), if dc.returned then dc.trace ++ [SrvEvent.destruct dc.object] else dc.trace⟩
    | none => ⟨true, (), []⟩
  if d.returned then
    let s1 := { s with __instanceUnloading__ := true }
    let w := TcpServer.waitListenerFinished observed fuel 0
    ⟨w.1, { s1 with __listenerState__ := w.2.1 }, d.trace ++ w.2.2⟩
  else ⟨false, s, d.trace⟩

/-- Value the source gives EINPROGRESS (#define EINPROGRESS 119). -/
def EINPROGRESS : Int := 119

/-- Value inet_addr returns for a text that is not a dotted address. -/
def INADDR_NONE : Nat := 4294967295

/-- Private field of class TcpClient. -/
structure TcpClient where
  __connection__ : Option TcpConnection
deriving DecidableEq, Repr

/-- What the constructor of TcpClient meets: the values returned by socket,
fcntl, inet_addr and connect, errno after connect, and the reading of
millis () when the connection object is constructed. -/
structure ClientEnv where
  socket : Int
  fcntl : Int
  inet_addr : Nat
  connect : Int
  errno : Int
  now : Nat
deriving DecidableEq, Repr

/-- The constructor of TcpClient. The plain new expression of C++ does not
return NULL, so the connection object is always produced once connect is
through. serverIP goes to inet_addr and, once connect is through, to the
constructor of TcpConnection, which copies it into a field of 16 characters:
what is said of the connection object holds for a serverIP accepted by
otherSideIPFits. -/
def TcpClient.constructor (serverIP : String) (serverPort : Int) (timeOutMillis : Nat)
    (e : ClientEnv) : TcpClient × List SrvEvent :=
  let connectionSocket := e.socket
  if connectionSocket = -1 then (⟨none⟩, [SrvEvent.socket connectionSocket])
  else if e.fcntl = -1 then
    (⟨none⟩, [SrvEvent.socket connectionSocket, SrvEvent.fcntl connectionSocket e.fcntl,
      SrvEvent.io (Event.close connectionSocket)])
  else
    let tr := [SrvEvent.socket connectionSocket, SrvEvent.fcntl connectionSocket e.fcntl,
      SrvEvent.connect connectionSocket e.inet_addr serverPort e.connect]
    if e.connect = -1 ∧ e.errno ≠ EINPROGRESS then
      (⟨none⟩, tr ++ [SrvEvent.io (Event.close connectionSocket)])
    else
      let c := TcpConnection.nonThreadedConstructor connectionSocket serverIP timeOutMillis e.now
      (⟨some c⟩, tr ++ [SrvEvent.construct c])

/-- TcpClient::connection. -/
def TcpClient.connection (t : TcpClient) : Option TcpConnection := t.__connection__

/-! ## Reading traces of the server -/

/-- The objects constructed in a trace, in order. -/
def constructions (tr : List SrvEvent) : List TcpConnection :=
  tr.filterMap fun e => match e with
    | SrvEvent.construct c => some c
    | _ => none

/-- The sockets handed to close () in a trace, in order. -/
def closeCalls (tr : List SrvEvent) : List Int :=
  tr.filterMap fun e => match e with
    | SrvEvent.io (Event.close sock) => some sock
    | _ => none

/-- The values returned by accept in a trace, in order. -/
def acceptCalls (tr : List SrvEvent) : List Int :=
  tr.filterMap fun e => match e with
    | SrvEvent.accept _ ret => some ret
    | _ => none

/-- The values written to __listenerState__ in a trace, in order. -/
def stateWrites (tr : List SrvEvent) : List LISTENER_STATE_TYPE :=
  tr.filterMap fun e => match e with
    | SrvEvent.setState st => some st
    | _ => none

/-- Modelled from the spec: the order in which the spec lists the listener
states (NOT_STARTED, STARTING, ACCEPTING, STOPPING, STOPPED, that is
NOT_RUNNING, RUNNING, ACCEPTING_CONNECTIONS, STOPPED, FINISHED in the source).
It is not the numeric order of the enumerators. -/
def LISTENER_STATE_TYPE.lifeCycleRank : LISTENER_STATE_TYPE → Nat
  | .NOT_RUNNING => 0
  | .RUNNING => 1
  | .ACCEPTING_CONNECTIONS => 2
  | .STOPPED => 3
  | .FINISHED => 4

/-- A server used in the examples: time-out 1000, constructed at 0, listening
on port 80 of every address, with the given mode and firewall. -/
def sampleServer (threaded : Bool) (firewall : Option (String → Bool)) : TcpServer :=
  { __connectionHandlerCallback__ := threaded, __connectionStackSize__ := 8192,
    __timeOutMillis__ := 1000, __serverIP__ := "0.0.0.0", __serverPort__ := 80,
    __firewallCallback__ := firewall, __connection__ := none,
    __listenerState__ := LISTENER_STATE_TYPE.NOT_RUNNING, __instanceUnloading__ := false,
    __lastActiveMillis__ := 0, __timeOut__ := false }

/-- A firewall that rejects the address 10.0.0.9 only. -/
def sampleFirewall (IP : String) : Bool := IP != "10.0.0.9"

/-- A start of the listener in which every call succeeds and socket returns 3. -/
def goodStart (_i : Nat) : StartEnv := ⟨false, 3, 0, 0, 0⟩

/-- A start of the listener in which socket returns 3 and bind fails. -/
def bindFails (_i : Nat) : StartEnv := ⟨false, 3, -1, 0, 0⟩

/-- No socket can be created and nobody asks the server to unload. -/
def socketFails (_i : Nat) : StartEnv := ⟨false, -1, 0, 0, 0⟩

/-- A peer at the given address is accepted on socket 7 in the first pass, all
calls succeeding (or the worker task failing to start when taskCreated is
false); later passes find nothing to accept, and from the third pass on the
server is asked to unload. -/
def onePeer (peerIP : String) (taskCreated : Bool) (j : Nat) : AcceptEnv :=
  if j = 0 then ⟨false, 10, 7, peerIP, 0, 11, taskCreated⟩
  else ⟨decide (3 ≤ j), 10 + j, -1, "", 0, 0, true⟩

/-- The server object at the end of a pass of the inner loop. -/
def AcceptStep.server : AcceptStep → TcpServer
  | AcceptStep.again s _ => s
  | AcceptStep.terminate s _ => s

/-- The events of a pass of the inner loop. -/
def AcceptStep.trace : AcceptStep → List SrvEvent
  | AcceptStep.again _ tr => tr
  | AcceptStep.terminate _ tr => tr

/-- Whether the inner loop goes on after the pass. -/
def AcceptStep.continues : AcceptStep → Bool
  | AcceptStep.again _ _ => true
  | AcceptStep.terminate _ _ => false

/-- Trace of n passes of the outer loop of the listener in which socket failed. -/
def socketRetries : Nat → List SrvEvent
  | 0 => []
  | n + 1 => SrvEvent.socket (-1) :: SrvEvent.io (Event.delay 1000) :: socketRetries n

/-- Nothing to accept, nobody asks the server to unload, the clock reads j. -/
def quietAccept (j : Nat) : AcceptEnv := ⟨false, j, -1, "", 0, 0, true⟩

/-- The relation between a write to the listener state and any later write:
the later state is not earlier in the life cycle, and nothing is written after
FINISHED. -/
def stateAdvances (a b : LISTENER_STATE_TYPE) : Prop :=
  a.lifeCycleRank ≤ b.lifeCycleRank ∧ a ≠ LISTENER_STATE_TYPE.FINISHED

/-- The constructor of TcpClient finds the socket, makes it non-blocking, cannot
turn the text of the address into an address, and connect reports that the
connection is in progress. -/
def unresolvedAddress : ClientEnv := ⟨5, 0, INADDR_NONE, -1, EINPROGRESS, 100⟩

/-- The constructor of TcpClient meets no failure; connect reports that the
connection is in progress. -/
def connectInProgress : ClientEnv := ⟨5, 0, 167772162, -1, EINPROGRESS, 100⟩

/-- The constructor of TcpClient is refused by the peer (ECONNREFUSED, 111). -/
def connectRefused : ClientEnv := ⟨5, 0, 167772162, -1, 111, 100⟩

/-- The listener state as the destructor of TcpServer may read it: the listener
is still accepting at the first two tests and has finished at the third. -/
def finishesAtThird (k : Nat) : LISTENER_STATE_TYPE :=
  if k < 2 then LISTENER_STATE_TYPE.ACCEPTING_CONNECTIONS else LISTENER_STATE_TYPE.FINISHED

/-! ## The worker task of a threaded connection -/

/-- What the worker task of a threaded connection has done: how often the
handler was entered, what the handler issued, the object right after the
worker wrote __threadEnded__ = true, and the run of delete (ths) that follows
that write. -/
structure WorkerOutcome where
  handlerCalls : Nat
  handlerTrace : List Event
  flagged : TcpConnection
  deleted : WaitOutcome TcpConnection

/-- TcpConnection::__connectionHandler__ together with
__callConnectionHandlerCallback__: the handler is called when it is not NULL,
then __threadEnded__ is set, then the object is deleted. The handler is given
by the calls it makes on the connection. -/
def TcpConnection.__connectionHandler__ (c : TcpConnection) (handler : List ConnOp)
    (ended : Nat → Bool) (fuel : Nat) : WorkerOutcome :=
  let h := if c.__connectionHandlerCallback__ then c.performAll handler else (c, [])
  let calls := if c.__connectionHandlerCallback__ then 1 else 0
  let ths := { h.1 with __threadEnded__ := true }
  ⟨calls, h.2, ths, ths.destructor ended fuel⟩

/-- Whether a call is a getThisSideIP whose getsockname fails. -/
def ConnOp.lookupFails : ConnOp → Bool
  | ConnOp.getThisSideIP none => true
  | _ => false

/-- A send () or recv () result that takes the default branch of the switch:
neither -1 nor 0, that is, at least one byte was transferred. -/
def transferred (r : SysResult) : Prop := r.ret ≠ -1 ∧ r.ret ≠ 0

instance (r : SysResult) : Decidable (transferred r) := by
  unfold transferred; infer_instance

/-- No send () call of the polls a, ..., b - 1 transferred anything: each found the
socket not ready. -/
def idleBetween (env : Nat → Int → SysResult) (a b : Nat) : Prop :=
  ∀ m, a ≤ m → m < b → ∃ len, notReady (env m len)

/-- A link on which sendData of ten bytes gets five bytes through at 900 ms and
is not ready at 1500 ms and at 1900 ms. -/
def slidingLink (k : Nat) (_len : Int) : SysResult :=
  if k = 0 then ⟨5, 0, 900⟩
  else if k = 1 then ⟨-1, EAGAIN, 1500⟩
  else ⟨-1, EAGAIN, 1900⟩

/-- The sockets created by socket () in a trace, in order (calls that returned
-1 created none). -/
def socketOpens (tr : List SrvEvent) : List Int :=
  tr.filterMap fun e => match e with
    | SrvEvent.socket ret => if ret ≠ -1 then some ret else none
    | _ => none

/-- Every close () of the trace is of a socket that accept returned. -/
def closesOnlyAccepted (acceptEnv : Nat → AcceptEnv) (tr : List SrvEvent) : Prop :=
  ∀ x ∈ closeCalls tr, x ≠ -1 ∧ ∃ j, x = (acceptEnv j).connectionSocket

/-- The run ends with STOPPED, close (l), FINISHED, and no close () before that
is of anything but an accepted socket. -/
def endsByClosing (acceptEnv : Nat → AcceptEnv) (o : ListenerOutcome) (l : Int) : Prop :=
  ∃ pre, o.trace = pre ++ [SrvEvent.setState LISTENER_STATE_TYPE.STOPPED,
      SrvEvent.io (Event.close l), SrvEvent.setState LISTENER_STATE_TYPE.FINISHED] ∧
    closesOnlyAccepted acceptEnv pre

/-! ## network.h : texts

Texts are lists of characters. The operations of the Arduino String class that
network.h uses are library code; they are written here after the Arduino core
(WString.cpp), for texts without a NUL character. -/

/-- The function strstr of the C library: the offset of the first place at
which needle starts in s. -/
def strstr : List Char → List Char → Option Nat
  | [], needle => if needle.isPrefixOf [] then some 0 else none
  | c :: t, needle =>
    if needle.isPrefixOf (c :: t) then some 0 else (strstr t needle).map (· + 1)

/-- String::indexOf (s2): -1 when the text is empty (fromIndex 0 >= len) or strstr
finds nothing, the offset strstr finds otherwise. -/
def arduinoIndexOf (s needle : List Char) : Int :=
  if s.length = 0 then -1
  else match strstr s needle with
    | some i => (i : Int)
    | none => -1

/-- String::substring (left, right): the bounds are swapped when left > right,
the result is empty when left is not below the length, right is cut down to
the length. -/
def arduinoSubstring (s : List Char) (left right : Nat) : List Char :=
  let l := if left > right then right else left
  let r := if left > right then left else right
  if l ≥ s.length then [] else (s.take (min r s.length)).drop l

/-- String::substring (left), which is substring (left, length). -/
def arduinoSubstringFrom (s : List Char) (left : Nat) : List Char :=
  arduinoSubstring s left s.length

/-- String::endsWith (s2): false when s2 is longer than the text, else whether
the last characters of the text are s2. -/
def arduinoEndsWith (s tail : List Char) : Bool :=
  if s.length < tail.length then false
  else decide (s.drop (s.length - tail.length) = tail)

/-- The local variables of __compactNetworkConfiguration__ that live across
iterations of its loop. -/
structure CompactState where
  outp : List Char
  inComment : Bool
  inQuotation : Bool
deriving DecidableEq, Repr

/-- The loop while (outp.endsWith ("\n") || outp.endsWith (" ")) outp =
outp.substring (0, outp.length () - 1) of the braces cases; every pass shortens
outp, so a bound equal to its length is never reached. -/
def stripLineEnd : Nat → List Char → List Char
  | 0, outp => outp
  | n + 1, outp =>
    if arduinoEndsWith outp ['\n'] || arduinoEndsWith outp [' '] then
      stripLineEnd n (arduinoSubstring outp 0 (outp.length - 1))
    else outp

/-- One pass of the for loop of __compactNetworkConfiguration__ on the
character c = inp.substring (i, i + 1). -/
def compactStep (st : CompactState) (c : Char) : CompactState :=
  if c = '#' then { st with inComment := true }
  else if c = '\x22' then { st with inQuotation := !st.inQuotation }
  else if c = '\n' then
    ⟨if !arduinoEndsWith st.outp ['\n'] then
        (if !st.inQuotation && arduinoEndsWith st.outp [' '] then
          arduinoSubstring st.outp 0 (st.outp.length - 1) else st.outp) ++ ['\n']
      else st.outp, false, false⟩
  else if c = '\x7b' then
    if !st.inComment then
      { st with outp := stripLineEnd st.outp.length st.outp ++ ['\n', '\x7b', '\n'] }
    else st
  else if c = '\x7d' then
    if !st.inComment then
      { st with outp := stripLineEnd st.outp.length st.outp ++ ['\n', '\x7d', '\n'] }
    else st
  else if c = ' ' ∨ c = '\t' ∨ c = '=' ∨ c = '\r' then
    if !st.inComment && !arduinoEndsWith st.outp [' '] && !arduinoEndsWith st.outp ['\n'] then
      { st with outp := st.outp ++ [' '] }
    else st
  else if !st.inComment then { st with outp := st.outp ++ [c] }
  else st

/-- The for loop of __compactNetworkConfiguration__ from a given state. -/
def compactFrom (st : CompactState) (inp : List Char) : CompactState :=
  inp.foldl compactStep st

/-- The for loop of __compactNetworkConfiguration__ on the whole input. -/
def compactLoop (inp : List Char) : CompactState :=
  compactFrom ⟨[], false, false⟩ inp

/-- The function __compactNetworkConfiguration__ of network.h. -/
def __compactNetworkConfiguration__ (inp : List Char) : List Char :=
  let outp := (compactLoop inp).outp
  if arduinoEndsWith outp [' '] then arduinoSubstring outp 0 (outp.length - 1) else outp

/-- The function __insideBrackets__ of network.h. -/
def __insideBrackets__ (inp opening closing : List Char) : List Char :=
  let i := arduinoIndexOf inp opening
  if i ≥ 0 then
    let inp1 := arduinoSubstringFrom inp (i.toNat + opening.length)
    let i1 := arduinoIndexOf inp1 closing
    if i1 ≥ 0 then arduinoSubstring inp1 0 i1.toNat else []
  else []

/-- The part of connectNetwork that reads the access point SSID and password:
fileContent is what readEntireTextFile gives for /etc/hostapd/hostapd.conf; the
result is (apSSID, apPassword). -/
def accessPointCredentials (fileContent : List Char) : List Char × List Char :=
  let s := __compactNetworkConfiguration__ (fileContent ++ ['\n'])
  let i := arduinoIndexOf s "interface wlan1".toList
  if i ≥ 0 then
    let s1 := arduinoSubstringFrom s i.toNat
    (__insideBrackets__ (arduinoSubstringFrom s1 (i.toNat + 15)) "ssid ".toList "\n".toList,
     __insideBrackets__ (arduinoSubstringFrom s1 (i.toNat + 15)) "wpa_passphrase ".toList
       "\n".toList)
  else ([], [])

/-- The hostapd.conf that connectNetwork writes when there is none. -/
def defaultHostapdConf : List Char :=
  ("# only wlan1 can be used for access point\r\n" ++
   "\r\n" ++
   "interface = wlan1\r\n" ++
   "   ssid = ESP32_SRV\r\n" ++
   "   # use at least 8 characters for wpa_passphrase\r\n" ++
   "   wpa_passphrase = YOUR-AP-PASSWORD\r\n").toList

/-- A hostapd.conf with one more setting in front of the interface line. -/
def hostapdConfWithCountry : List Char :=
  ("country_code = SI\r\n" ++
   "interface = wlan1\r\n" ++
   "   ssid = ESP32_SRV\r\n" ++
   "   wpa_passphrase = YOUR-AP-PASSWORD\r\n").toList

/-! ## network.h : what the claims about the texts speak of -/

/-- The place i is the first one at which needle starts in s. -/
def firstAt (needle s : List Char) (i : Nat) : Prop :=
  i ≤ s.length ∧ needle <+: s.drop i ∧ ∀ k, k < i → ¬ needle <+: s.drop k

instance (needle s : List Char) (i : Nat) : Decidable (firstAt needle s i) := by
  unfold firstAt
  infer_instance

/-- Two neighbouring characters that the compact form allows: not two blanks,
not two line ends, no blank after a line end. -/
def compactPair (a b : Char) : Prop :=
  ¬ (a = ' ' ∧ b = ' ') ∧ ¬ (a = '\n' ∧ b = '\n') ∧ ¬ (a = '\n' ∧ b = ' ')

/-- The invariant of the loop of __compactNetworkConfiguration__ on outp. -/
def compactForm (outp : List Char) : Prop :=
  (∀ c ∈ outp, c ≠ '#' ∧ c ≠ '\x22' ∧ c ≠ '=' ∧ c ≠ '\t' ∧ c ≠ '\r') ∧
  List.Chain' compactPair outp

/-! ## network.h : addresses

IPAddressFromString reads its text with sscanf and the format %i.%i.%i.%i. The
function sscanf is library code, of newlib in the tool chain of the ESP32; the
directive %i is written here after it: white space is skipped, a sign may come
first, a numeral that starts with 0x or 0X and a hexadecimal digit is
hexadecimal, one that starts with 0 is octal, any other is decimal. A number
that does not fit into a long (32 bits on the ESP32, as the int it is stored
in) is replaced by the largest or the smallest long, as strtol does. sscanf
collects a numeral in a buffer of fixed size: what it does with a numeral
longer than that buffer is not followed here, and the theorems speak of
numerals of at most 12 characters. -/

/-- The function isspace of the C library in the C locale. -/
def isspace (c : Char) : Bool :=
  decide (c.toNat = 32 ∨ (9 ≤ c.toNat ∧ c.toNat ≤ 13))

/-- The value of a character as a digit of a numeral: 0-9, a-f, A-F. -/
def digitValue (c : Char) : Option Nat :=
  if 48 ≤ c.toNat ∧ c.toNat ≤ 57 then some (c.toNat - 48)
  else if 97 ≤ c.toNat ∧ c.toNat ≤ 102 then some (c.toNat - 87)
  else if 65 ≤ c.toNat ∧ c.toNat ≤ 70 then some (c.toNat - 55)
  else none

/-- The digits of a numeral in the given base, read as far as they go; the
result is the value and the text left. -/
def scanDigits (base : Nat) : List Char → Nat → Nat × List Char
  | [], acc => (acc, [])
  | c :: t, acc =>
    match digitValue c with
    | some v => if v < base then scanDigits base t (base * acc + v) else (acc, c :: t)
    | none => (acc, c :: t)

/-- The numeral of the directive %i behind the sign: none is a matching
failure. When 0x or 0X is not followed by a hexadecimal digit, the x is pushed
back and the numeral is the 0 in front of it. -/
def scanUnsigned (s : List Char) : Option (Nat × List Char) :=
  match s with
  | [] => none
  | c :: t =>
    if c = '0' then
      match t with
      | [] => some (0, [])
      | x :: t2 =>
        if x = 'x' ∨ x = 'X' then
          match t2 with
          | [] => some (0, x :: t2)
          | h :: _ =>
            if (digitValue h).isSome then some (scanDigits 16 t2 0) else some (0, x :: t2)
        else some (scanDigits 8 t 0)
    else
      match digitValue c with
      | some v => if v < 10 then some (scanDigits 10 t v) else none
      | none => none

/-- The white space that a directive skips. -/
def skipSpace : List Char → List Char
  | [] => []
  | c :: t => if isspace c then skipSpace t else c :: t

/-- The value strtol returns for a number: the number itself when it fits into
a long of 32 bits, LONG_MAX or LONG_MIN when it does not. -/
def strtolRange (v : Int) : Int :=
  if v > 2147483647 then 2147483647
  else if v < -2147483648 then -2147483648
  else v

/-- The directive %i of sscanf: the number read and the text left, none on a
matching failure. -/
def scanInt (s : List Char) : Option (Int × List Char) :=
  match skipSpace s with
  | [] => none
  | c :: t =>
    if c = '-' then
      (scanUnsigned t).map fun (p : Nat × List Char) => (strtolRange (-(p.1 : Int)), p.2)
    else if c = '+' then
      (scanUnsigned t).map fun (p : Nat × List Char) => (strtolRange (p.1 : Int), p.2)
    else
      (scanUnsigned (c :: t)).map fun (p : Nat × List Char) => (strtolRange (p.1 : Int), p.2)

/-- The format %i.%i. ... .%i with n directives: the numbers that sscanf
assigns, in order; sscanf stops at the first directive or dot that does not
match. -/
def scanFields : Nat → List Char → List Int
  | 0, _ => []
  | n + 1, s =>
    match scanInt s with
    | none => []
    | some (v, r) =>
      v :: (match r with
        | [] => []
        | c :: t => if c = '.' then scanFields n t else [])

/-- The four bytes of the class IPAddress. -/
structure IPAddress where
  first_octet : Nat
  second_octet : Nat
  third_octet : Nat
  fourth_octet : Nat
deriving DecidableEq, Repr

/-- The conversion of an int argument to the uint8_t parameter of the
constructor IPAddress (first_octet, second_octet, third_octet, fourth_octet). -/
def toUint8 (v : Int) : Nat := (v % 256).toNat

/-- The function IPAddressFromString of network.h: sscanf returns 4 exactly
when four numbers were assigned. -/
def IPAddressFromString (ipAddress : List Char) : IPAddress :=
  match scanFields 4 ipAddress with
  | [ip1, ip2, ip3, ip4] => ⟨toUint8 ip1, toUint8 ip2, toUint8 ip3, toUint8 ip4⟩
  | _ => ⟨0, 42, 42, 42⟩

/-- The number that a text of decimal digits writes. -/
def decimalValue (ds : List Char) : Nat :=
  ds.foldl (fun acc c => 10 * acc + (c.toNat - 48)) 0

/-- A decimal numeral of a byte: one decimal digit or more, at most 255. -/
def octetNumeral (ds : List Char) : Prop :=
  ds ≠ [] ∧ (∀ c ∈ ds, 48 ≤ c.toNat ∧ c.toNat ≤ 57) ∧ decimalValue ds ≤ 255

instance (ds : List Char) : Decidable (octetNumeral ds) := by
  unfold octetNumeral
  infer_instance

/-- A numeral without a leading zero: if it starts with 0 it is 0 itself. -/
def noLeadingZero (ds : List Char) : Prop :=
  ds.head? = some '0' → ds = ['0']

instance (ds : List Char) : Decidable (noLeadingZero ds) := by
  unfold noLeadingZero
  infer_instance

/-- The text a.b.c.d. -/
def dotted (a b c d : List Char) : List Char :=
  a ++ '.' :: (b ++ '.' :: (c ++ '.' :: d))

/-- A character that is not a decimal digit stops the digits of a decimal
numeral. -/
def notDecimalDigit (rest : List Char) : Prop :=
  ∀ c, rest.head? = some c → ¬ (48 ≤ c.toNat ∧ c.toNat ≤ 57)

instance (rest : List Char) : Decidable (notDecimalDigit rest) := by
  unfold notDecimalDigit
  cases rest with
  | nil => exact isTrue (fun c h => by simp at h)
  | cons a t =>
    exact decidable_of_iff (¬ (48 ≤ a.toNat ∧ a.toNat ≤ 57))
      ⟨fun h c hc => by
        simp only [List.head?_cons, Option.some.injEq] at hc
        rw [← hc]; exact h,
       fun h => h a rfl⟩

/-- The text does not start with x or X, the mark of a hexadecimal numeral
behind a 0. -/
def notHexMark (rest : List Char) : Prop :=
  rest.head? ≠ some 'x' ∧ rest.head? ≠ some 'X'

instance (rest : List Char) : Decidable (notHexMark rest) := by
  unfold notHexMark
  infer_instance

/-- The base in which the directive %i reads a numeral of digits: 8 when the
numeral starts with 0, 10 otherwise. -/
def numeralBase (ds : List Char) : Nat :=
  if ds.head? = some '0' then 8 else 10

/-- The number that a numeral of digits writes in its base. -/
def numeralValue (ds : List Char) : Nat :=
  ds.foldl (fun acc c => numeralBase ds * acc + (c.toNat - 48)) 0

/-- A numeral that the directive %i reads whole and without reaching the bounds
of a long: at least one and at most 12 characters, each a digit of the base of
the numeral, the value at most 2^31 - 1. -/
def intNumeral (ds : List Char) : Prop :=
  ds ≠ [] ∧ ds.length ≤ 12 ∧ (∀ c ∈ ds, 48 ≤ c.toNat ∧ c.toNat < 48 + numeralBase ds) ∧
  numeralValue ds ≤ 2147483647

instance (ds : List Char) : Decidable (intNumeral ds) := by
  unfold intNumeral
  infer_instance

/-- A text that the directive %i cannot start on: it is empty, or its first
character is not white space, a sign or a decimal digit. -/
def noNumberAhead (s : List Char) : Prop :=
  ∀ c, s.head? = some c →
    isspace c = false ∧ c ≠ '-' ∧ c ≠ '+' ∧ ¬ (48 ≤ c.toNat ∧ c.toNat ≤ 57)

/-! ## Sending on a link that takes every chunk whole -/

theorem chunkSizes_zero : chunkSizes 0 = [] := by
  simp [chunkSizes]

theorem chunkSizes_pos (m : Nat) (hm : 0 < m) :
    chunkSizes m = min SEND_CHUNK (m : Int) :: chunkSizes (m - min m 2048) := by
  unfold chunkSizes
  have hlen : (m + 2047) / 2048 = (m - min m 2048 + 2047) / 2048 + 1 := by omega
  rw [hlen, List.range_succ_eq_map]
  simp only [List.map_cons, List.map_map]
  congr 1
  apply List.map_congr_left
  intro k hk
  have hk2 : k < (m - min m 2048 + 2047) / 2048 := List.mem_range.mp hk
  have h1 : 2048 < m := by
    by_contra hcon
    have : m - min m 2048 = 0 := by omega
    rw [this] at hk2
    omega
  have h2 : min m 2048 = 2048 := by omega
  have h3 : (m : Int) - 2048 * ((Nat.succ k : Nat) : Int)
      = ((m - 2048 : Nat) : Int) - 2048 * (k : Int) := by
    push_cast [Nat.cast_sub (le_of_lt h1)]
    ring
  simp only [Function.comp, h2, h3]

theorem sendDataLoop_whole_chunks (env : Nat → Int → SysResult)
    (henv : ∀ k len, 0 < len → (env k len).ret = len) :
    ∀ (fuel k : Nat) (c : TcpConnection) (writtenTotal : Int) (m : Nat),
      c.__socket__ ≠ -1 → (m + 2047) / 2048 ≤ fuel →
      (TcpConnection.sendDataLoop env fuel k c writtenTotal m).result = some (writtenTotal + m) ∧
      (TcpConnection.sendDataLoop env fuel k c writtenTotal m).trace
        = (chunkSizes m).map fun len => Event.send c.__socket__ len len := by
  intro fuel
  induction fuel with
  | zero =>
    intro k c wt m _ hf
    have hm : m = 0 := by omega
    subst hm
    simp [TcpConnection.sendDataLoop, chunkSizes_zero]
  | succ fuel ih =>
    intro k c wt m hopen hf
    rcases Nat.eq_zero_or_pos m with hm | hm
    · subst hm
      simp [TcpConnection.sendDataLoop, chunkSizes_zero]
    · have hlen : 0 < min (m : Int) SEND_CHUNK := by
        simp only [SEND_CHUNK]; omega
      have hret := henv k _ hlen
      have hm0 : (m : Int) ≠ 0 := by omega
      have hsub : (m : Int) - min (m : Int) SEND_CHUNK = ((m - min m 2048 : Nat) : Int) := by
        simp only [SEND_CHUNK]; omega
      have hrec := ih (k + 1)
        { c with __lastActiveMillis__ := (env k (min (m : Int) SEND_CHUNK)).now }
        (wt + min (m : Int) SEND_CHUNK) (m - min m 2048) hopen (by omega)
      have hne1 : min (m : Int) SEND_CHUNK ≠ -1 := by omega
      have hne0 : min (m : Int) SEND_CHUNK ≠ 0 := by omega
      simp only [TcpConnection.sendDataLoop, hm0, hopen, if_false, hret, hne1, hne0,
        Outcome.prepend, hsub]
      rw [chunkSizes_pos m hm]
      refine ⟨?_, ?_⟩
      · rw [hrec.1]
        congr 1
        have : ((m - min m 2048 : Nat) : Int) = (m : Int) - min (m : Int) SEND_CHUNK := hsub.symm
        rw [this]; ring
      · rw [hrec.2]
        simp [min_comm]

/-- C1: on an open connection whose every send () takes the whole chunk offered,
sendData (buffer, n) issues exactly the ceil (n / 2048) transfers listed by
chunkSizes n, the k-th of size min (2048, n - 2048 (k - 1)), nothing else, and
returns n. -/
theorem sendData_whole_chunks (c : TcpConnection) (env : Nat → Int → SysResult) (n fuel : Nat)
    (hopen : c.__socket__ ≠ -1)
    (henv : ∀ k len, 0 < len → (env k len).ret = len)
    (hfuel : (n + 2047) / 2048 ≤ fuel) :
    (c.sendData env n fuel).result = some (n : Int) ∧
    (c.sendData env n fuel).trace = (chunkSizes n).map (fun len => Event.send c.__socket__ len len) ∧
    (chunkSizes n).length = (n + 2047) / 2048 := by
  have h := sendDataLoop_whole_chunks env henv fuel 0 c 0 n hopen hfuel
  refine ⟨?_, h.2, ?_⟩
  · simpa [TcpConnection.sendData] using h.1
  · simp [chunkSizes]

/-- C1 at n = 5000: the transfers are 2048, 2048, 904 and the result is 5000. -/
theorem sendData_whole_chunks_witness :
    ((sampleConnection 0).sendData healthyLink 5000 3).result = some 5000 ∧
    ((sampleConnection 0).sendData healthyLink 5000 3).trace
      = [Event.send 5 2048 2048, Event.send 5 2048 2048, Event.send 5 904 904] := by
  have h := sendData_whole_chunks (sampleConnection 0) healthyLink 5000 3 (by decide)
    (fun _ _ _ => rfl) (by decide)
  exact ⟨h.1, h.2.1.trans (by decide)⟩

/-! ## What sendData returns in general -/

theorem sentBytes_nil : sentBytes [] = 0 := by
  simp [sentBytes, sendCalls]

theorem sentBytes_send (s len ret : Int) (tr : List Event) :
    sentBytes (Event.send s len ret :: tr) = (if 0 < ret then ret else 0) + sentBytes tr := by
  simp [sentBytes, sendCalls, List.filterMap_cons]

theorem sentBytes_delay (ms : Nat) (tr : List Event) :
    sentBytes (Event.delay ms :: tr) = sentBytes tr := by
  simp [sentBytes, sendCalls, List.filterMap_cons]

theorem sentBytes_close (s : Int) (tr : List Event) :
    sentBytes (Event.close s :: tr) = sentBytes tr := by
  simp [sentBytes, sendCalls, List.filterMap_cons]

theorem flagAndClose_result (c : TcpConnection) (ev : Event) (v : Int) (x : ExitPoint) :
    (c.flagAndClose ev v x).result = some v ∧ (c.flagAndClose ev v x).exit = x ∧
    (c.flagAndClose ev v x).conn = { c with __timeOut__ := true, __socket__ := -1 } ∧
    (c.flagAndClose ev v x).trace
      = ev :: (if c.__socket__ ≠ -1 then [Event.close c.__socket__] else []) := by
  unfold TcpConnection.flagAndClose TcpConnection.closeConnection
  by_cases h : c.__socket__ = -1 <;> simp [h]

theorem sendDataLoop_returned (env : Nat → Int → SysResult)
    (henv : ∀ k len, 0 < len → (env k len).ret = -1 ∨ (0 ≤ (env k len).ret ∧ (env k len).ret ≤ len)) :
    ∀ (fuel k : Nat) (c : TcpConnection) (writtenTotal bufferSize v : Int),
      0 ≤ bufferSize →
      (TcpConnection.sendDataLoop env fuel k c writtenTotal bufferSize).result = some v →
      v = writtenTotal + sentBytes (TcpConnection.sendDataLoop env fuel k c writtenTotal bufferSize).trace ∧
      writtenTotal ≤ v ∧ v ≤ writtenTotal + bufferSize ∧
      (v = writtenTotal + bufferSize ↔
        (TcpConnection.sendDataLoop env fuel k c writtenTotal bufferSize).exit
          = ExitPoint.completed) := by
  intro fuel
  induction fuel with
  | zero =>
    intro k c wt bs v _ hres
    by_cases hbs : bs = 0
    · simp only [TcpConnection.sendDataLoop, hbs, if_true] at hres ⊢
      have hv : wt = v := by simpa using hres
      subst hv
      simp [sentBytes_nil]
    · simp [TcpConnection.sendDataLoop, hbs] at hres
  | succ fuel ih =>
    intro k c wt bs v hbs0 hres
    by_cases hbs : bs = 0
    · simp only [TcpConnection.sendDataLoop, hbs, if_true] at hres ⊢
      have hv : wt = v := by simpa using hres
      subst hv
      simp [sentBytes_nil]
    · have hpos : 0 < bs := lt_of_le_of_ne hbs0 (Ne.symm hbs)
      by_cases hsock : c.__socket__ = -1
      · simp only [TcpConnection.sendDataLoop, hbs, hsock, if_true, if_false] at hres ⊢
        have hv : wt = v := by simpa using hres
        subst hv
        simp only [sentBytes_nil, add_zero, le_refl, true_and]
        refine ⟨by omega, ?_⟩
        constructor
        · intro h; omega
        · intro h; cases h
      · have hlen : 0 < min bs SEND_CHUNK := by
          simp only [SEND_CHUNK]; omega
        have hle : min bs SEND_CHUNK ≤ bs := min_le_left _ _
        rcases henv k _ hlen with hr | hr
        · -- send () failed
          by_cases herr : (env k (min bs SEND_CHUNK)).errno = EAGAIN ∨
              (env k (min bs SEND_CHUNK)).errno = ENAVAIL
          · by_cases htime : c.__timeOutMillis__ = INFINITE_TIMEOUT ∨
                elapsedMillis (env k (min bs SEND_CHUNK)).now c.__lastActiveMillis__
                  < c.__timeOutMillis__
            · simp only [TcpConnection.sendDataLoop, hbs, hsock, if_false, hr, if_true, herr,
                htime, Outcome.prepend] at hres ⊢
              have h := ih (k + 1) c wt bs v hbs0 hres
              simp only [List.cons_append, List.nil_append, sentBytes_send, sentBytes_delay]
              refine ⟨?_, h.2.1, h.2.2.1, h.2.2.2⟩
              rw [h.1]; simp
            · have hf := flagAndClose_result c
                (Event.send c.__socket__ (min bs SEND_CHUNK) (-1)) wt ExitPoint.timedOut
              simp only [TcpConnection.sendDataLoop, hbs, hsock, if_false, hr, if_true, herr,
                htime] at hres ⊢
              rw [hf.1] at hres
              have hv : wt = v := by simpa using hres
              subst hv
              rw [hf.2.1, hf.2.2.2]
              simp only [hsock, ne_eq, not_false_eq_true, if_true, sentBytes_send,
                sentBytes_close, sentBytes_nil]
              refine ⟨by simp, le_refl _, by omega, ?_⟩
              constructor
              · intro h; omega
              · intro h; cases h
          · have hf := flagAndClose_result c
              (Event.send c.__socket__ (min bs SEND_CHUNK) (-1)) wt ExitPoint.hardError
            simp only [TcpConnection.sendDataLoop, hbs, hsock, if_false, hr, if_true, herr]
              at hres ⊢
            rw [hf.1] at hres
            have hv : wt = v := by simpa using hres
            subst hv
            rw [hf.2.1, hf.2.2.2]
            simp only [hsock, ne_eq, not_false_eq_true, if_true, sentBytes_send,
              sentBytes_close, sentBytes_nil]
            refine ⟨by simp, le_refl _, by omega, ?_⟩
            constructor
            · intro h; omega
            · intro h; cases h
        · -- send () returned a count
          have hne1 : (env k (min bs SEND_CHUNK)).ret ≠ -1 := by omega
          by_cases hz : (env k (min bs SEND_CHUNK)).ret = 0
          · have h01 : ¬ ((0 : Int) = -1) := by decide
            simp only [TcpConnection.sendDataLoop, hbs, hsock, if_false, hz, h01, if_true]
              at hres ⊢
            have hv : wt = v := by simpa using hres
            subst hv
            simp only [sentBytes_send, sentBytes_nil]
            refine ⟨by simp, le_refl _, by omega, ?_⟩
            constructor
            · intro h; omega
            · intro h; simp at h
          · simp only [TcpConnection.sendDataLoop, hbs, hsock, if_false, hne1, hz,
              Outcome.prepend] at hres ⊢
            have hrpos : 0 < (env k (min bs SEND_CHUNK)).ret := by omega
            have h := ih (k + 1) _ _ _ v (by omega) hres
            simp only [List.cons_append, List.nil_append, sentBytes_send, hrpos, if_true]
            refine ⟨?_, by omega, by omega, ?_⟩
            · rw [h.1]; ring
            · rw [← h.2.2.2]
              constructor <;> intro h' <;> omega

theorem sendDataLoop_running_iff (env : Nat → Int → SysResult) :
    ∀ (fuel k : Nat) (c : TcpConnection) (writtenTotal bufferSize : Int),
      (TcpConnection.sendDataLoop env fuel k c writtenTotal bufferSize).result = none ↔
      (TcpConnection.sendDataLoop env fuel k c writtenTotal bufferSize).exit
        = ExitPoint.running := by
  intro fuel
  induction fuel with
  | zero =>
    intro k c wt bs
    by_cases hbs : bs = 0 <;> simp [TcpConnection.sendDataLoop, hbs]
  | succ fuel ih =>
    intro k c wt bs
    unfold TcpConnection.sendDataLoop
    simp only [Outcome.prepend]
    split_ifs <;>
      first
        | exact ih _ _ _ _
        | simp [TcpConnection.flagAndClose]

/-- C2: when every send () result is -1 or a count that does not exceed the
chunk offered, the value sendData (buffer, n) returns is the sum of the positive
send () results, lies between 0 and n, and is n exactly when the loop ran to
its end instead of leaving through the closed-socket test, a zero result, a
hard error or a time-out. -/
theorem sendData_returns_bytes_sent (c : TcpConnection) (env : Nat → Int → SysResult)
    (n fuel : Nat) (v : Int)
    (henv : ∀ k len, 0 < len → (env k len).ret = -1 ∨ (0 ≤ (env k len).ret ∧ (env k len).ret ≤ len))
    (hret : (c.sendData env n fuel).result = some v) :
    v = sentBytes (c.sendData env n fuel).trace ∧ 0 ≤ v ∧ v ≤ n ∧
    (v = n ↔ (c.sendData env n fuel).exit = ExitPoint.completed) ∧
    (v = n ↔ ¬ ((c.sendData env n fuel).exit = ExitPoint.socketClosed ∨
                (c.sendData env n fuel).exit = ExitPoint.zeroResult ∨
                (c.sendData env n fuel).exit = ExitPoint.hardError ∨
                (c.sendData env n fuel).exit = ExitPoint.timedOut)) := by
  have h := sendDataLoop_returned env henv fuel 0 c 0 n v (by omega) hret
  have hrun : (c.sendData env n fuel).exit ≠ ExitPoint.running := by
    intro hx
    have hnone := (sendDataLoop_running_iff env fuel 0 c 0 n).mpr hx
    unfold TcpConnection.sendData at hret
    rw [hnone] at hret
    cases hret
  simp only [zero_add] at h
  refine ⟨h.1, h.2.1, h.2.2.1, h.2.2.2, ?_⟩
  rw [h.2.2.2]
  unfold TcpConnection.sendData at hrun ⊢
  cases hx : (TcpConnection.sendDataLoop env fuel 0 c 0 n).exit <;> simp_all

/-- C2 on a run that stalls after 1000 of 5000 bytes and then times out. -/
theorem sendData_returns_bytes_sent_witness :
    ((sampleConnection 1000).sendData stallingLink 5000 10).result = some 1000 ∧
    (1000 : Int) = sentBytes ((sampleConnection 1000).sendData stallingLink 5000 10).trace ∧
    ((sampleConnection 1000).sendData stallingLink 5000 10).exit = ExitPoint.timedOut := by
  have henv : ∀ (k : Nat) (len : Int), 0 < len →
      (stallingLink k len).ret = -1 ∨
        (0 ≤ (stallingLink k len).ret ∧ (stallingLink k len).ret ≤ len) := by
    intro k len hlen
    unfold stallingLink
    split_ifs
    · right; simp only; omega
    · left; rfl
    · left; rfl
  have h := sendData_returns_bytes_sent (sampleConnection 1000) stallingLink 5000 10 1000 henv
    (by decide)
  exact ⟨by decide, h.1, by decide⟩

/-! ## Waiting in recvData -/

theorem prepend_prepend (a b : List Event) (o : Outcome) :
    (o.prepend b).prepend a = o.prepend (a ++ b) := by
  simp [Outcome.prepend]

theorem recvDataLoop_step_retry (env : Nat → SysResult) (bufferSize : Int) (fuel k : Nat)
    (c : TcpConnection) (hopen : c.__socket__ ≠ -1) (hnr : notReady (env k))
    (hin : inTime c (env k)) :
    TcpConnection.recvDataLoop env bufferSize (fuel + 1) k c
      = (TcpConnection.recvDataLoop env bufferSize fuel (k + 1) c).prepend
          [Event.recv c.__socket__ bufferSize (-1), Event.delay 1] := by
  unfold notReady at hnr
  unfold inTime at hin
  rw [TcpConnection.recvDataLoop]
  simp only [hopen, if_false, hnr.1, hnr.2, hin, if_true]

theorem recvDataLoop_step_late (env : Nat → SysResult) (bufferSize : Int) (fuel k : Nat)
    (c : TcpConnection) (hopen : c.__socket__ ≠ -1) (hnr : notReady (env k))
    (hout : ¬ inTime c (env k)) :
    TcpConnection.recvDataLoop env bufferSize (fuel + 1) k c
      = ⟨some 0, ExitPoint.timedOut, { c with __timeOut__ := true, __socket__ := -1 },
          [Event.recv c.__socket__ bufferSize (-1), Event.close c.__socket__]⟩ := by
  unfold notReady at hnr
  unfold inTime at hout
  rw [TcpConnection.recvDataLoop]
  simp only [hopen, if_false, hnr.1, hnr.2, hout, if_true, TcpConnection.flagAndClose,
    TcpConnection.closeConnection, ne_eq, not_false_eq_true]

theorem recvDataLoop_retries (env : Nat → SysResult) (bufferSize : Int) :
    ∀ (n k : Nat) (c : TcpConnection), c.__socket__ ≠ -1 →
      (∀ i, k ≤ i → i < k + n → notReady (env i) ∧ inTime c (env i)) →
      ∀ fuel, TcpConnection.recvDataLoop env bufferSize (n + fuel) k c
        = (TcpConnection.recvDataLoop env bufferSize fuel (k + n) c).prepend
            (recvRetries c.__socket__ bufferSize n) := by
  intro n
  induction n with
  | zero =>
    intro k c _ _ fuel
    simp [recvRetries, Outcome.prepend]
  | succ n ih =>
    intro k c hopen h fuel
    have h0 := h k (le_refl _) (by omega)
    have hrest := ih (k + 1) c hopen (fun i hi1 hi2 => h i (by omega) (by omega)) fuel
    have hfuel : n + 1 + fuel = (n + fuel) + 1 := by omega
    rw [hfuel, recvDataLoop_step_retry env bufferSize (n + fuel) k c hopen h0.1 h0.2, hrest,
      prepend_prepend]
    have hk : k + 1 + n = k + (n + 1) := by omega
    rw [hk]
    rfl

/-- C3: with an open socket and a time-out T > 0, when the reads report not
ready, recvData yields and retries at every poll at which (now - lastActive)
is below T, and at the first poll j at which it is at least T it returns 0
with the time-out flag set and the handle -1. -/
theorem recvData_times_out (c : TcpConnection) (env : Nat → SysResult) (bufferSize : Int)
    (T j : Nat) (hopen : c.__socket__ ≠ -1) (hT : c.__timeOutMillis__ = T) (hpos : 0 < T)
    (hnr : ∀ k, k ≤ j → notReady (env k))
    (hbefore : ∀ k, k < j → elapsedMillis (env k).now c.__lastActiveMillis__ < T)
    (hat : T ≤ elapsedMillis (env j).now c.__lastActiveMillis__) :
    (∀ fuel, fuel ≤ j →
      c.recvData env bufferSize fuel
        = ⟨none, ExitPoint.running, c, recvRetries c.__socket__ bufferSize fuel⟩) ∧
    (∀ fuel, j < fuel →
      c.recvData env bufferSize fuel
        = ⟨some 0, ExitPoint.timedOut, { c with __timeOut__ := true, __socket__ := -1 },
            recvRetries c.__socket__ bufferSize j
              ++ [Event.recv c.__socket__ bufferSize (-1), Event.close c.__socket__]⟩ ∧
      (c.recvData env bufferSize fuel).conn.timeOut = true ∧
      (c.recvData env bufferSize fuel).conn.__socket__ = -1) := by
  have hin : ∀ i, i < j → inTime c (env i) := fun i hi => Or.inr (hT ▸ hbefore i hi)
  have hout : ¬ inTime c (env j) := by
    unfold inTime INFINITE_TIMEOUT
    omega
  constructor
  · intro fuel hf
    have h := recvDataLoop_retries env bufferSize fuel 0 c hopen
      (fun i _ hi => ⟨hnr i (by omega), hin i (by omega)⟩) 0
    simp only [Nat.add_zero, Nat.zero_add] at h
    rw [TcpConnection.recvData, h]
    simp [TcpConnection.recvDataLoop, Outcome.prepend]
  · intro fuel hf
    obtain ⟨f, rfl⟩ : ∃ f, fuel = j + (f + 1) := ⟨fuel - j - 1, by omega⟩
    have h := recvDataLoop_retries env bufferSize j 0 c hopen
      (fun i _ hi => ⟨hnr i (by omega), hin i (by omega)⟩) (f + 1)
    simp only [Nat.zero_add] at h
    have hlate := recvDataLoop_step_late env bufferSize f j c hopen (hnr j (le_refl _)) hout
    have heq : c.recvData env bufferSize (j + (f + 1))
        = ⟨some 0, ExitPoint.timedOut, { c with __timeOut__ := true, __socket__ := -1 },
            recvRetries c.__socket__ bufferSize j
              ++ [Event.recv c.__socket__ bufferSize (-1), Event.close c.__socket__]⟩ := by
      rw [TcpConnection.recvData, h, hlate]
      rfl
    rw [heq]
    exact ⟨rfl, rfl, rfl⟩

/-- C3 on a silent socket with T = 1000, last activity at 0 and the clock
started at 998: polls at 998 and 999 are retried, the poll at 1000 returns 0. -/
theorem recvData_times_out_witness :
    (sampleConnection 1000).recvData (silentSocket 998) 64 2
      = ⟨none, ExitPoint.running, sampleConnection 1000, recvRetries 5 64 2⟩ ∧
    ((sampleConnection 1000).recvData (silentSocket 998) 64 3).result = some 0 ∧
    ((sampleConnection 1000).recvData (silentSocket 998) 64 3).conn.timeOut = true ∧
    ((sampleConnection 1000).recvData (silentSocket 998) 64 3).conn.__socket__ = -1 := by
  have h := recvData_times_out (sampleConnection 1000) (silentSocket 998) 64 1000 2
    (by decide) rfl (by decide) (fun k _ => ⟨rfl, Or.inl rfl⟩)
    (by
      intro k hk
      have hk2 : k = 0 ∨ k = 1 := by omega
      rcases hk2 with rfl | rfl <;> decide)
    (by decide)
  have h3 := (h.2 3 (by decide))
  exact ⟨h.1 2 (le_refl _), by rw [h3.1], h3.2.1, h3.2.2⟩

theorem recvDataLoop_waits_iff (env : Nat → SysResult) (bufferSize : Int) :
    ∀ (fuel k : Nat) (c : TcpConnection), c.__socket__ ≠ -1 →
      (∀ i, k ≤ i → i < k + fuel → notReady (env i)) →
      ((TcpConnection.recvDataLoop env bufferSize fuel k c).result = none ↔
        ∀ i, k ≤ i → i < k + fuel → inTime c (env i)) := by
  intro fuel
  induction fuel with
  | zero =>
    intro k c _ _
    simp only [TcpConnection.recvDataLoop, true_iff]
    intro i h1 h2
    omega
  | succ fuel ih =>
    intro k c hopen hnr
    by_cases hin : inTime c (env k)
    · rw [recvDataLoop_step_retry env bufferSize fuel k c hopen (hnr k (le_refl _) (by omega)) hin]
      have h := ih (k + 1) c hopen (fun i h1 h2 => hnr i (by omega) (by omega))
      simp only [Outcome.prepend]
      rw [h]
      constructor
      · intro hall i h1 h2
        rcases Nat.eq_or_lt_of_le h1 with heq | hlt
        · rw [← heq]; exact hin
        · exact hall i hlt (by omega)
      · intro hall i h1 h2
        exact hall i (by omega) (by omega)
    · rw [recvDataLoop_step_late env bufferSize fuel k c hopen (hnr k (le_refl _) (by omega)) hin]
      constructor
      · intro h; cases h
      · intro hall
        exact absurd (hall k (le_refl _) (by omega)) hin

/-- C4 as stated fails: with T = 1000 and a last activity 5000 ms before the
call, recvData on a silent socket returns at its first poll, no time having
passed since the call. -/
theorem recvData_wall_time_counterexample :
    ¬ (∀ (c : TcpConnection) (env : Nat → SysResult) (bufferSize : Int) (j : Nat),
        0 < c.__timeOutMillis__ → (∀ k, notReady (env k)) →
        (c.recvData env bufferSize j).result = none →
        (c.recvData env bufferSize (j + 1)).result ≠ none →
        c.__timeOutMillis__ ≤ elapsedMillis (env j).now (env 0).now) := by
  intro h
  have h0 := h (sampleConnection 1000) (silentSocket 5000) 64 0 (by decide)
    (fun k => ⟨rfl, Or.inl rfl⟩) (by decide) (by decide)
  revert h0
  decide

/-- C4 amended: with an open socket and a time-out T > 0, when the reads report
not ready, the poll j at which recvData returns has (now - lastActive) at
least T: the wait is measured from the last activity of the connection, not
from the call. -/
theorem recvData_waits_since_last_activity (c : TcpConnection) (env : Nat → SysResult)
    (bufferSize : Int) (j : Nat) (hopen : c.__socket__ ≠ -1) (hpos : 0 < c.__timeOutMillis__)
    (hnr : ∀ k, k ≤ j → notReady (env k))
    (hrun : (c.recvData env bufferSize j).result = none)
    (hret : (c.recvData env bufferSize (j + 1)).result ≠ none) :
    c.__timeOutMillis__ ≤ elapsedMillis (env j).now c.__lastActiveMillis__ ∧
    ∀ k, k < j → elapsedMillis (env k).now c.__lastActiveMillis__ < c.__timeOutMillis__ := by
  have hinf : ¬ (c.__timeOutMillis__ = INFINITE_TIMEOUT) := by
    unfold INFINITE_TIMEOUT; omega
  have h1 := (recvDataLoop_waits_iff env bufferSize j 0 c hopen
    (fun i _ hi => hnr i (by omega))).mp hrun
  have h2 := (recvDataLoop_waits_iff env bufferSize (j + 1) 0 c hopen
    (fun i _ hi => hnr i (by omega))).not.mp hret
  constructor
  · by_contra hlt
    apply h2
    intro i hi1 hi2
    rcases Nat.eq_or_lt_of_le (Nat.lt_succ_iff.mp (by omega : i < j + 1)) with heq | hlt2
    · rw [heq]; exact Or.inr (by omega)
    · exact h1 i hi1 (by omega)
  · intro k hk
    rcases h1 k (Nat.zero_le _) (by omega) with h | h
    · exact absurd h hinf
    · exact h

/-- C4 amended, on a silent socket with T = 1000, last activity at 0 and the
call made at 998: the call returns at the poll that reads 1000. -/
theorem recvData_waits_since_last_activity_witness :
    ((sampleConnection 1000).recvData (silentSocket 998) 64 2).result = none ∧
    ((sampleConnection 1000).recvData (silentSocket 998) 64 3).result ≠ none ∧
    (sampleConnection 1000).__timeOutMillis__
      ≤ elapsedMillis (silentSocket 998 2).now (sampleConnection 1000).__lastActiveMillis__ := by
  have h := recvData_waits_since_last_activity (sampleConnection 1000) (silentSocket 998) 64 2
    (by decide) (by decide) (fun k _ => ⟨rfl, Or.inl rfl⟩) (by decide) (by decide)
  exact ⟨by decide, by decide, h.1⟩

/-- C5: with INFINITE_TIMEOUT and an open socket, after any number n of
consecutive not-ready reads, whatever the clock reads, recvData has not
returned, the object is unchanged (flag not set, socket not closed) and
nothing was issued but the n polls and delays; it returns at the first poll
whose read is something else. -/
theorem recvData_infinite_keeps_waiting (c : TcpConnection) (env : Nat → SysResult)
    (bufferSize : Int) (n : Nat) (hopen : c.__socket__ ≠ -1)
    (hinf : c.__timeOutMillis__ = INFINITE_TIMEOUT)
    (hnr : ∀ k, k < n → notReady (env k)) :
    c.recvData env bufferSize n
      = ⟨none, ExitPoint.running, c, recvRetries c.__socket__ bufferSize n⟩ ∧
    (¬ notReady (env n) → ∀ fuel, n < fuel →
      (c.recvData env bufferSize fuel).result ≠ none ∧
      (c.recvData env bufferSize fuel).trace
        = recvRetries c.__socket__ bufferSize n
            ++ Event.recv c.__socket__ bufferSize (env n).ret
              :: (if (env n).ret = -1 then [Event.close c.__socket__] else [])) := by
  have hall : ∀ i, 0 ≤ i → i < 0 + n → notReady (env i) ∧ inTime c (env i) :=
    fun i _ hi => ⟨hnr i (by omega), Or.inl hinf⟩
  constructor
  · have h := recvDataLoop_retries env bufferSize n 0 c hopen hall 0
    simp only [Nat.add_zero, Nat.zero_add] at h
    rw [TcpConnection.recvData, h]
    simp [TcpConnection.recvDataLoop, Outcome.prepend]
  · intro hstop fuel hf
    obtain ⟨f, rfl⟩ : ∃ f, fuel = n + (f + 1) := ⟨fuel - n - 1, by omega⟩
    have h := recvDataLoop_retries env bufferSize n 0 c hopen hall (f + 1)
    simp only [Nat.zero_add] at h
    rw [TcpConnection.recvData, h]
    unfold notReady at hstop
    rw [TcpConnection.recvDataLoop]
    simp only [hopen, if_false, Outcome.prepend]
    by_cases h1 : (env n).ret = -1
    · have herr : ¬ ((env n).errno = EAGAIN ∨ (env n).errno = ENAVAIL) := fun he => hstop ⟨h1, he⟩
      simp [h1, herr, TcpConnection.flagAndClose, TcpConnection.closeConnection, hopen]
    · by_cases h0 : (env n).ret = 0
      · simp [h0]
      · simp [h1, h0]

/-- C5 on a socket that is silent with the clock far beyond any stamp: after
50 polls the call is still waiting and the object is untouched. -/
theorem recvData_infinite_keeps_waiting_witness :
    (sampleConnection 0).recvData (silentSocket 4000000000) 64 50
      = ⟨none, ExitPoint.running, sampleConnection 0, recvRetries 5 64 50⟩ :=
  (recvData_infinite_keeps_waiting (sampleConnection 0) (silentSocket 4000000000) 64 50
    (by decide) rfl (fun _ _ => ⟨rfl, Or.inl rfl⟩)).1

/-! ## Hard errors in recvData, and available -/

/-- C6 at the failing input: time-out 1000, last activity at 0, first recv ()
fails with ECONNRESET while the clock reads 1. recvData returns 0 on that poll
without a delay, but it also sets the time-out flag although 1 < 1000. -/
theorem recvData_hard_error_raises_timeOut_flag :
    (sampleConnection 1000).recvData resetSocket 64 1
      = ⟨some 0, ExitPoint.hardError,
          { sampleConnection 1000 with __timeOut__ := true, __socket__ := -1 },
          [Event.recv 5 64 (-1), Event.close 5]⟩ ∧
    ((sampleConnection 1000).recvData resetSocket 64 1).conn.timeOut = true ∧
    (sampleConnection 1000).timeOut = false ∧
    elapsedMillis (resetSocket 0).now (sampleConnection 1000).__lastActiveMillis__
      < (sampleConnection 1000).__timeOutMillis__ := by
  decide

/-- C7 at the failing input: with INFINITE_TIMEOUT and a peek that is not ready,
available () sets the time-out flag, closes the socket and returns ERROR,
whatever the clock reads. -/
theorem available_infinite_timeout_closes (now : Nat) :
    (sampleConnection INFINITE_TIMEOUT).available ⟨-1, EAGAIN, now⟩
      = (AVAILABLE_TYPE.ERROR,
          { sampleConnection INFINITE_TIMEOUT with __timeOut__ := true, __socket__ := -1 },
          [Event.peek 5 (-1), Event.close 5]) := by
  simp [TcpConnection.available, TcpConnection.closeConnection, sampleConnection,
    INFINITE_TIMEOUT, EAGAIN]

/-- C8: for a finite time-out T > 0, available () on a peek that fails with
EAGAIN or EBADF returns NOT_AVAILABLE and leaves the object alone while
(now - lastActive) < T, and sets the time-out flag, closes and returns ERROR
once (now - lastActive) >= T; a peek that does not fail gives AVAILABLE and
leaves the object alone. -/
theorem available_finite_timeout (c : TcpConnection) (r : SysResult)
    (hT : 0 < c.__timeOutMillis__) :
    (r.ret = -1 → (r.errno = EAGAIN ∨ r.errno = EBADF) →
      elapsedMillis r.now c.__lastActiveMillis__ < c.__timeOutMillis__ →
      c.available r = (AVAILABLE_TYPE.NOT_AVAILABLE, c, [Event.peek c.__socket__ (-1)])) ∧
    (r.ret = -1 → (r.errno = EAGAIN ∨ r.errno = EBADF) →
      c.__timeOutMillis__ ≤ elapsedMillis r.now c.__lastActiveMillis__ →
      c.available r = (AVAILABLE_TYPE.ERROR, { c with __timeOut__ := true, __socket__ := -1 },
        Event.peek c.__socket__ (-1)
          :: (if c.__socket__ ≠ -1 then [Event.close c.__socket__] else []))) ∧
    (r.ret ≠ -1 →
      c.available r = (AVAILABLE_TYPE.AVAILABLE, c, [Event.peek c.__socket__ r.ret])) := by
  have hinf : ¬ (c.__timeOutMillis__ = INFINITE_TIMEOUT) := by
    unfold INFINITE_TIMEOUT; omega
  refine ⟨?_, ?_, ?_⟩
  · intro h1 herr hlt
    have hge : ¬ (c.__timeOutMillis__ ≤ elapsedMillis r.now c.__lastActiveMillis__) := by omega
    simp [TcpConnection.available, h1, herr, hinf, hge]
  · intro h1 herr hge
    unfold TcpConnection.available TcpConnection.closeConnection
    by_cases hs : c.__socket__ = -1 <;> simp [h1, herr, hge, hs]
  · intro h1
    simp [TcpConnection.available, h1]

/-- C8 on a connection with T = 1000 and last activity at 0: not ready at 999,
timed out at 1000, data pending. -/
theorem available_finite_timeout_witness :
    (sampleConnection 1000).available ⟨-1, EAGAIN, 999⟩
      = (AVAILABLE_TYPE.NOT_AVAILABLE, sampleConnection 1000, [Event.peek 5 (-1)]) ∧
    (sampleConnection 1000).available ⟨-1, EAGAIN, 1000⟩
      = (AVAILABLE_TYPE.ERROR,
          { sampleConnection 1000 with __timeOut__ := true, __socket__ := -1 },
          [Event.peek 5 (-1), Event.close 5]) ∧
    (sampleConnection 1000).available ⟨1, 0, 5000⟩
      = (AVAILABLE_TYPE.AVAILABLE, sampleConnection 1000, [Event.peek 5 1]) :=
  ⟨(available_finite_timeout (sampleConnection 1000) ⟨-1, EAGAIN, 999⟩ (by decide)).1
      rfl (Or.inl rfl) (by decide),
   (available_finite_timeout (sampleConnection 1000) ⟨-1, EAGAIN, 1000⟩ (by decide)).2.1
      rfl (Or.inl rfl) (by decide),
   (available_finite_timeout (sampleConnection 1000) ⟨1, 0, 5000⟩ (by decide)).2.2
      (by decide)⟩

/-! ## closeConnection and the life of the handle -/

theorem closeConnection_conn (c : TcpConnection) :
    c.closeConnection.1 = { c with __socket__ := -1 } := by
  by_cases h : c.__socket__ = -1 <;> simp [TcpConnection.closeConnection, h]

theorem closeConnection_closed (c : TcpConnection) (h : c.__socket__ = -1) :
    c.closeConnection = (c, []) := by
  cases c
  simp only at h
  subst h
  simp [TcpConnection.closeConnection]

theorem performAll_close_closed (c : TcpConnection) (h : c.__socket__ = -1) (n : Nat) :
    c.performAll (List.replicate n ConnOp.closeConnection) = (c, []) := by
  induction n with
  | zero => rfl
  | succ n ih =>
    simp only [List.replicate_succ, TcpConnection.performAll, TcpConnection.perform,
      closeConnection_closed c h, ih, List.append_nil]

/-- C9: closeConnection leaves the handle -1 and every other field as it was;
a second call changes nothing and issues no close (); over any number of
calls, close () is issued once when the handle was not -1 beforehand and not
at all otherwise. -/
theorem closeConnection_idempotent (c : TcpConnection) :
    c.closeConnection.1 = { c with __socket__ := -1 } ∧
    c.closeConnection.1.closeConnection = (c.closeConnection.1, []) ∧
    c.closeConnection.2 = (if c.__socket__ ≠ -1 then [Event.close c.__socket__] else []) ∧
    ∀ n, (c.performAll (List.replicate (n + 1) ConnOp.closeConnection)).1
          = { c with __socket__ := -1 } ∧
        (c.performAll (List.replicate (n + 1) ConnOp.closeConnection)).2
          = (if c.__socket__ ≠ -1 then [Event.close c.__socket__] else []) := by
  have hclosed : c.closeConnection.1.__socket__ = -1 := by
    rw [closeConnection_conn]
  have h2 : c.closeConnection.2
      = (if c.__socket__ ≠ -1 then [Event.close c.__socket__] else []) := by
    by_cases h : c.__socket__ = -1 <;> simp [TcpConnection.closeConnection, h]
  refine ⟨closeConnection_conn c, closeConnection_closed _ hclosed, h2, ?_⟩
  intro n
  have hrest := performAll_close_closed c.closeConnection.1 hclosed n
  simp only [List.replicate_succ, TcpConnection.performAll, TcpConnection.perform, hrest,
    List.append_nil]
  exact ⟨closeConnection_conn c, h2⟩

theorem recvDataLoop_socket (env : Nat → SysResult) (bufferSize : Int) :
    ∀ (fuel k : Nat) (c : TcpConnection),
      (TcpConnection.recvDataLoop env bufferSize fuel k c).conn.__socket__ = c.__socket__ ∨
      (TcpConnection.recvDataLoop env bufferSize fuel k c).conn.__socket__ = -1 := by
  intro fuel
  induction fuel with
  | zero => intro k c; exact Or.inl rfl
  | succ fuel ih =>
    intro k c
    unfold TcpConnection.recvDataLoop
    simp only [Outcome.prepend]
    split_ifs <;>
      first
        | exact ih _ _
        | exact Or.inl rfl
        | (right; simp [TcpConnection.flagAndClose, closeConnection_conn])

theorem sendDataLoop_socket (env : Nat → Int → SysResult) :
    ∀ (fuel k : Nat) (c : TcpConnection) (writtenTotal bufferSize : Int),
      (TcpConnection.sendDataLoop env fuel k c writtenTotal bufferSize).conn.__socket__
        = c.__socket__ ∨
      (TcpConnection.sendDataLoop env fuel k c writtenTotal bufferSize).conn.__socket__ = -1 := by
  intro fuel
  induction fuel with
  | zero =>
    intro k c wt bs
    unfold TcpConnection.sendDataLoop
    split_ifs <;> exact Or.inl rfl
  | succ fuel ih =>
    intro k c wt bs
    unfold TcpConnection.sendDataLoop
    simp only [Outcome.prepend]
    split_ifs <;>
      first
        | exact ih _ _ _ _
        | exact Or.inl rfl
        | (right; simp [TcpConnection.flagAndClose, closeConnection_conn])

theorem perform_socket (c : TcpConnection) (op : ConnOp) :
    (c.perform op).1.__socket__ = c.__socket__ ∨ (c.perform op).1.__socket__ = -1 := by
  cases op with
  | recvData env bufferSize fuel => exact recvDataLoop_socket env bufferSize fuel 0 c
  | sendData env bufferSize fuel => exact sendDataLoop_socket env fuel 0 c 0 bufferSize
  | available r =>
    simp only [TcpConnection.perform, TcpConnection.available]
    split_ifs <;>
      first
        | exact Or.inl rfl
        | (right; simp [closeConnection_conn])
  | closeConnection =>
    right
    simp [TcpConnection.perform, closeConnection_conn]
  | setTimeOut t now => exact Or.inl rfl
  | getTimeOut => exact Or.inl rfl
  | getThisSideIP r =>
    left
    cases r with
    | none => rfl
    | some a =>
      simp only [TcpConnection.perform, TcpConnection.getThisSideIP]
      split_ifs <;> rfl
  | getOtherSideIP => exact Or.inl rfl
  | timeOut => exact Or.inl rfl
  | started => exact Or.inl rfl

theorem performAll_append (c : TcpConnection) (ops1 ops2 : List ConnOp) :
    c.performAll (ops1 ++ ops2)
      = (((c.performAll ops1).1.performAll ops2).1,
          (c.performAll ops1).2 ++ ((c.performAll ops1).1.performAll ops2).2) := by
  induction ops1 generalizing c with
  | nil => simp [TcpConnection.performAll]
  | cons op ops ih =>
    have h := ih (c.perform op).1
    show (((c.perform op).1.performAll (ops ++ ops2)).1,
        (c.perform op).2 ++ ((c.perform op).1.performAll (ops ++ ops2)).2) = _
    rw [h]
    simp only [TcpConnection.performAll, List.append_assoc]

theorem performAll_socket (ops : List ConnOp) :
    ∀ c : TcpConnection, (c.performAll ops).1.__socket__ = c.__socket__ ∨
      (c.performAll ops).1.__socket__ = -1 := by
  induction ops with
  | nil => intro c; exact Or.inl rfl
  | cons op ops ih =>
    intro c
    simp only [TcpConnection.performAll]
    rcases ih (c.perform op).1 with h | h
    · rcases perform_socket c op with h2 | h2
      · left; rw [h, h2]
      · right; rw [h, h2]
    · exact Or.inr h

/-- C10: once the handle is -1 after some calls of the public operations, it
is -1 after every further sequence of calls; and no sequence of calls ever
takes the handle to a value other than the one it had or -1. -/
theorem socket_never_reopened (c : TcpConnection) (ops1 ops2 : List ConnOp)
    (hclosed : (c.performAll ops1).1.__socket__ = -1) :
    (c.performAll (ops1 ++ ops2)).1.__socket__ = -1 ∧
    ((c.performAll ops1).1.__socket__ = c.__socket__ ∨ (c.performAll ops1).1.__socket__ = -1) ∧
    ∀ op : ConnOp, ((c.performAll ops1).1.perform op).1.__socket__ = -1 := by
  refine ⟨?_, performAll_socket ops1 c, ?_⟩
  · rw [performAll_append]
    rcases performAll_socket ops2 (c.performAll ops1).1 with h | h
    · simp only [h, hclosed]
    · exact h
  · intro op
    rcases perform_socket (c.performAll ops1).1 op with h | h
    · rw [h, hclosed]
    · exact h

/-- C10 on an open connection that is closed and then used again: the handle
stays -1 through recvData, sendData, available, setTimeOut and getThisSideIP. -/
theorem socket_never_reopened_witness :
    ((sampleConnection 1000).performAll [ConnOp.closeConnection]).1.__socket__ = -1 ∧
    ((sampleConnection 1000).performAll
      ([ConnOp.closeConnection] ++
        [ConnOp.recvData (silentSocket 0) 64 5, ConnOp.sendData healthyLink 10 5,
         ConnOp.available ⟨1, 0, 7⟩, ConnOp.setTimeOut 50 8,
         ConnOp.getThisSideIP (some "10.0.0.1"), ConnOp.closeConnection])).1.__socket__ = -1 :=
  ⟨by decide,
   (socket_never_reopened (sampleConnection 1000) [ConnOp.closeConnection]
      [ConnOp.recvData (silentSocket 0) 64 5, ConnOp.sendData healthyLink 10 5,
       ConnOp.available ⟨1, 0, 7⟩, ConnOp.setTimeOut 50 8,
       ConnOp.getThisSideIP (some "10.0.0.1"), ConnOp.closeConnection] (by decide)).1⟩

/-! ## Closed handle and the time-out flag -/

/-- C11: when the handle is -1 at the head of an iteration, recvData returns 0
and sendData returns the bytes sent so far, with an empty trace (no transfer)
and the object, hence the time-out flag, unchanged; so on a closed connection
recvData returns 0 and sendData (buffer, n) with n > 0 returns 0. -/
theorem closed_socket_unwinds (c : TcpConnection) (hclosed : c.__socket__ = -1) :
    (∀ (env : Nat → SysResult) (bufferSize : Int) (fuel k : Nat),
      TcpConnection.recvDataLoop env bufferSize (fuel + 1) k c
        = ⟨some 0, ExitPoint.socketClosed, c, []⟩) ∧
    (∀ (env : Nat → Int → SysResult) (fuel k : Nat) (writtenTotal bufferSize : Int),
      bufferSize ≠ 0 →
      TcpConnection.sendDataLoop env (fuel + 1) k c writtenTotal bufferSize
        = ⟨some writtenTotal, ExitPoint.socketClosed, c, []⟩) ∧
    (∀ (env : Nat → SysResult) (bufferSize : Int) (fuel : Nat),
      c.recvData env bufferSize (fuel + 1) = ⟨some 0, ExitPoint.socketClosed, c, []⟩) ∧
    (∀ (env : Nat → Int → SysResult) (n : Int) (fuel : Nat), 0 < n →
      c.sendData env n (fuel + 1) = ⟨some 0, ExitPoint.socketClosed, c, []⟩) := by
  refine ⟨?_, ?_, ?_, ?_⟩
  · intro env bs fuel k
    simp [TcpConnection.recvDataLoop, hclosed]
  · intro env fuel k wt bs hbs
    simp [TcpConnection.sendDataLoop, hclosed, hbs]
  · intro env bs fuel
    simp [TcpConnection.recvData, TcpConnection.recvDataLoop, hclosed]
  · intro env n fuel hn
    have hn0 : n ≠ 0 := by omega
    simp [TcpConnection.sendData, TcpConnection.sendDataLoop, hclosed, hn0]

/-- C11 on a connection that was closed: recvData gives 0 and sendData of 100
bytes gives 0, with nothing issued. -/
theorem closed_socket_unwinds_witness :
    (sampleConnection 1000).closeConnection.1.recvData (silentSocket 0) 64 1
      = ⟨some 0, ExitPoint.socketClosed, (sampleConnection 1000).closeConnection.1, []⟩ ∧
    (sampleConnection 1000).closeConnection.1.sendData healthyLink 100 1
      = ⟨some 0, ExitPoint.socketClosed, (sampleConnection 1000).closeConnection.1, []⟩ :=
  ⟨(closed_socket_unwinds (sampleConnection 1000).closeConnection.1 (by decide)).2.2.1
      (silentSocket 0) 64 0,
   (closed_socket_unwinds (sampleConnection 1000).closeConnection.1 (by decide)).2.2.2
      healthyLink 100 0 (by decide)⟩

theorem closeConnection_timeOut (c : TcpConnection) :
    c.closeConnection.1.__timeOut__ = c.__timeOut__ := by
  rw [closeConnection_conn]

theorem recvDataLoop_timeOut (env : Nat → SysResult) (bufferSize : Int) :
    ∀ (fuel k : Nat) (c : TcpConnection), c.__timeOut__ = true →
      (TcpConnection.recvDataLoop env bufferSize fuel k c).conn.__timeOut__ = true := by
  intro fuel
  induction fuel with
  | zero => intro k c h; exact h
  | succ fuel ih =>
    intro k c h
    unfold TcpConnection.recvDataLoop
    simp only [Outcome.prepend]
    split_ifs <;>
      first
        | exact ih _ _ h
        | exact h
        | simp [TcpConnection.flagAndClose, closeConnection_conn]

theorem sendDataLoop_timeOut (env : Nat → Int → SysResult) :
    ∀ (fuel k : Nat) (c : TcpConnection) (writtenTotal bufferSize : Int),
      c.__timeOut__ = true →
      (TcpConnection.sendDataLoop env fuel k c writtenTotal bufferSize).conn.__timeOut__
        = true := by
  intro fuel
  induction fuel with
  | zero =>
    intro k c wt bs h
    unfold TcpConnection.sendDataLoop
    split_ifs <;> exact h
  | succ fuel ih =>
    intro k c wt bs h
    unfold TcpConnection.sendDataLoop
    simp only [Outcome.prepend]
    split_ifs <;>
      first
        | exact ih _ _ _ _ h
        | exact h
        | simp [TcpConnection.flagAndClose, closeConnection_conn]

theorem perform_timeOut (c : TcpConnection) (op : ConnOp) (h : c.__timeOut__ = true) :
    (c.perform op).1.__timeOut__ = true := by
  cases op with
  | recvData env bufferSize fuel => exact recvDataLoop_timeOut env bufferSize fuel 0 c h
  | sendData env bufferSize fuel => exact sendDataLoop_timeOut env fuel 0 c 0 bufferSize h
  | available r =>
    simp only [TcpConnection.perform, TcpConnection.available]
    split_ifs <;>
      first
        | exact h
        | simp [closeConnection_conn]
  | closeConnection =>
    simp only [TcpConnection.perform, closeConnection_conn]
    exact h
  | setTimeOut t now => exact h
  | getTimeOut => exact h
  | getThisSideIP r =>
    cases r with
    | none => exact h
    | some a =>
      simp only [TcpConnection.perform, TcpConnection.getThisSideIP]
      split_ifs <;> exact h
  | getOtherSideIP => exact h
  | timeOut => exact h
  | started => exact h

theorem performAll_timeOut (ops : List ConnOp) :
    ∀ c : TcpConnection, c.__timeOut__ = true → (c.performAll ops).1.__timeOut__ = true := by
  induction ops with
  | nil => intro c h; exact h
  | cons op ops ih =>
    intro c h
    simp only [TcpConnection.performAll]
    exact ih _ (perform_timeOut c op h)

/-- C12: the time-out flag is sticky: once timeOut () is true after some calls
of the public operations, it is true after every further sequence of calls,
setTimeOut and closeConnection included. -/
theorem timeOut_flag_sticky (c : TcpConnection) (ops1 ops2 : List ConnOp)
    (hset : (c.performAll ops1).1.timeOut = true) :
    (c.performAll (ops1 ++ ops2)).1.timeOut = true ∧
    ∀ op : ConnOp, ((c.performAll ops1).1.perform op).1.timeOut = true := by
  constructor
  · rw [performAll_append]
    exact performAll_timeOut ops2 _ hset
  · intro op
    exact perform_timeOut _ op hset

/-- C12 on a connection that timed out in recvData: the flag stays up through
setTimeOut, closeConnection, available with data pending and a sendData. -/
theorem timeOut_flag_sticky_witness :
    ((sampleConnection 1000).performAll
      [ConnOp.recvData (silentSocket 998) 64 5]).1.timeOut = true ∧
    ((sampleConnection 1000).performAll
      ([ConnOp.recvData (silentSocket 998) 64 5] ++
        [ConnOp.setTimeOut 0 2000, ConnOp.closeConnection, ConnOp.available ⟨1, 0, 2001⟩,
         ConnOp.sendData healthyLink 10 5, ConnOp.timeOut])).1.timeOut = true :=
  ⟨by decide,
   (timeOut_flag_sticky (sampleConnection 1000) [ConnOp.recvData (silentSocket 998) 64 5]
      [ConnOp.setTimeOut 0 2000, ConnOp.closeConnection, ConnOp.available ⟨1, 0, 2001⟩,
       ConnOp.sendData healthyLink 10 5, ConnOp.timeOut] (by decide)).1⟩

/-! ## The firewall and the accept loop -/

theorem newConnection_threaded (s : TcpServer) (connectionSocket : Int) (clientIP : String)
    (e : AcceptEnv) (hmode : s.__threadedMode__ = true) (hsock : connectionSocket ≠ -1) :
    s.__newConnection__ connectionSocket clientIP e =
      (s, if e.taskCreated then
          [SrvEvent.xTaskCreate "TcpConnection" s.__connectionStackSize__ true,
           SrvEvent.construct (TcpConnection.threadedConstructor true s.__connectionStackSize__
             connectionSocket clientIP s.__timeOutMillis__ e.constructedAt true).1]
        else
          [SrvEvent.xTaskCreate "TcpConnection" s.__connectionStackSize__ false,
           SrvEvent.construct (TcpConnection.threadedConstructor true s.__connectionStackSize__
             connectionSocket clientIP s.__timeOutMillis__ e.constructedAt false).1,
           SrvEvent.io (Event.close connectionSocket),
           SrvEvent.destruct { (TcpConnection.threadedConstructor true s.__connectionStackSize__
             connectionSocket clientIP s.__timeOutMillis__ e.constructedAt false).1 with
             __socket__ := -1 }]) := by
  have hcb : s.__connectionHandlerCallback__ = true := hmode
  unfold TcpServer.__newConnection__
  rw [hmode, hcb]
  cases htc : e.taskCreated <;>
    simp [TcpConnection.threadedConstructor, TcpConnection.started, TcpConnection.destructor,
      TcpConnection.closeConnection, hsock]

theorem newConnection_nonThreaded (s : TcpServer) (connectionSocket : Int) (clientIP : String)
    (e : AcceptEnv) (hmode : s.__threadedMode__ = false) :
    s.__newConnection__ connectionSocket clientIP e =
      ({ s with __connection__ := some (TcpConnection.nonThreadedConstructor connectionSocket
          clientIP s.__timeOutMillis__ e.constructedAt) },
        [SrvEvent.construct (TcpConnection.nonThreadedConstructor connectionSocket clientIP
          s.__timeOutMillis__ e.constructedAt)]) := by
  unfold TcpServer.__newConnection__
  simp [hmode]

theorem constructions_newConnection (s : TcpServer) (connectionSocket : Int) (clientIP : String)
    (e : AcceptEnv) (hsock : connectionSocket ≠ -1) :
    (constructions (s.__newConnection__ connectionSocket clientIP e).2).length = 1 := by
  cases hmode : s.__threadedMode__
  · rw [newConnection_nonThreaded s _ _ _ hmode]
    simp [constructions]
  · rw [newConnection_threaded s _ _ _ hmode hsock]
    cases e.taskCreated <;> simp [constructions]

theorem callFirewallCallback_true_iff (s : TcpServer) (IP : String) :
    s.__callFirewallCallback__ IP = true ↔
      (s.__firewallCallback__ = none ∨
        ∃ f, s.__firewallCallback__ = some f ∧ f IP = true) := by
  unfold TcpServer.__callFirewallCallback__
  cases h : s.__firewallCallback__ with
  | none => simp
  | some f => simp

theorem acceptStep_rejected (s : TcpServer) (listenerSocket : Int) (e : AcceptEnv)
    (hacc : e.connectionSocket ≠ -1)
    (hlive : (!s.__threadedMode__ && s.timeOut e.now) = false)
    (hfw : s.__callFirewallCallback__ e.peerIP = false) :
    s.acceptStep listenerSocket e =
      AcceptStep.again { s with __listenerState__ := LISTENER_STATE_TYPE.ACCEPTING_CONNECTIONS }
        [SrvEvent.io (Event.delay 1),
         SrvEvent.setState LISTENER_STATE_TYPE.ACCEPTING_CONNECTIONS,
         SrvEvent.accept listenerSocket e.connectionSocket,
         SrvEvent.io (Event.close e.connectionSocket)] := by
  have hfw1 : ({ s with __listenerState__ := LISTENER_STATE_TYPE.ACCEPTING_CONNECTIONS }
      : TcpServer).__callFirewallCallback__ e.peerIP = false := hfw
  unfold TcpServer.acceptStep
  simp [hlive, hacc, hfw1]

theorem acceptStep_not_nonblocking (s : TcpServer) (listenerSocket : Int) (e : AcceptEnv)
    (hacc : e.connectionSocket ≠ -1)
    (hlive : (!s.__threadedMode__ && s.timeOut e.now) = false)
    (hfw : s.__callFirewallCallback__ e.peerIP = true) (hfc : e.fcntl = -1) :
    s.acceptStep listenerSocket e =
      AcceptStep.again { s with __listenerState__ := LISTENER_STATE_TYPE.ACCEPTING_CONNECTIONS }
        [SrvEvent.io (Event.delay 1),
         SrvEvent.setState LISTENER_STATE_TYPE.ACCEPTING_CONNECTIONS,
         SrvEvent.accept listenerSocket e.connectionSocket,
         SrvEvent.fcntl e.connectionSocket (-1),
         SrvEvent.io (Event.close e.connectionSocket)] := by
  have hfw1 : ({ s with __listenerState__ := LISTENER_STATE_TYPE.ACCEPTING_CONNECTIONS }
      : TcpServer).__callFirewallCallback__ e.peerIP = true := hfw
  unfold TcpServer.acceptStep
  simp [hlive, hacc, hfw1, hfc]

theorem acceptStep_admitted (s : TcpServer) (listenerSocket : Int) (e : AcceptEnv)
    (hacc : e.connectionSocket ≠ -1)
    (hlive : (!s.__threadedMode__ && s.timeOut e.now) = false)
    (hfw : s.__callFirewallCallback__ e.peerIP = true) (hfc : e.fcntl ≠ -1) :
    s.acceptStep listenerSocket e =
      (if s.__threadedMode__ then
        AcceptStep.again { s with __listenerState__ := LISTENER_STATE_TYPE.ACCEPTING_CONNECTIONS }
          (SrvEvent.io (Event.delay 1)
            :: SrvEvent.setState LISTENER_STATE_TYPE.ACCEPTING_CONNECTIONS
            :: SrvEvent.accept listenerSocket e.connectionSocket
            :: SrvEvent.fcntl e.connectionSocket e.fcntl
            :: (({ s with __listenerState__ := LISTENER_STATE_TYPE.ACCEPTING_CONNECTIONS }
              : TcpServer).__newConnection__ e.connectionSocket e.peerIP e).2)
      else
        AcceptStep.terminate
          { s with __listenerState__ := LISTENER_STATE_TYPE.ACCEPTING_CONNECTIONS,
                   __connection__ := some (TcpConnection.nonThreadedConstructor
                      e.connectionSocket e.peerIP s.__timeOutMillis__ e.constructedAt) }
          [SrvEvent.io (Event.delay 1),
           SrvEvent.setState LISTENER_STATE_TYPE.ACCEPTING_CONNECTIONS,
           SrvEvent.accept listenerSocket e.connectionSocket,
           SrvEvent.fcntl e.connectionSocket e.fcntl,
           SrvEvent.construct (TcpConnection.nonThreadedConstructor
              e.connectionSocket e.peerIP s.__timeOutMillis__ e.constructedAt)]) := by
  have hfw1 : ({ s with __listenerState__ := LISTENER_STATE_TYPE.ACCEPTING_CONNECTIONS }
      : TcpServer).__callFirewallCallback__ e.peerIP = true := hfw
  unfold TcpServer.acceptStep
  cases hmode : s.__threadedMode__
  · have hm1 : ({ s with __listenerState__ := LISTENER_STATE_TYPE.ACCEPTING_CONNECTIONS }
        : TcpServer).__threadedMode__ = false := hmode
    have hn := newConnection_nonThreaded _ e.connectionSocket e.peerIP e hm1
    rw [hmode] at hlive
    simp only [hlive, hacc, hfw1, hfc, hn]
    simp [TcpServer.__threadedMode__] at hmode
    simp [TcpServer.__threadedMode__, hmode, hacc]
  · have hm1 : ({ s with __listenerState__ := LISTENER_STATE_TYPE.ACCEPTING_CONNECTIONS }
        : TcpServer).__threadedMode__ = true := hmode
    have hn := newConnection_threaded _ e.connectionSocket e.peerIP e hm1 hacc
    rw [hmode] at hlive
    simp only [hlive, hacc, hfw1, hfc, hn]
    simp [TcpServer.__threadedMode__] at hmode
    simp [TcpServer.__threadedMode__, hmode, hacc]

/-- C13: in a pass of the accept loop that reaches accept (hlive: no single-shot
time-out before it) and gets a socket from it, the listener constructs a
TcpConnection exactly when the firewall is absent or lets the peer through and
fcntl on the socket succeeds, and then constructs one only; when the firewall
rejects the peer the pass is delay, accept, close of that socket and nothing
else (no object, no task), connection () is what it was, and the loop goes
on, whatever the mode. -/
theorem firewall_gates_construction (s : TcpServer) (listenerSocket : Int) (e : AcceptEnv)
    (hacc : e.connectionSocket ≠ -1)
    (hlive : (!s.__threadedMode__ && s.timeOut e.now) = false) :
    (constructions (s.acceptStep listenerSocket e).trace ≠ [] ↔
      (s.__firewallCallback__ = none ∨
        ∃ f, s.__firewallCallback__ = some f ∧ f e.peerIP = true) ∧ e.fcntl ≠ -1) ∧
    (constructions (s.acceptStep listenerSocket e).trace).length ≤ 1 ∧
    (∀ f, s.__firewallCallback__ = some f → f e.peerIP = false →
      s.acceptStep listenerSocket e =
        AcceptStep.again
          { s with __listenerState__ := LISTENER_STATE_TYPE.ACCEPTING_CONNECTIONS }
          [SrvEvent.io (Event.delay 1),
           SrvEvent.setState LISTENER_STATE_TYPE.ACCEPTING_CONNECTIONS,
           SrvEvent.accept listenerSocket e.connectionSocket,
           SrvEvent.io (Event.close e.connectionSocket)] ∧
      (s.acceptStep listenerSocket e).server.connection = s.connection ∧
      (s.acceptStep listenerSocket e).continues = true) := by
  rw [← callFirewallCallback_true_iff]
  cases hfw : s.__callFirewallCallback__ e.peerIP
  · have hrej := acceptStep_rejected s listenerSocket e hacc hlive hfw
    refine ⟨?_, ?_, ?_⟩
    · rw [hrej]; simp [AcceptStep.trace, constructions]
    · rw [hrej]; simp [AcceptStep.trace, constructions]
    · intro f _ _
      rw [hrej]
      exact ⟨rfl, rfl, rfl⟩
  · have hnot : ∀ f, s.__firewallCallback__ = some f → f e.peerIP = false → False := by
      intro f hf hfalse
      unfold TcpServer.__callFirewallCallback__ at hfw
      rw [hf] at hfw
      simp only at hfw
      rw [hfalse] at hfw
      cases hfw
    by_cases hfc : e.fcntl = -1
    · have hnb := acceptStep_not_nonblocking s listenerSocket e hacc hlive hfw hfc
      refine ⟨?_, ?_, fun f hf hfalse => absurd (hnot f hf hfalse) id⟩
      · rw [hnb]; simp [AcceptStep.trace, constructions, hfc]
      · rw [hnb]; simp [AcceptStep.trace, constructions]
    · have hadm := acceptStep_admitted s listenerSocket e hacc hlive hfw hfc
      have hone := constructions_newConnection
        { s with __listenerState__ := LISTENER_STATE_TYPE.ACCEPTING_CONNECTIONS }
        e.connectionSocket e.peerIP e hacc
      refine ⟨?_, ?_, fun f hf hfalse => absurd (hnot f hf hfalse) id⟩
      · rw [hadm]
        cases hmode : s.__threadedMode__
        · simp [AcceptStep.trace, constructions, hfc]
        · simp only [if_true, AcceptStep.trace, ne_eq, hfc, not_false_eq_true, and_self,
            iff_true]
          intro hnil
          have hc : constructions (SrvEvent.io (Event.delay 1)
              :: SrvEvent.setState LISTENER_STATE_TYPE.ACCEPTING_CONNECTIONS
              :: SrvEvent.accept listenerSocket e.connectionSocket
              :: SrvEvent.fcntl e.connectionSocket e.fcntl
              :: (({ s with __listenerState__ := LISTENER_STATE_TYPE.ACCEPTING_CONNECTIONS }
                : TcpServer).__newConnection__ e.connectionSocket e.peerIP e).2)
              = constructions (({ s with __listenerState__ :=
                  LISTENER_STATE_TYPE.ACCEPTING_CONNECTIONS }
                : TcpServer).__newConnection__ e.connectionSocket e.peerIP e).2 := by
            simp [constructions]
          rw [hc] at hnil
          rw [hnil] at hone
          simp at hone
      · rw [hadm]
        cases hmode : s.__threadedMode__
        · simp [AcceptStep.trace, constructions]
        · simp only [if_true, AcceptStep.trace]
          have hc : constructions (SrvEvent.io (Event.delay 1)
              :: SrvEvent.setState LISTENER_STATE_TYPE.ACCEPTING_CONNECTIONS
              :: SrvEvent.accept listenerSocket e.connectionSocket
              :: SrvEvent.fcntl e.connectionSocket e.fcntl
              :: (({ s with __listenerState__ := LISTENER_STATE_TYPE.ACCEPTING_CONNECTIONS }
                : TcpServer).__newConnection__ e.connectionSocket e.peerIP e).2)
              = constructions (({ s with __listenerState__ :=
                  LISTENER_STATE_TYPE.ACCEPTING_CONNECTIONS }
                : TcpServer).__newConnection__ e.connectionSocket e.peerIP e).2 := by
            simp [constructions]
          rw [hc, hone]

/-- C13 with the firewall of the examples: a peer at 10.0.0.9 is closed at once
and the loop goes on, a peer at 10.0.0.2 gets a connection object. -/
theorem firewall_gates_construction_witness :
    (sampleServer false (some sampleFirewall)).acceptStep 3 (onePeer "10.0.0.9" true 0)
      = AcceptStep.again
          { sampleServer false (some sampleFirewall) with
            __listenerState__ := LISTENER_STATE_TYPE.ACCEPTING_CONNECTIONS }
          [SrvEvent.io (Event.delay 1),
           SrvEvent.setState LISTENER_STATE_TYPE.ACCEPTING_CONNECTIONS,
           SrvEvent.accept 3 7, SrvEvent.io (Event.close 7)] ∧
    constructions ((sampleServer false (some sampleFirewall)).acceptStep 3
      (onePeer "10.0.0.2" true 0)).trace ≠ [] :=
  ⟨((firewall_gates_construction (sampleServer false (some sampleFirewall)) 3
      (onePeer "10.0.0.9" true 0) (by decide) (by decide)).2.2 sampleFirewall rfl
      (by decide)).1,
   (firewall_gates_construction (sampleServer false (some sampleFirewall)) 3
      (onePeer "10.0.0.2" true 0) (by decide) (by decide)).1.mpr
      ⟨Or.inr ⟨sampleFirewall, rfl, by decide⟩, by decide⟩⟩

/-! ## Single-shot mode -/

theorem acceptStep_timed_out (s : TcpServer) (listenerSocket : Int) (e : AcceptEnv)
    (hout : (!s.__threadedMode__ && s.timeOut e.now) = true) :
    s.acceptStep listenerSocket e = AcceptStep.terminate s [SrvEvent.io (Event.delay 1)] := by
  unfold TcpServer.acceptStep
  simp [hout]

theorem acceptStep_nothing (s : TcpServer) (listenerSocket : Int) (e : AcceptEnv)
    (hacc : e.connectionSocket = -1)
    (hlive : (!s.__threadedMode__ && s.timeOut e.now) = false) :
    s.acceptStep listenerSocket e =
      AcceptStep.again { s with __listenerState__ := LISTENER_STATE_TYPE.ACCEPTING_CONNECTIONS }
        [SrvEvent.io (Event.delay 1),
         SrvEvent.setState LISTENER_STATE_TYPE.ACCEPTING_CONNECTIONS,
         SrvEvent.accept listenerSocket (-1)] := by
  unfold TcpServer.acceptStep
  simp [hlive, hacc]

theorem stateWrites_append (a b : List SrvEvent) :
    stateWrites (a ++ b) = stateWrites a ++ stateWrites b := by
  simp [stateWrites, List.filterMap_append]

theorem stateWrites_io (l : List Event) : stateWrites (l.map SrvEvent.io) = [] := by
  induction l with
  | nil => rfl
  | cons a l ih => simp [stateWrites]

theorem destructor_not_started (c : TcpConnection) (hs : c.__listenerThreadStarted__ = false)
    (ended : Nat → Bool) (fuel : Nat) :
    (c.destructor ended fuel).returned = true ∧
    (c.destructor ended fuel).object = { c with __socket__ := -1 } ∧
    (c.destructor ended fuel).trace = c.closeConnection.2.map SrvEvent.io := by
  have h1 : c.closeConnection.1.__listenerThreadStarted__ = false := by
    rw [closeConnection_conn]; exact hs
  unfold TcpConnection.destructor
  simp only [h1]
  exact ⟨rfl, closeConnection_conn c, rfl⟩

theorem stateWrites_newConnection (s : TcpServer) (connectionSocket : Int) (clientIP : String)
    (e : AcceptEnv) (hsock : connectionSocket ≠ -1) :
    stateWrites (s.__newConnection__ connectionSocket clientIP e).2 = [] := by
  cases hmode : s.__threadedMode__
  · rw [newConnection_nonThreaded s _ _ _ hmode]
    simp [stateWrites]
  · rw [newConnection_threaded s _ _ _ hmode hsock]
    cases e.taskCreated <;> simp [stateWrites]

theorem stateWrites_acceptStep (s : TcpServer) (listenerSocket : Int) (e : AcceptEnv) :
    stateWrites (s.acceptStep listenerSocket e).trace = [] ∨
    stateWrites (s.acceptStep listenerSocket e).trace
      = [LISTENER_STATE_TYPE.ACCEPTING_CONNECTIONS] := by
  cases hlive : (!s.__threadedMode__ && s.timeOut e.now)
  · right
    by_cases hacc : e.connectionSocket = -1
    · rw [acceptStep_nothing s listenerSocket e hacc hlive]
      simp [AcceptStep.trace, stateWrites]
    · cases hfw : s.__callFirewallCallback__ e.peerIP
      · rw [acceptStep_rejected s listenerSocket e hacc hlive hfw]
        simp [AcceptStep.trace, stateWrites]
      · by_cases hfc : e.fcntl = -1
        · rw [acceptStep_not_nonblocking s listenerSocket e hacc hlive hfw hfc]
          simp [AcceptStep.trace, stateWrites]
        · rw [acceptStep_admitted s listenerSocket e hacc hlive hfw hfc]
          have hn := stateWrites_newConnection
            { s with __listenerState__ := LISTENER_STATE_TYPE.ACCEPTING_CONNECTIONS }
            e.connectionSocket e.peerIP e hacc
          cases s.__threadedMode__
          · simp [AcceptStep.trace, stateWrites]
          · have hsplit : ∀ tr : List SrvEvent,
                stateWrites (SrvEvent.io (Event.delay 1)
                  :: SrvEvent.setState LISTENER_STATE_TYPE.ACCEPTING_CONNECTIONS
                  :: SrvEvent.accept listenerSocket e.connectionSocket
                  :: SrvEvent.fcntl e.connectionSocket e.fcntl :: tr)
                = LISTENER_STATE_TYPE.ACCEPTING_CONNECTIONS :: stateWrites tr := by
              intro tr
              simp [stateWrites]
            simp only [if_true, AcceptStep.trace, hsplit, hn]
  · left
    rw [acceptStep_timed_out s listenerSocket e hlive]
    simp [AcceptStep.trace, stateWrites]

/-- The writes of a part of a run that starts at a loop test: each is
ACCEPTING_CONNECTIONS or later, and they advance. -/
theorem listenerLoop_stateWrites (startEnv : Nat → StartEnv) (acceptEnv : Nat → AcceptEnv) :
    ∀ (fuel : Nat) (at_ : ListenerAt) (i j : Nat) (listenerSocket : Int) (s : TcpServer),
      List.Pairwise stateAdvances
        (stateWrites (TcpServer.listenerLoop startEnv acceptEnv fuel at_ i j listenerSocket
          s).trace) ∧
      ∀ w ∈ stateWrites (TcpServer.listenerLoop startEnv acceptEnv fuel at_ i j listenerSocket
          s).trace, 2 ≤ w.lifeCycleRank := by
  have hterm : ∀ (s : TcpServer) (ls : Int),
      stateWrites (s.terminateListener ls).trace
        = [LISTENER_STATE_TYPE.STOPPED, LISTENER_STATE_TYPE.FINISHED] := by
    intro s ls
    simp [TcpServer.terminateListener, stateWrites]
  have hgoodterm : List.Pairwise stateAdvances
        [LISTENER_STATE_TYPE.STOPPED, LISTENER_STATE_TYPE.FINISHED] ∧
      ∀ w ∈ [LISTENER_STATE_TYPE.STOPPED, LISTENER_STATE_TYPE.FINISHED],
        2 ≤ w.lifeCycleRank := by
    constructor
    · simp [stateAdvances, LISTENER_STATE_TYPE.lifeCycleRank]
    · intro w hw
      simp at hw
      rcases hw with rfl | rfl <;> simp [LISTENER_STATE_TYPE.lifeCycleRank]
  have hacc : ∀ (ws : List LISTENER_STATE_TYPE),
      (List.Pairwise stateAdvances ws ∧ ∀ w ∈ ws, 2 ≤ w.lifeCycleRank) →
      (List.Pairwise stateAdvances (LISTENER_STATE_TYPE.ACCEPTING_CONNECTIONS :: ws) ∧
        ∀ w ∈ LISTENER_STATE_TYPE.ACCEPTING_CONNECTIONS :: ws, 2 ≤ w.lifeCycleRank) := by
    intro ws h
    constructor
    · rw [List.pairwise_cons]
      refine ⟨?_, h.1⟩
      intro b hb
      exact ⟨h.2 b hb, by decide⟩
    · intro w hw
      rcases List.mem_cons.mp hw with rfl | hw
      · simp [LISTENER_STATE_TYPE.lifeCycleRank]
      · exact h.2 w hw
  intro fuel
  induction fuel with
  | zero =>
    intro at_ i j ls s
    simp [TcpServer.listenerLoop, stateWrites]
  | succ fuel ih =>
    intro at_ i j ls s
    cases at_ with
    | prepare =>
      rw [TcpServer.listenerLoop]
      split_ifs
      · rw [hterm]; exact hgoodterm
      · simpa [ListenerOutcome.prepend, stateWrites_append, stateWrites] using ih _ _ _ _ _
      · simp only [ListenerOutcome.prepend, stateWrites_append, hterm]
        simpa [stateWrites] using hgoodterm
      · simp only [ListenerOutcome.prepend, stateWrites_append, hterm]
        simpa [stateWrites] using hgoodterm
      · simp only [ListenerOutcome.prepend, stateWrites_append, hterm]
        simpa [stateWrites] using hgoodterm
      · simpa [ListenerOutcome.prepend, stateWrites_append, stateWrites] using ih _ _ _ _ _
    | accepting =>
      rw [TcpServer.listenerLoop]
      split_ifs
      · exact ih _ _ _ _ _
      · have hw := stateWrites_acceptStep (s.noteUnload (acceptEnv j).unload) ls (acceptEnv j)
        cases hstep : (s.noteUnload (acceptEnv j).unload).acceptStep ls (acceptEnv j) with
        | again s1 tr =>
          rw [hstep] at hw
          simp only [AcceptStep.trace] at hw
          simp only [ListenerOutcome.prepend, stateWrites_append]
          rcases hw with hw | hw
          · rw [hw]; simpa using ih _ _ _ _ _
          · rw [hw]; exact hacc _ (ih _ _ _ _ _)
        | terminate s1 tr =>
          rw [hstep] at hw
          simp only [AcceptStep.trace] at hw
          simp only [ListenerOutcome.prepend, stateWrites_append, hterm]
          rcases hw with hw | hw
          · rw [hw]; simpa using hgoodterm
          · rw [hw]; exact hacc _ hgoodterm

/-- C15: in every run of the listener, whatever the system calls return and
whenever unload is requested, the states written after the NOT_RUNNING of the
constructor advance in the order NOT_RUNNING, RUNNING, ACCEPTING_CONNECTIONS,
STOPPED, FINISHED: no later write is earlier in that order than a write before
it, and nothing is written after FINISHED. -/
theorem listener_state_advances (s : TcpServer) (startEnv : Nat → StartEnv)
    (acceptEnv : Nat → AcceptEnv) (fuel : Nat) :
    List.Pairwise (fun a b => a.lifeCycleRank ≤ b.lifeCycleRank ∧ a ≠ LISTENER_STATE_TYPE.FINISHED)
      (LISTENER_STATE_TYPE.NOT_RUNNING
        :: stateWrites (s.__listener__ startEnv acceptEnv fuel).trace) ∧
    (∀ pre post, stateWrites (s.__listener__ startEnv acceptEnv fuel).trace
        = pre ++ LISTENER_STATE_TYPE.FINISHED :: post → post = []) := by
  have h := listenerLoop_stateWrites startEnv acceptEnv fuel ListenerAt.prepare 0 0 (-1)
    { s with __listenerState__ := LISTENER_STATE_TYPE.RUNNING }
  have hw : stateWrites (s.__listener__ startEnv acceptEnv fuel).trace
      = LISTENER_STATE_TYPE.RUNNING
        :: stateWrites (TcpServer.listenerLoop startEnv acceptEnv fuel ListenerAt.prepare 0 0 (-1)
          { s with __listenerState__ := LISTENER_STATE_TYPE.RUNNING }).trace := by
    simp [TcpServer.__listener__, ListenerOutcome.prepend, stateWrites_append, stateWrites]
  have hall : List.Pairwise stateAdvances
      (LISTENER_STATE_TYPE.NOT_RUNNING
        :: stateWrites (s.__listener__ startEnv acceptEnv fuel).trace) := by
    rw [hw, List.pairwise_cons, List.pairwise_cons]
    refine ⟨?_, ?_, h.1⟩
    · intro b _
      exact ⟨Nat.zero_le _, by decide⟩
    · intro b hb
      exact ⟨le_trans (by decide) (h.2 b hb), by decide⟩
  refine ⟨hall, ?_⟩
  intro pre post heq
  rw [heq] at hall
  have hpost := (List.pairwise_cons.mp hall).2
  rw [List.pairwise_append] at hpost
  have hfin := (List.pairwise_cons.mp hpost.2.1).1
  cases post with
  | nil => rfl
  | cons x xs => exact absurd rfl (hfin x (List.mem_cons_self _ _)).2

/-! ## Failures while the listener starts -/

theorem noteUnload_false (s : TcpServer) : s.noteUnload false = s := rfl

theorem listenerLoop_socket_retries (startEnv : Nat → StartEnv) (acceptEnv : Nat → AcceptEnv) :
    ∀ (n i j : Nat) (listenerSocket : Int) (s : TcpServer),
      s.__instanceUnloading__ = false →
      (∀ k, k < n → (startEnv (i + k)).unload = false ∧ (startEnv (i + k)).socket = -1) →
      TcpServer.listenerLoop startEnv acceptEnv n ListenerAt.prepare i j listenerSocket s
        = ⟨false, s, socketRetries n⟩ := by
  intro n
  induction n with
  | zero =>
    intro i j ls s _ _
    rfl
  | succ n ih =>
    intro i j ls s hclear h
    have h0 := h 0 (Nat.succ_pos n)
    simp only [Nat.add_zero] at h0
    have hrest := ih (i + 1) j (-1) s hclear (fun k hk => by
      have := h (k + 1) (by omega)
      have hidx : i + 1 + k = i + (k + 1) := by omega
      rw [hidx]
      exact this)
    rw [TcpServer.listenerLoop]
    simp only [h0.1, h0.2, noteUnload_false, hclear, hrest, ListenerOutcome.prepend]
    simp [socketRetries]

theorem listenerLoop_start_fatal (startEnv : Nat → StartEnv) (acceptEnv : Nat → AcceptEnv)
    (fuel i j : Nat) (listenerSocket : Int) (s : TcpServer)
    (hclear : s.__instanceUnloading__ = false) (hun : (startEnv i).unload = false)
    (hsock : (startEnv i).socket ≠ -1)
    (hfail : (startEnv i).bind = -1 ∨ (startEnv i).listen = -1 ∨ (startEnv i).fcntl = -1) :
    (TcpServer.listenerLoop startEnv acceptEnv (fuel + 1) ListenerAt.prepare i j listenerSocket
      s).finished = true ∧
    (TcpServer.listenerLoop startEnv acceptEnv (fuel + 1) ListenerAt.prepare i j listenerSocket
      s).server = { s with __listenerState__ := LISTENER_STATE_TYPE.FINISHED } ∧
    stateWrites (TcpServer.listenerLoop startEnv acceptEnv (fuel + 1) ListenerAt.prepare i j
      listenerSocket s).trace = [LISTENER_STATE_TYPE.STOPPED, LISTENER_STATE_TYPE.FINISHED] ∧
    closeCalls (TcpServer.listenerLoop startEnv acceptEnv (fuel + 1) ListenerAt.prepare i j
      listenerSocket s).trace = [(startEnv i).socket] := by
  rw [TcpServer.listenerLoop]
  simp only [hun, noteUnload_false, hclear, hsock]
  by_cases hb : (startEnv i).bind = -1
  · simp [hb, hclear, TcpServer.terminateListener, ListenerOutcome.prepend, stateWrites,
      closeCalls]
  · by_cases hl : (startEnv i).listen = -1
    · simp [hb, hl, hclear, TcpServer.terminateListener, ListenerOutcome.prepend, stateWrites,
        closeCalls]
    · have hf : (startEnv i).fcntl = -1 := by
        rcases hfail with h | h | h
        · exact absurd h hb
        · exact absurd h hl
        · exact h
      simp [hb, hl, hf, hclear, TcpServer.terminateListener, ListenerOutcome.prepend,
        stateWrites, closeCalls]

/-- C16 as stated fails: with the unload flag clear, a failing bind ends the
listener: it writes STOPPED and FINISHED and does not retry. -/
theorem start_failure_counterexample :
    ¬ (∀ (s : TcpServer) (startEnv : Nat → StartEnv) (acceptEnv : Nat → AcceptEnv) (fuel : Nat),
        s.__instanceUnloading__ = false →
        (∀ i, (startEnv i).unload = false) → (∀ j, (acceptEnv j).unload = false) →
        ((startEnv 0).socket = -1 ∨ (startEnv 0).bind = -1 ∨ (startEnv 0).listen = -1 ∨
          (startEnv 0).fcntl = -1) →
        LISTENER_STATE_TYPE.STOPPED ∉ stateWrites (s.__listener__ startEnv acceptEnv fuel).trace) := by
  intro h
  have h0 := h (sampleServer true none) bindFails quietAccept 1 rfl (fun _ => rfl)
    (fun _ => rfl) (Or.inr (Or.inl rfl))
  revert h0
  decide

/-- C16 amended: with the unload flag clear, a failure of socket () is not
fatal: after n failed passes the listener is still running, in state RUNNING,
having made nothing but n times socket () and a delay of 1000 ms; a failure of
bind, listen or fcntl on a created socket is fatal: the listener writes
STOPPED, closes that socket once, writes FINISHED and ends, without a further
pass. -/
theorem start_failure_outcomes (s : TcpServer) (startEnv : Nat → StartEnv)
    (acceptEnv : Nat → AcceptEnv) (hclear : s.__instanceUnloading__ = false) :
    (∀ n, (∀ i, i < n → (startEnv i).unload = false ∧ (startEnv i).socket = -1) →
      s.__listener__ startEnv acceptEnv n
        = ⟨false, { s with __listenerState__ := LISTENER_STATE_TYPE.RUNNING },
            SrvEvent.setState LISTENER_STATE_TYPE.RUNNING :: socketRetries n⟩) ∧
    ((startEnv 0).unload = false → (startEnv 0).socket ≠ -1 →
      ((startEnv 0).bind = -1 ∨ (startEnv 0).listen = -1 ∨ (startEnv 0).fcntl = -1) →
      ∀ fuel,
        (s.__listener__ startEnv acceptEnv (fuel + 1)).finished = true ∧
        (s.__listener__ startEnv acceptEnv (fuel + 1)).server.__listenerState__
          = LISTENER_STATE_TYPE.FINISHED ∧
        stateWrites (s.__listener__ startEnv acceptEnv (fuel + 1)).trace
          = [LISTENER_STATE_TYPE.RUNNING, LISTENER_STATE_TYPE.STOPPED,
             LISTENER_STATE_TYPE.FINISHED] ∧
        closeCalls (s.__listener__ startEnv acceptEnv (fuel + 1)).trace
          = [(startEnv 0).socket]) := by
  constructor
  · intro n h
    have hl := listenerLoop_socket_retries startEnv acceptEnv n 0 0 (-1)
      { s with __listenerState__ := LISTENER_STATE_TYPE.RUNNING } hclear
      (fun k hk => by simpa using h k hk)
    unfold TcpServer.__listener__
    rw [hl]
    rfl
  · intro hun hsock hfail fuel
    have hl := listenerLoop_start_fatal startEnv acceptEnv fuel 0 0 (-1)
      { s with __listenerState__ := LISTENER_STATE_TYPE.RUNNING } hclear hun hsock hfail
    unfold TcpServer.__listener__
    refine ⟨hl.1, ?_, ?_, ?_⟩
    · simp only [ListenerOutcome.prepend, hl.2.1]
    · simp only [ListenerOutcome.prepend]
      have : stateWrites ([SrvEvent.setState LISTENER_STATE_TYPE.RUNNING] ++
          (TcpServer.listenerLoop startEnv acceptEnv (fuel + 1) ListenerAt.prepare 0 0 (-1)
            { s with __listenerState__ := LISTENER_STATE_TYPE.RUNNING }).trace)
          = LISTENER_STATE_TYPE.RUNNING :: stateWrites
            (TcpServer.listenerLoop startEnv acceptEnv (fuel + 1) ListenerAt.prepare 0 0 (-1)
              { s with __listenerState__ := LISTENER_STATE_TYPE.RUNNING }).trace := by
        simp [stateWrites]
      rw [this, hl.2.2.1]
    · simp only [ListenerOutcome.prepend]
      have : closeCalls ([SrvEvent.setState LISTENER_STATE_TYPE.RUNNING] ++
          (TcpServer.listenerLoop startEnv acceptEnv (fuel + 1) ListenerAt.prepare 0 0 (-1)
            { s with __listenerState__ := LISTENER_STATE_TYPE.RUNNING }).trace)
          = closeCalls
            (TcpServer.listenerLoop startEnv acceptEnv (fuel + 1) ListenerAt.prepare 0 0 (-1)
              { s with __listenerState__ := LISTENER_STATE_TYPE.RUNNING }).trace := by
        simp [closeCalls]
      rw [this, hl.2.2.2]

/-- C16 amended, on the examples: three failures of socket () leave the listener
running; a failure of bind ends it. -/
theorem start_failure_outcomes_witness :
    (sampleServer true none).__listener__ socketFails quietAccept 3
      = ⟨false, { sampleServer true none with __listenerState__ := LISTENER_STATE_TYPE.RUNNING },
          SrvEvent.setState LISTENER_STATE_TYPE.RUNNING :: socketRetries 3⟩ ∧
    ((sampleServer true none).__listener__ bindFails quietAccept 1).finished = true ∧
    closeCalls ((sampleServer true none).__listener__ bindFails quietAccept 1).trace = [3] :=
  ⟨(start_failure_outcomes (sampleServer true none) socketFails quietAccept rfl).1 3
      (fun _ _ => ⟨rfl, rfl⟩),
   ((start_failure_outcomes (sampleServer true none) bindFails quietAccept rfl).2 rfl
      (by decide) (Or.inl rfl) 0).1,
   ((start_failure_outcomes (sampleServer true none) bindFails quietAccept rfl).2 rfl
      (by decide) (Or.inl rfl) 0).2.2.2⟩

/-! ## A worker or a listener that cannot be created -/

/-- C17: in threaded mode, when xTaskCreate fails for an admitted connection,
started () of the new object is false, the pass closes its socket once (in the
destructor, which returns without a single delay whatever the worker-ended
flag reads), and the pass ends with the state ACCEPTING_CONNECTIONS and the
loop going on. -/
theorem worker_spawn_failure (s : TcpServer) (listenerSocket : Int) (e : AcceptEnv)
    (hmode : s.__threadedMode__ = true) (hacc : e.connectionSocket ≠ -1)
    (hfw : s.__callFirewallCallback__ e.peerIP = true) (hfc : e.fcntl ≠ -1)
    (hfail : e.taskCreated = false) :
    (TcpConnection.threadedConstructor true s.__connectionStackSize__ e.connectionSocket
      e.peerIP s.__timeOutMillis__ e.constructedAt false).1.started = false ∧
    s.acceptStep listenerSocket e =
      AcceptStep.again { s with __listenerState__ := LISTENER_STATE_TYPE.ACCEPTING_CONNECTIONS }
        [SrvEvent.io (Event.delay 1),
         SrvEvent.setState LISTENER_STATE_TYPE.ACCEPTING_CONNECTIONS,
         SrvEvent.accept listenerSocket e.connectionSocket,
         SrvEvent.fcntl e.connectionSocket e.fcntl,
         SrvEvent.xTaskCreate "TcpConnection" s.__connectionStackSize__ false,
         SrvEvent.construct (TcpConnection.threadedConstructor true s.__connectionStackSize__
           e.connectionSocket e.peerIP s.__timeOutMillis__ e.constructedAt false).1,
         SrvEvent.io (Event.close e.connectionSocket),
         SrvEvent.destruct { (TcpConnection.threadedConstructor true s.__connectionStackSize__
           e.connectionSocket e.peerIP s.__timeOutMillis__ e.constructedAt false).1 with
           __socket__ := -1 }] ∧
    closeCalls (s.acceptStep listenerSocket e).trace = [e.connectionSocket] ∧
    (s.acceptStep listenerSocket e).continues = true ∧
    (s.acceptStep listenerSocket e).server.__listenerState__
      = LISTENER_STATE_TYPE.ACCEPTING_CONNECTIONS ∧
    (∀ (ended : Nat → Bool) (fuel : Nat),
      ((TcpConnection.threadedConstructor true s.__connectionStackSize__ e.connectionSocket
        e.peerIP s.__timeOutMillis__ e.constructedAt false).1.destructor ended fuel).returned
        = true ∧
      ((TcpConnection.threadedConstructor true s.__connectionStackSize__ e.connectionSocket
        e.peerIP s.__timeOutMillis__ e.constructedAt false).1.destructor ended fuel).trace
        = [SrvEvent.io (Event.close e.connectionSocket)]) := by
  have hlive : (!s.__threadedMode__ && s.timeOut e.now) = false := by simp [hmode]
  have hm1 : ({ s with __listenerState__ := LISTENER_STATE_TYPE.ACCEPTING_CONNECTIONS }
      : TcpServer).__threadedMode__ = true := hmode
  have hstep := acceptStep_admitted s listenerSocket e hacc hlive hfw hfc
  rw [hmode, if_pos rfl, newConnection_threaded _ _ _ _ hm1 hacc, hfail] at hstep
  simp only [Bool.false_eq_true, if_false] at hstep
  have hs : (TcpConnection.threadedConstructor true s.__connectionStackSize__
      e.connectionSocket e.peerIP s.__timeOutMillis__ e.constructedAt
      false).1.__listenerThreadStarted__ = false := by
    simp [TcpConnection.threadedConstructor]
  refine ⟨hs, hstep, ?_, ?_, ?_, ?_⟩
  · rw [hstep]; simp [AcceptStep.trace, closeCalls]
  · rw [hstep]; rfl
  · rw [hstep]; rfl
  · intro ended fuel
    have hd := destructor_not_started _ hs ended fuel
    refine ⟨hd.1, ?_⟩
    rw [hd.2.2]
    simp [TcpConnection.closeConnection, TcpConnection.threadedConstructor, hacc]

/-- C17 on the threaded server of the examples: the worker for the peer on
socket 7 cannot be created; socket 7 is closed once and the loop goes on. -/
theorem worker_spawn_failure_witness :
    closeCalls ((sampleServer true none).acceptStep 3 (onePeer "10.0.0.2" false 0)).trace = [7] ∧
    ((sampleServer true none).acceptStep 3 (onePeer "10.0.0.2" false 0)).continues = true ∧
    ((sampleServer true none).acceptStep 3 (onePeer "10.0.0.2" false 0)).server.__listenerState__
      = LISTENER_STATE_TYPE.ACCEPTING_CONNECTIONS := by
  have h := worker_spawn_failure (sampleServer true none) 3 (onePeer "10.0.0.2" false 0) rfl
    (by decide) rfl (by decide) rfl
  exact ⟨h.2.2.1, h.2.2.2.1, h.2.2.2.2.1⟩

theorem waitListenerRunning_never (fuel : Nat) :
    ∀ k, TcpServer.waitListenerRunning (fun _ => LISTENER_STATE_TYPE.NOT_RUNNING) fuel k
      = (false, LISTENER_STATE_TYPE.NOT_RUNNING,
          List.replicate fuel (SrvEvent.io (Event.delay 1))) := by
  induction fuel with
  | zero => intro k; simp [TcpServer.waitListenerRunning]
  | succ fuel ih =>
    intro k
    simp [TcpServer.waitListenerRunning, ih, List.replicate_succ]

/-- C18 at the failing input: xTaskCreate fails for the listener. Whatever the
iteration bound, the constructor has not returned: it is still in its loop
while (state == NOT_RUNNING), having made nothing but delays; started (), if
it could be called, would answer false at once. -/
theorem constructor_spins_without_listener (connectionHandlerCallback : Bool)
    (connectionStackSize timeOutMillis : Nat) (serverIP : String) (serverPort : Int)
    (firewallCallback : Option (String → Bool)) (now : Nat)
    (listenerState : Nat → LISTENER_STATE_TYPE) (fuel : Nat) :
    (TcpServer.threadedConstructor connectionHandlerCallback connectionStackSize timeOutMillis
      serverIP serverPort firewallCallback now false listenerState fuel).returned = false ∧
    (TcpServer.threadedConstructor connectionHandlerCallback connectionStackSize timeOutMillis
      serverIP serverPort firewallCallback now false listenerState fuel).trace
      = SrvEvent.setState LISTENER_STATE_TYPE.NOT_RUNNING
        :: SrvEvent.xTaskCreate "TcpListener" 2048 false
        :: List.replicate fuel (SrvEvent.io (Event.delay 1)) ∧
    (TcpServer.nonThreadedConstructor timeOutMillis serverIP serverPort firewallCallback now
      false listenerState fuel).returned = false ∧
    TcpServer.started (fun _ => LISTENER_STATE_TYPE.NOT_RUNNING) fuel 0 = (some false, []) := by
  have hw := waitListenerRunning_never fuel 0
  refine ⟨?_, ?_, ?_, ?_⟩
  · simp [TcpServer.threadedConstructor, TcpServer.startListener, hw]
  · simp [TcpServer.threadedConstructor, TcpServer.startListener, hw]
  · simp [TcpServer.nonThreadedConstructor, TcpServer.startListener, hw]
  · cases fuel <;> simp [TcpServer.started, LISTENER_STATE_TYPE.toInt]

/-! ## The constructor of TcpClient -/

/-- C19 as stated fails: when the text of the server address cannot be turned
into an address (inet_addr gives INADDR_NONE) and connect reports that the
connection is in progress, connection () is not NULL. -/
theorem client_unresolved_address_counterexample :
    ¬ (∀ (serverIP : String) (serverPort : Int) (timeOutMillis : Nat) (e : ClientEnv),
        (e.socket = -1 ∨ e.fcntl = -1 ∨ e.inet_addr = INADDR_NONE ∨
          (e.connect = -1 ∧ e.errno ≠ EINPROGRESS)) →
        (TcpClient.constructor serverIP serverPort timeOutMillis e).1.connection = none) := by
  intro h
  have h0 := h "no.such.host" 80 1000 unresolvedAddress (Or.inr (Or.inr (Or.inl rfl)))
  revert h0
  decide

/-- C19 amended: after the constructor of TcpClient, connection () is NULL when
socket () fails (nothing to close), when fcntl fails, or when connect fails
with an errno other than EINPROGRESS (the socket is closed once in both
cases); otherwise, for an address text of at most 15 bytes (the field that
takes it has 16 characters), connection () is the connection object that holds
the socket, the time-out and the address text given, and nothing is closed.
The value of inet_addr is not tested. -/
theorem client_constructor_outcomes (serverIP : String) (serverPort : Int) (timeOutMillis : Nat)
    (e : ClientEnv) :
    (e.socket = -1 →
      (TcpClient.constructor serverIP serverPort timeOutMillis e).1.connection = none ∧
      closeCalls (TcpClient.constructor serverIP serverPort timeOutMillis e).2 = []) ∧
    (e.socket ≠ -1 → (e.fcntl = -1 ∨ (e.connect = -1 ∧ e.errno ≠ EINPROGRESS)) →
      (TcpClient.constructor serverIP serverPort timeOutMillis e).1.connection = none ∧
      closeCalls (TcpClient.constructor serverIP serverPort timeOutMillis e).2 = [e.socket]) ∧
    (e.socket ≠ -1 → e.fcntl ≠ -1 → ¬ (e.connect = -1 ∧ e.errno ≠ EINPROGRESS) →
      otherSideIPFits serverIP →
      (TcpClient.constructor serverIP serverPort timeOutMillis e).1.connection
        = some (TcpConnection.nonThreadedConstructor e.socket serverIP timeOutMillis e.now) ∧
      closeCalls (TcpClient.constructor serverIP serverPort timeOutMillis e).2 = [] ∧
      ∃ c, (TcpClient.constructor serverIP serverPort timeOutMillis e).1.connection = some c ∧
        c.__socket__ = e.socket ∧ c.getTimeOut = timeOutMillis ∧
        c.getOtherSideIP = serverIP) := by
  refine ⟨?_, ?_, ?_⟩
  · intro hs
    simp [TcpClient.constructor, TcpClient.connection, hs, closeCalls]
  · intro hs hfail
    by_cases hf : e.fcntl = -1
    · simp [TcpClient.constructor, TcpClient.connection, hs, hf, closeCalls]
    · have hc : e.connect = -1 ∧ e.errno ≠ EINPROGRESS := by
        rcases hfail with h | h
        · exact absurd h hf
        · exact h
      simp [TcpClient.constructor, TcpClient.connection, hs, hf, hc.1, hc.2, closeCalls]
  · intro hs hf hc _
    have hc2 : ¬ (e.connect = -1 ∧ ¬ e.errno = EINPROGRESS) := hc
    refine ⟨?_, ?_, ?_⟩
    · simp only [TcpClient.constructor, TcpClient.connection, hs, hf, hc2, if_false, ne_eq]
    · simp only [TcpClient.constructor, hs, hf, hc2, if_false, ne_eq]
      simp [closeCalls]
    · refine ⟨TcpConnection.nonThreadedConstructor e.socket serverIP timeOutMillis e.now, ?_,
        rfl, rfl, rfl⟩
      simp only [TcpClient.constructor, TcpClient.connection, hs, hf, hc2, if_false, ne_eq]

/-- C19 amended, on the examples: a refused connect leaves connection () NULL and
closes socket 5 once; a connect in progress gives the connection on socket 5. -/
theorem client_constructor_outcomes_witness :
    (TcpClient.constructor "10.0.0.2" 80 1000 connectRefused).1.connection = none ∧
    closeCalls (TcpClient.constructor "10.0.0.2" 80 1000 connectRefused).2 = [5] ∧
    (TcpClient.constructor "10.0.0.2" 80 1000 connectInProgress).1.connection
      = some (TcpConnection.nonThreadedConstructor 5 "10.0.0.2" 1000 100) :=
  ⟨((client_constructor_outcomes "10.0.0.2" 80 1000 connectRefused).2.1 (by decide)
      (Or.inr ⟨rfl, by decide⟩)).1,
   ((client_constructor_outcomes "10.0.0.2" 80 1000 connectRefused).2.1 (by decide)
      (Or.inr ⟨rfl, by decide⟩)).2,
   ((client_constructor_outcomes "10.0.0.2" 80 1000 connectInProgress).2.2 (by decide)
      (by decide) (by decide) (by decide)).1⟩

/-! ## The destructor of TcpServer -/

theorem waitListenerFinished_at (observed : Nat → LISTENER_STATE_TYPE) :
    ∀ (j k : Nat),
      (∀ m, m < j → (observed (k + m)).toInt < LISTENER_STATE_TYPE.FINISHED.toInt) →
      ¬ (observed (k + j)).toInt < LISTENER_STATE_TYPE.FINISHED.toInt →
      ∀ fuel,
        (fuel < j → (TcpServer.waitListenerFinished observed fuel k).1 = false) ∧
        (j ≤ fuel → TcpServer.waitListenerFinished observed fuel k
          = (true, observed (k + j), List.replicate j (SrvEvent.io (Event.delay 1)))) := by
  intro j
  induction j with
  | zero =>
    intro k _ hat fuel
    simp only [Nat.add_zero] at hat
    refine ⟨fun h => absurd h (Nat.not_lt_zero _), fun _ => ?_⟩
    cases fuel <;> simp [TcpServer.waitListenerFinished, hat]
  | succ j ih =>
    intro k hbefore hat fuel
    have h0 := hbefore 0 (Nat.succ_pos j)
    simp only [Nat.add_zero] at h0
    have hidx : k + (j + 1) = k + 1 + j := by omega
    rw [hidx] at hat
    have hrest := ih (k + 1) (fun m hm => by
      have := hbefore (m + 1) (by omega)
      have hi : k + 1 + m = k + (m + 1) := by omega
      rw [hi]; exact this) hat
    cases fuel with
    | zero =>
      refine ⟨fun _ => ?_, fun h => absurd h (by omega)⟩
      simp [TcpServer.waitListenerFinished, h0]
    | succ fuel =>
      have hr := hrest fuel
      constructor
      · intro hlt
        simp only [TcpServer.waitListenerFinished, h0, if_true]
        exact hr.1 (by omega)
      · intro hle
        simp only [TcpServer.waitListenerFinished, h0, if_true]
        rw [hr.2 (by omega), hidx]
        simp [List.replicate_succ]

/-- C20 as stated fails: a threaded server whose listener accepted a peer and
started its worker, and then finished, is destroyed at once, whatever the
worker-ended flag of that connection reads at that time (workerEnded). -/
theorem server_destructor_ignores_workers :
    ¬ (∀ (s : TcpServer) (startEnv : Nat → StartEnv) (acceptEnv : Nat → AcceptEnv)
        (listenerFuel : Nat) (connEnded : Nat → Bool) (observed : Nat → LISTENER_STATE_TYPE)
        (fuel : Nat) (workerEnded : TcpConnection → Bool),
        s.__threadedMode__ = true →
        ((s.__listener__ startEnv acceptEnv listenerFuel).server.destructor connEnded observed
          fuel).returned = true →
        ∀ w ∈ constructions (s.__listener__ startEnv acceptEnv listenerFuel).trace,
          w.started = true → workerEnded w = true) := by
  intro h
  have h0 := h (sampleServer true none) goodStart (onePeer "10.0.0.2" true) 10
    (fun _ => false) (fun _ => LISTENER_STATE_TYPE.FINISHED) 0 (fun _ => false) rfl rfl
    (TcpConnection.threadedConstructor true 8192 7 "10.0.0.2" 1000 11 true).1 (by decide) rfl
  cases h0

/-- C20 amended: destroying a TcpServer that holds no single-shot connection
(every threaded server) sets the unload flag and does not return before the
listener state is read as not below FINISHED; it returns at the first test
that reads so, having made one delay per earlier test and nothing else. The
connections handed to workers are not part of the server object and are not
waited for. -/
theorem server_destructor_waits_for_listener (s : TcpServer) (connEnded : Nat → Bool)
    (observed : Nat → LISTENER_STATE_TYPE) (j : Nat) (hnone : s.__connection__ = none)
    (hbefore : ∀ k, k < j → (observed k).toInt < LISTENER_STATE_TYPE.FINISHED.toInt)
    (hat : ¬ (observed j).toInt < LISTENER_STATE_TYPE.FINISHED.toInt) :
    (∀ fuel, fuel < j → (s.destructor connEnded observed fuel).returned = false) ∧
    (∀ fuel, j ≤ fuel →
      (s.destructor connEnded observed fuel).returned = true ∧
      (s.destructor connEnded observed fuel).object
        = { s with __instanceUnloading__ := true, __listenerState__ := observed j } ∧
      (s.destructor connEnded observed fuel).trace
        = List.replicate j (SrvEvent.io (Event.delay 1))) := by
  have hw := waitListenerFinished_at observed j 0 (fun m hm => by simpa using hbefore m hm)
    (by simpa using hat)
  constructor
  · intro fuel hlt
    simp only [TcpServer.destructor, hnone, if_true]
    exact (hw fuel).1 hlt
  · intro fuel hle
    have h := (hw fuel).2 hle
    simp only [Nat.zero_add] at h
    simp [TcpServer.destructor, hnone, h]

/-- C20 amended, on a threaded server whose listener is read as finished at the
third test: the destructor is still waiting after one delay and returns after
two. -/
theorem server_destructor_waits_for_listener_witness :
    ((sampleServer true none).destructor (fun _ => false) finishesAtThird 1).returned = false ∧
    ((sampleServer true none).destructor (fun _ => false) finishesAtThird 2).returned = true ∧
    ((sampleServer true none).destructor (fun _ => false) finishesAtThird 2).trace
      = [SrvEvent.io (Event.delay 1), SrvEvent.io (Event.delay 1)] := by
  have h := server_destructor_waits_for_listener (sampleServer true none) (fun _ => false)
    finishesAtThird 2 rfl
    (by
      intro k hk
      have hk2 : k = 0 ∨ k = 1 := by omega
      rcases hk2 with rfl | rfl <;> decide)
    (by decide)
  exact ⟨h.1 1 (by decide), (h.2 2 (le_refl _)).1, (h.2 2 (le_refl _)).2.2⟩

/-! ## The worker task -/

/-- C21 at the failing input: a threaded connection on socket 7 whose handler
sends ten bytes and returns. The handler is entered once, but after the write
__threadEnded__ = true the worker goes on to delete the object: the destructor
reads the flags, calls close (7) and writes -1 to __socket__. -/
theorem worker_touches_object_after_flag :
    ((TcpConnection.threadedConstructor true 8192 7 "10.0.0.2" 1000 11 true).1.__connectionHandler__
      [ConnOp.sendData healthyLink 10 5] (fun _ => false) 0).handlerCalls = 1 ∧
    ((TcpConnection.threadedConstructor true 8192 7 "10.0.0.2" 1000 11 true).1.__connectionHandler__
      [ConnOp.sendData healthyLink 10 5] (fun _ => false) 0).flagged.__threadEnded__ = true ∧
    ((TcpConnection.threadedConstructor true 8192 7 "10.0.0.2" 1000 11 true).1.__connectionHandler__
      [ConnOp.sendData healthyLink 10 5] (fun _ => false) 0).flagged.__socket__ = 7 ∧
    ((TcpConnection.threadedConstructor true 8192 7 "10.0.0.2" 1000 11 true).1.__connectionHandler__
      [ConnOp.sendData healthyLink 10 5] (fun _ => false) 0).deleted.trace
      = [SrvEvent.io (Event.close 7)] ∧
    ((TcpConnection.threadedConstructor true 8192 7 "10.0.0.2" 1000 11 true).1.__connectionHandler__
      [ConnOp.sendData healthyLink 10 5] (fun _ => false) 0).deleted.object.__socket__ = -1 := by
  decide

/-! ## The cached local address -/

/-- C22 as stated fails: after getThisSideIP has returned 10.0.0.5, the
connection is closed; the next getThisSideIP, whose getsockname fails on the
closed handle, returns the empty text. -/
theorem local_address_cache_counterexample :
    ¬ (∀ (c : TcpConnection) (r1 : Option String) (ops : List ConnOp) (r2 : Option String),
        (c.getThisSideIP r1).1 ≠ "" →
        (((c.getThisSideIP r1).2.1.performAll ops).1.getThisSideIP r2).1
          = (c.getThisSideIP r1).1) := by
  intro h
  have h0 := h (sampleConnection 1000) (some "10.0.0.5") [ConnOp.closeConnection] none
    (by decide)
  revert h0
  decide

theorem recvDataLoop_thisSideIP (env : Nat → SysResult) (bufferSize : Int) :
    ∀ (fuel k : Nat) (c : TcpConnection),
      (TcpConnection.recvDataLoop env bufferSize fuel k c).conn.__thisSideIP__
        = c.__thisSideIP__ := by
  intro fuel
  induction fuel with
  | zero => intro k c; rfl
  | succ fuel ih =>
    intro k c
    unfold TcpConnection.recvDataLoop
    simp only [Outcome.prepend]
    split_ifs <;>
      first
        | exact ih _ _
        | rfl
        | simp [TcpConnection.flagAndClose, closeConnection_conn]

theorem sendDataLoop_thisSideIP (env : Nat → Int → SysResult) :
    ∀ (fuel k : Nat) (c : TcpConnection) (writtenTotal bufferSize : Int),
      (TcpConnection.sendDataLoop env fuel k c writtenTotal bufferSize).conn.__thisSideIP__
        = c.__thisSideIP__ := by
  intro fuel
  induction fuel with
  | zero =>
    intro k c wt bs
    unfold TcpConnection.sendDataLoop
    split_ifs <;> rfl
  | succ fuel ih =>
    intro k c wt bs
    unfold TcpConnection.sendDataLoop
    simp only [Outcome.prepend]
    split_ifs <;>
      first
        | exact ih _ _ _ _
        | rfl
        | simp [TcpConnection.flagAndClose, closeConnection_conn]

theorem perform_thisSideIP (c : TcpConnection) (op : ConnOp) (hok : op.lookupFails = false)
    (hne : c.__thisSideIP__ ≠ "") :
    (c.perform op).1.__thisSideIP__ = c.__thisSideIP__ := by
  cases op with
  | recvData env bufferSize fuel => exact recvDataLoop_thisSideIP env bufferSize fuel 0 c
  | sendData env bufferSize fuel => exact sendDataLoop_thisSideIP env fuel 0 c 0 bufferSize
  | available r =>
    simp only [TcpConnection.perform, TcpConnection.available]
    split_ifs <;>
      first
        | rfl
        | simp [closeConnection_conn]
  | closeConnection => simp [TcpConnection.perform, closeConnection_conn]
  | setTimeOut t now => rfl
  | getTimeOut => rfl
  | getThisSideIP r =>
    cases r with
    | none => simp [ConnOp.lookupFails] at hok
    | some a => simp [TcpConnection.perform, TcpConnection.getThisSideIP, hne]
  | getOtherSideIP => rfl
  | timeOut => rfl
  | started => rfl

theorem performAll_thisSideIP (ops : List ConnOp) :
    ∀ c : TcpConnection, (∀ op ∈ ops, op.lookupFails = false) → c.__thisSideIP__ ≠ "" →
      (c.performAll ops).1.__thisSideIP__ = c.__thisSideIP__ := by
  induction ops with
  | nil => intro c _ _; rfl
  | cons op ops ih =>
    intro c hok hne
    have h1 := perform_thisSideIP c op (hok op (List.mem_cons_self _ _)) hne
    simp only [TcpConnection.performAll]
    rw [ih (c.perform op).1 (fun o ho => hok o (List.mem_cons_of_mem _ ho)) (by rw [h1]; exact hne),
      h1]

theorem getThisSideIP_cached (c : TcpConnection) (b : String) (hne : c.__thisSideIP__ ≠ "") :
    (c.getThisSideIP (some b)).1 = c.__thisSideIP__ := by
  simp [TcpConnection.getThisSideIP, hne]

/-- C22 amended: once getThisSideIP has returned a non-empty address a, every
later getThisSideIP whose getsockname succeeds returns a, whatever getsockname
reports as the address, provided no getThisSideIP in between had its
getsockname fail; a getThisSideIP whose getsockname fails (as it does on a
closed handle) returns the empty text and empties the cache. -/
theorem local_address_cached_until_lookup_fails (c : TcpConnection) (r1 : Option String)
    (ops : List ConnOp) (hne : (c.getThisSideIP r1).1 ≠ "")
    (hok : ∀ op ∈ ops, op.lookupFails = false) :
    (∀ b : String,
      (((c.getThisSideIP r1).2.1.performAll ops).1.getThisSideIP (some b)).1
        = (c.getThisSideIP r1).1) ∧
    (((c.getThisSideIP r1).2.1.performAll ops).1.getThisSideIP none).1 = "" ∧
    (((c.getThisSideIP r1).2.1.performAll ops).1.getThisSideIP none).2.1.__thisSideIP__ = "" := by
  have hstate : (c.getThisSideIP r1).2.1.__thisSideIP__ = (c.getThisSideIP r1).1 := by
    cases r1 with
    | none => rfl
    | some a => rfl
  have hkeep := performAll_thisSideIP ops (c.getThisSideIP r1).2.1 hok (by rw [hstate]; exact hne)
  refine ⟨?_, rfl, rfl⟩
  intro b
  have hne2 : ((c.getThisSideIP r1).2.1.performAll ops).1.__thisSideIP__ ≠ "" := by
    rw [hkeep, hstate]; exact hne
  rw [getThisSideIP_cached _ b hne2, hkeep, hstate]

/-- C22 amended, on a connection that learnt 10.0.0.5: after a setTimeOut and an
available, a lookup that reports 10.0.0.6 still gives 10.0.0.5. -/
theorem local_address_cached_until_lookup_fails_witness :
    ((((sampleConnection 1000).getThisSideIP (some "10.0.0.5")).2.1.performAll
      [ConnOp.setTimeOut 50 8, ConnOp.available ⟨1, 0, 9⟩]).1.getThisSideIP
        (some "10.0.0.6")).1 = "10.0.0.5" :=
  (local_address_cached_until_lookup_fails (sampleConnection 1000) (some "10.0.0.5")
    [ConnOp.setTimeOut 50 8, ConnOp.available ⟨1, 0, 9⟩] (by decide)
    (by
      intro op hop
      simp only [List.mem_cons, List.mem_singleton, List.not_mem_nil, or_false] at hop
      rcases hop with rfl | rfl <;> rfl)).1 "10.0.0.6"

/-! ## The idle time-out of a single-shot server -/

/-- C23: TcpServer::timeOut is true exactly when the server is in single-shot
mode, its time-out is not INFINITE_TIMEOUT and (now - lastActive) mod 2^32 is
strictly above the time-out, lastActive being the reading of millis () in the
constructor; for a threaded server it is false whatever the clock reads, and a
pass of the accept loop of a threaded server never ends the loop. -/
theorem server_timeOut_iff (s : TcpServer) (now : Nat) :
    (s.timeOut now = true ↔
      s.__threadedMode__ = false ∧ s.__timeOutMillis__ ≠ INFINITE_TIMEOUT ∧
        s.__timeOutMillis__ < elapsedMillis now s.__lastActiveMillis__) ∧
    (s.__threadedMode__ = true → s.timeOut now = false) ∧
    (s.__threadedMode__ = true →
      ∀ (listenerSocket : Int) (e : AcceptEnv), (s.acceptStep listenerSocket e).continues = true) ∧
    (∀ (timeOutMillis : Nat) (serverIP : String) (serverPort : Int)
      (firewallCallback : Option (String → Bool)) (constructedAt : Nat) (taskCreated : Bool)
      (listenerState : Nat → LISTENER_STATE_TYPE) (fuel : Nat),
      (TcpServer.nonThreadedConstructor timeOutMillis serverIP serverPort firewallCallback
        constructedAt taskCreated listenerState fuel).object.__lastActiveMillis__
        = constructedAt) := by
  refine ⟨?_, ?_, ?_, ?_⟩
  · unfold TcpServer.timeOut
    cases hm : s.__threadedMode__
    · by_cases hT : s.__timeOutMillis__ = INFINITE_TIMEOUT
      · simp [hT]
      · by_cases hlt : s.__timeOutMillis__ < elapsedMillis now s.__lastActiveMillis__
        · simp [hT, hlt]
        · simp [hT, hlt]
    · simp
  · intro hm
    simp [TcpServer.timeOut, hm]
  · intro hm ls e
    have hlive : (!s.__threadedMode__ && s.timeOut e.now) = false := by simp [hm]
    by_cases hacc : e.connectionSocket = -1
    · rw [acceptStep_nothing s ls e hacc hlive]; rfl
    · cases hfw : s.__callFirewallCallback__ e.peerIP
      · rw [acceptStep_rejected s ls e hacc hlive hfw]; rfl
      · by_cases hfc : e.fcntl = -1
        · rw [acceptStep_not_nonblocking s ls e hacc hlive hfw hfc]; rfl
        · rw [acceptStep_admitted s ls e hacc hlive hfw hfc, hm]; rfl
  · intro T ip port fw t0 tc ls fuel
    rfl

/-- C23 on the single-shot server of the examples (time-out 1000, constructed
at 0): not timed out at 1000, timed out at 1001; the threaded one never. -/
theorem server_timeOut_iff_witness :
    (sampleServer false none).timeOut 1000 = false ∧
    (sampleServer false none).timeOut 1001 = true ∧
    (sampleServer true none).timeOut 4000000 = false :=
  ⟨by decide,
   (server_timeOut_iff (sampleServer false none) 1001).1.mpr ⟨rfl, by decide, by decide⟩,
   (server_timeOut_iff (sampleServer true none) 4000000).2.1 rfl⟩

/-! ## The sliding idle time-out -/

theorem sendDataLoop_step_retry (env : Nat → Int → SysResult) (fuel k : Nat)
    (c : TcpConnection) (writtenTotal bufferSize : Int) (hbs : bufferSize ≠ 0)
    (hopen : c.__socket__ ≠ -1) (hnr : notReady (env k (min bufferSize SEND_CHUNK)))
    (hin : inTime c (env k (min bufferSize SEND_CHUNK))) :
    TcpConnection.sendDataLoop env (fuel + 1) k c writtenTotal bufferSize
      = (TcpConnection.sendDataLoop env fuel (k + 1) c writtenTotal bufferSize).prepend
          [Event.send c.__socket__ (min bufferSize SEND_CHUNK) (-1), Event.delay 1] := by
  unfold notReady at hnr
  unfold inTime at hin
  rw [TcpConnection.sendDataLoop]
  simp only [hbs, hopen, if_false, hnr.1, hnr.2, hin, if_true]

theorem sendDataLoop_step_late (env : Nat → Int → SysResult) (fuel k : Nat)
    (c : TcpConnection) (writtenTotal bufferSize : Int) (hbs : bufferSize ≠ 0)
    (hopen : c.__socket__ ≠ -1) (hnr : notReady (env k (min bufferSize SEND_CHUNK)))
    (hout : ¬ inTime c (env k (min bufferSize SEND_CHUNK))) :
    TcpConnection.sendDataLoop env (fuel + 1) k c writtenTotal bufferSize
      = ⟨some writtenTotal, ExitPoint.timedOut,
          { c with __timeOut__ := true, __socket__ := -1 },
          [Event.send c.__socket__ (min bufferSize SEND_CHUNK) (-1),
           Event.close c.__socket__]⟩ := by
  unfold notReady at hnr
  unfold inTime at hout
  rw [TcpConnection.sendDataLoop]
  simp only [hbs, hopen, if_false, hnr.1, hnr.2, hout, if_true, TcpConnection.flagAndClose,
    TcpConnection.closeConnection, ne_eq, not_false_eq_true]

theorem sendDataLoop_step_transfer (env : Nat → Int → SysResult) (fuel k : Nat)
    (c : TcpConnection) (writtenTotal bufferSize : Int) (hbs : bufferSize ≠ 0)
    (hopen : c.__socket__ ≠ -1) (htr : transferred (env k (min bufferSize SEND_CHUNK))) :
    TcpConnection.sendDataLoop env (fuel + 1) k c writtenTotal bufferSize
      = (TcpConnection.sendDataLoop env fuel (k + 1)
          { c with __lastActiveMillis__ := (env k (min bufferSize SEND_CHUNK)).now }
          (writtenTotal + (env k (min bufferSize SEND_CHUNK)).ret)
          (bufferSize - (env k (min bufferSize SEND_CHUNK)).ret)).prepend
          [Event.send c.__socket__ (min bufferSize SEND_CHUNK)
            (env k (min bufferSize SEND_CHUNK)).ret] := by
  unfold transferred at htr
  rw [TcpConnection.sendDataLoop]
  simp only [hbs, hopen, if_false, htr.1, htr.2]

theorem sendDataLoop_exit_other (env : Nat → Int → SysResult) (fuel k : Nat)
    (c : TcpConnection) (writtenTotal bufferSize : Int)
    (hother : bufferSize = 0 ∨ c.__socket__ = -1 ∨
      (¬ notReady (env k (min bufferSize SEND_CHUNK)) ∧
        ¬ transferred (env k (min bufferSize SEND_CHUNK)))) :
    (TcpConnection.sendDataLoop env (fuel + 1) k c writtenTotal bufferSize).exit
      ≠ ExitPoint.timedOut := by
  rw [TcpConnection.sendDataLoop]
  by_cases hbs : bufferSize = 0
  · simp [hbs]
  · by_cases hs : c.__socket__ = -1
    · simp [hbs, hs]
    · rcases hother with h | h | ⟨hnr, htr⟩
      · exact absurd h hbs
      · exact absurd h hs
      · unfold notReady at hnr
        unfold transferred at htr
        by_cases h1 : (env k (min bufferSize SEND_CHUNK)).ret = -1
        · have herr : ¬ ((env k (min bufferSize SEND_CHUNK)).errno = EAGAIN ∨
              (env k (min bufferSize SEND_CHUNK)).errno = ENAVAIL) := fun he => hnr ⟨h1, he⟩
          simp [hbs, hs, h1, herr, TcpConnection.flagAndClose]
        · have h0 : (env k (min bufferSize SEND_CHUNK)).ret = 0 := by
            by_contra h0
            exact htr ⟨h1, h0⟩
          simp [hbs, hs, h0]

/-- A sendData that leaves through the time-out test does so at a poll at which
the time-out has elapsed since the stamp in the object, and that stamp is the
clock reading of the most recent send () of this call that transferred
something, or the stamp the call began with when there was none. -/
theorem sendDataLoop_timedOut_since_transfer (env : Nat → Int → SysResult) :
    ∀ (fuel k : Nat) (c : TcpConnection) (writtenTotal bufferSize : Int),
      (TcpConnection.sendDataLoop env fuel k c writtenTotal bufferSize).exit
        = ExitPoint.timedOut →
      ∃ j len, k ≤ j ∧ notReady (env j len) ∧
        c.__timeOutMillis__ ≤ elapsedMillis (env j len).now
          (TcpConnection.sendDataLoop env fuel k c writtenTotal
            bufferSize).conn.__lastActiveMillis__ ∧
        (((TcpConnection.sendDataLoop env fuel k c writtenTotal
            bufferSize).conn.__lastActiveMillis__ = c.__lastActiveMillis__ ∧
          idleBetween env k j) ∨
         ∃ i len1, k ≤ i ∧ i < j ∧ transferred (env i len1) ∧
          (TcpConnection.sendDataLoop env fuel k c writtenTotal
            bufferSize).conn.__lastActiveMillis__ = (env i len1).now ∧
          idleBetween env (i + 1) j) := by
  intro fuel
  induction fuel with
  | zero =>
    intro k c wt bs hexit
    unfold TcpConnection.sendDataLoop at hexit
    split_ifs at hexit
  | succ fuel ih =>
    intro k c wt bs hexit
    by_cases hbs : bs = 0
    · exact absurd hexit (sendDataLoop_exit_other env fuel k c wt bs (Or.inl hbs))
    by_cases hs : c.__socket__ = -1
    · exact absurd hexit (sendDataLoop_exit_other env fuel k c wt bs (Or.inr (Or.inl hs)))
    by_cases hnr : notReady (env k (min bs SEND_CHUNK))
    · by_cases hin : inTime c (env k (min bs SEND_CHUNK))
      · rw [sendDataLoop_step_retry env fuel k c wt bs hbs hs hnr hin] at hexit ⊢
        simp only [Outcome.prepend] at hexit ⊢
        obtain ⟨j, len, hkj, hjn, hT, hlast⟩ := ih (k + 1) c wt bs hexit
        refine ⟨j, len, by omega, hjn, hT, ?_⟩
        rcases hlast with ⟨hl, hidle⟩ | ⟨i, len1, hki, hij, htr, hl, hidle⟩
        · left
          refine ⟨hl, ?_⟩
          intro m hm1 hm2
          rcases Nat.eq_or_lt_of_le hm1 with heq | hlt
          · exact ⟨_, heq ▸ hnr⟩
          · exact hidle m hlt hm2
        · right
          exact ⟨i, len1, by omega, hij, htr, hl, hidle⟩
      · rw [sendDataLoop_step_late env fuel k c wt bs hbs hs hnr hin]
        refine ⟨k, _, le_refl _, hnr, ?_, Or.inl ⟨rfl, ?_⟩⟩
        · unfold inTime INFINITE_TIMEOUT at hin
          simp only
          omega
        · intro m hm1 hm2
          omega
    · by_cases htr : transferred (env k (min bs SEND_CHUNK))
      · rw [sendDataLoop_step_transfer env fuel k c wt bs hbs hs htr] at hexit ⊢
        simp only [Outcome.prepend] at hexit ⊢
        obtain ⟨j, len, hkj, hjn, hT, hlast⟩ := ih (k + 1) _ _ _ hexit
        refine ⟨j, len, by omega, hjn, hT, Or.inr ?_⟩
        rcases hlast with ⟨hl, hidle⟩ | ⟨i, len1, hki, hij, htr1, hl, hidle⟩
        · exact ⟨k, _, le_refl _, by omega, htr, hl, hidle⟩
        · exact ⟨i, len1, by omega, hij, htr1, hl, hidle⟩
      · exact absurd hexit
          (sendDataLoop_exit_other env fuel k c wt bs (Or.inr (Or.inr ⟨hnr, htr⟩)))

/-- A recvData that leaves through the time-out test does so at a poll at which
the time-out has elapsed since the stamp the call began with; every poll
before it found the socket not ready, with the time-out not yet elapsed. -/
theorem recvDataLoop_timedOut_since_stamp (env : Nat → SysResult) (bufferSize : Int) :
    ∀ (fuel k : Nat) (c : TcpConnection),
      (TcpConnection.recvDataLoop env bufferSize fuel k c).exit = ExitPoint.timedOut →
      ∃ j, k ≤ j ∧ notReady (env j) ∧
        c.__timeOutMillis__ ≤ elapsedMillis (env j).now c.__lastActiveMillis__ ∧
        ∀ m, k ≤ m → m < j → notReady (env m) ∧ inTime c (env m) := by
  intro fuel
  induction fuel with
  | zero =>
    intro k c hexit
    cases hexit
  | succ fuel ih =>
    intro k c hexit
    by_cases hs : c.__socket__ = -1
    · simp [TcpConnection.recvDataLoop, hs] at hexit
    by_cases hnr : notReady (env k)
    · by_cases hin : inTime c (env k)
      · rw [recvDataLoop_step_retry env bufferSize fuel k c hs hnr hin] at hexit
        simp only [Outcome.prepend] at hexit
        obtain ⟨j, hkj, hjn, hT, hbefore⟩ := ih (k + 1) c hexit
        refine ⟨j, by omega, hjn, hT, ?_⟩
        intro m hm1 hm2
        rcases Nat.eq_or_lt_of_le hm1 with heq | hlt
        · exact heq ▸ ⟨hnr, hin⟩
        · exact hbefore m hlt hm2
      · refine ⟨k, le_refl _, hnr, ?_, fun m hm1 hm2 => by omega⟩
        unfold inTime INFINITE_TIMEOUT at hin
        omega
    · exfalso
      unfold notReady at hnr
      rw [TcpConnection.recvDataLoop] at hexit
      by_cases h1 : (env k).ret = -1
      · have herr : ¬ ((env k).errno = EAGAIN ∨ (env k).errno = ENAVAIL) :=
          fun he => hnr ⟨h1, he⟩
        simp [hs, h1, herr, TcpConnection.flagAndClose] at hexit
      · by_cases h0 : (env k).ret = 0
        · simp [hs, h0] at hexit
        · simp [hs, h1, h0] at hexit

/-- C24: the idle time-out slides. A recv () or send () that transfers
something stamps the object with the clock reading of that call, and so does
setTimeOut; a recvData poll leaves through the time-out test only when the
time-out has elapsed since the stamp the call began with, and a sendData poll
only when it has elapsed since the most recent send () of the call that
transferred something (since the stamp the call began with when there was
none). The stamp is the time of construction until the first transfer or
setTimeOut. -/
theorem idle_timeout_slides (c : TcpConnection) :
    (∀ (env : Nat → SysResult) (bufferSize : Int) (fuel k : Nat),
      c.__socket__ ≠ -1 → transferred (env k) →
      (TcpConnection.recvDataLoop env bufferSize (fuel + 1) k c).result = some (env k).ret ∧
      (TcpConnection.recvDataLoop env bufferSize (fuel + 1) k c).conn.__lastActiveMillis__
        = (env k).now) ∧
    (∀ (env : Nat → Int → SysResult) (k : Nat) (writtenTotal bufferSize : Int),
      c.__socket__ ≠ -1 → bufferSize ≠ 0 → transferred (env k (min bufferSize SEND_CHUNK)) →
      (TcpConnection.sendDataLoop env 1 k c writtenTotal bufferSize).conn.__lastActiveMillis__
        = (env k (min bufferSize SEND_CHUNK)).now) ∧
    (∀ timeOutMillis now : Nat, (c.setTimeOut timeOutMillis now).__lastActiveMillis__ = now) ∧
    (∀ (env : Nat → SysResult) (bufferSize : Int) (fuel k : Nat),
      (TcpConnection.recvDataLoop env bufferSize fuel k c).exit = ExitPoint.timedOut →
      ∃ j, k ≤ j ∧ notReady (env j) ∧
        c.__timeOutMillis__ ≤ elapsedMillis (env j).now c.__lastActiveMillis__ ∧
        ∀ m, k ≤ m → m < j → notReady (env m) ∧ inTime c (env m)) ∧
    (∀ (env : Nat → Int → SysResult) (fuel k : Nat) (writtenTotal bufferSize : Int),
      (TcpConnection.sendDataLoop env fuel k c writtenTotal bufferSize).exit
        = ExitPoint.timedOut →
      ∃ j len, k ≤ j ∧ notReady (env j len) ∧
        c.__timeOutMillis__ ≤ elapsedMillis (env j len).now
          (TcpConnection.sendDataLoop env fuel k c writtenTotal
            bufferSize).conn.__lastActiveMillis__ ∧
        (((TcpConnection.sendDataLoop env fuel k c writtenTotal
            bufferSize).conn.__lastActiveMillis__ = c.__lastActiveMillis__ ∧
          idleBetween env k j) ∨
         ∃ i len1, k ≤ i ∧ i < j ∧ transferred (env i len1) ∧
          (TcpConnection.sendDataLoop env fuel k c writtenTotal
            bufferSize).conn.__lastActiveMillis__ = (env i len1).now ∧
          idleBetween env (i + 1) j)) := by
  refine ⟨?_, ?_, fun _ _ => rfl, ?_, ?_⟩
  · intro env bs fuel k hs htr
    unfold transferred at htr
    rw [TcpConnection.recvDataLoop]
    simp [hs, htr.1, htr.2]
  · intro env k wt bs hs hbs htr
    rw [sendDataLoop_step_transfer env 0 k c wt bs hbs hs htr]
    simp only [Outcome.prepend, TcpConnection.sendDataLoop]
    split_ifs <;> rfl
  · exact fun env bs fuel k => recvDataLoop_timedOut_since_stamp env bs fuel k c
  · exact fun env fuel k wt bs => sendDataLoop_timedOut_since_transfer env fuel k c wt bs

/-- C24 on a connection with time-out 1000 stamped at 0: five of ten bytes go
through at 900; the poll at 1500 is retried, though 1500 ms have passed since
the stamp the call began with, and the poll at 1900 times out, 1000 ms after
the transfer. -/
theorem idle_timeout_slides_witness :
    ((sampleConnection 1000).sendData slidingLink 10 2).exit = ExitPoint.running ∧
    ((sampleConnection 1000).sendData slidingLink 10 3).exit = ExitPoint.timedOut ∧
    ((sampleConnection 1000).sendData slidingLink 10 3).conn.__lastActiveMillis__ = 900 ∧
    (TcpConnection.sendDataLoop slidingLink 1 0 (sampleConnection 1000) 0
      10).conn.__lastActiveMillis__ = (slidingLink 0 (min 10 SEND_CHUNK)).now :=
  ⟨by decide, by decide, by decide,
   (idle_timeout_slides (sampleConnection 1000)).2.1 slidingLink 0 0 10 (by decide) (by decide)
     (by decide)⟩

/-! ## The clock across its rollover -/

/-- C30: with now = (L + e) mod 2^32 and e < 2^32, the difference the code
computes, (now - L) mod 2^32, is e, whether or not the counter wrapped between
the two readings; hence a not-ready poll of recvData or sendData with time-out
T > 0 leaves through the time-out test exactly when e >= T, available returns
ERROR on a not-ready peek exactly when e >= T, and TcpServer::timeOut of a
single-shot server with time-out T > 0 is true exactly when e > T. -/
theorem elapsed_across_rollover (L e : Nat) (he : e < 4294967296) :
    elapsedMillis ((L + e) % 4294967296) L = e ∧
    (∀ (c : TcpConnection) (env : Nat → SysResult) (bufferSize : Int) (k : Nat),
      c.__socket__ ≠ -1 → c.__lastActiveMillis__ = L → 0 < c.__timeOutMillis__ →
      notReady (env k) → (env k).now = (L + e) % 4294967296 →
      ((TcpConnection.recvDataLoop env bufferSize 1 k c).exit = ExitPoint.timedOut ↔
        c.__timeOutMillis__ ≤ e)) ∧
    (∀ (c : TcpConnection) (env : Nat → Int → SysResult) (k : Nat)
      (writtenTotal bufferSize : Int),
      c.__socket__ ≠ -1 → bufferSize ≠ 0 → c.__lastActiveMillis__ = L →
      0 < c.__timeOutMillis__ → notReady (env k (min bufferSize SEND_CHUNK)) →
      (env k (min bufferSize SEND_CHUNK)).now = (L + e) % 4294967296 →
      ((TcpConnection.sendDataLoop env 1 k c writtenTotal bufferSize).exit
        = ExitPoint.timedOut ↔ c.__timeOutMillis__ ≤ e)) ∧
    (∀ (c : TcpConnection) (r : SysResult),
      c.__lastActiveMillis__ = L → 0 < c.__timeOutMillis__ →
      r.ret = -1 → (r.errno = EAGAIN ∨ r.errno = EBADF) → r.now = (L + e) % 4294967296 →
      ((c.available r).1 = AVAILABLE_TYPE.ERROR ↔ c.__timeOutMillis__ ≤ e)) ∧
    (∀ (s : TcpServer),
      s.__threadedMode__ = false → s.__lastActiveMillis__ = L → 0 < s.__timeOutMillis__ →
      (s.timeOut ((L + e) % 4294967296) = true ↔ s.__timeOutMillis__ < e)) := by
  have hel : elapsedMillis ((L + e) % 4294967296) L = e := by
    unfold elapsedMillis
    omega
  refine ⟨hel, ?_, ?_, ?_, ?_⟩
  · intro c env bs k hs hL hT hnr hnow
    have hin : inTime c (env k) ↔ ¬ c.__timeOutMillis__ ≤ e := by
      unfold inTime INFINITE_TIMEOUT
      rw [hnow, hL, hel]
      omega
    by_cases hle : c.__timeOutMillis__ ≤ e
    · have hout : ¬ inTime c (env k) := fun h => (hin.mp h) hle
      rw [recvDataLoop_step_late env bs 0 k c hs hnr hout]
      simp [hle]
    · have hin2 : inTime c (env k) := hin.mpr hle
      rw [recvDataLoop_step_retry env bs 0 k c hs hnr hin2]
      simp [Outcome.prepend, TcpConnection.recvDataLoop, hle]
  · intro c env k wt bs hs hbs hL hT hnr hnow
    have hin : inTime c (env k (min bs SEND_CHUNK)) ↔ ¬ c.__timeOutMillis__ ≤ e := by
      unfold inTime INFINITE_TIMEOUT
      rw [hnow, hL, hel]
      omega
    by_cases hle : c.__timeOutMillis__ ≤ e
    · have hout : ¬ inTime c (env k (min bs SEND_CHUNK)) := fun h => (hin.mp h) hle
      rw [sendDataLoop_step_late env 0 k c wt bs hbs hs hnr hout]
      simp [hle]
    · have hin2 : inTime c (env k (min bs SEND_CHUNK)) := hin.mpr hle
      rw [sendDataLoop_step_retry env 0 k c wt bs hbs hs hnr hin2]
      simp [Outcome.prepend, TcpConnection.sendDataLoop, hbs, hle]
  · intro c r hL hT h1 herr hnow
    have hinf : ¬ (c.__timeOutMillis__ = INFINITE_TIMEOUT) := by
      unfold INFINITE_TIMEOUT; omega
    unfold TcpConnection.available
    rw [hnow, hL, hel]
    by_cases hle : c.__timeOutMillis__ ≤ e
    · simp [h1, herr, hle]
    · simp [h1, herr, hle, hinf]
  · intro s hm hL hT
    have hinf : ¬ (s.__timeOutMillis__ = INFINITE_TIMEOUT) := by
      unfold INFINITE_TIMEOUT; omega
    unfold TcpServer.timeOut
    rw [hL, hel]
    by_cases hlt : s.__timeOutMillis__ < e
    · simp [hm, hinf, hlt]
    · simp [hm, hinf, hlt]

/-- C30 with the stamp 4294967000 and 1296 ms elapsed, so that the counter has
wrapped to 1000: the difference is 1296, and a poll with time-out 1000 leaves
through the time-out test. -/
theorem elapsed_across_rollover_witness :
    elapsedMillis ((4294967000 + 1296) % 4294967296) 4294967000 = 1296 ∧
    (4294967000 + 1296) % 4294967296 = 1000 ∧
    (TcpConnection.recvDataLoop (silentSocket 1000) 64 1 0
      { sampleConnection 1000 with __lastActiveMillis__ := 4294967000 }).exit
      = ExitPoint.timedOut :=
  ⟨(elapsed_across_rollover 4294967000 1296 (by decide)).1, by decide,
   ((elapsed_across_rollover 4294967000 1296 (by decide)).2.1
      { sampleConnection 1000 with __lastActiveMillis__ := 4294967000 } (silentSocket 1000) 64 0
      (by decide) rfl (by decide) ⟨rfl, Or.inl rfl⟩ (by decide)).mpr (by decide)⟩

/-! ## The listening socket -/

theorem closeCalls_append (a b : List SrvEvent) :
    closeCalls (a ++ b) = closeCalls a ++ closeCalls b := by
  simp [closeCalls, List.filterMap_append]

theorem socketOpens_append (a b : List SrvEvent) :
    socketOpens (a ++ b) = socketOpens a ++ socketOpens b := by
  simp [socketOpens, List.filterMap_append]

theorem acceptStep_closes_and_opens (s : TcpServer) (listenerSocket : Int) (e : AcceptEnv) :
    socketOpens (s.acceptStep listenerSocket e).trace = [] ∧
    ∀ x ∈ closeCalls (s.acceptStep listenerSocket e).trace,
      x ≠ -1 ∧ x = e.connectionSocket := by
  cases hlive : (!s.__threadedMode__ && s.timeOut e.now)
  · by_cases hacc : e.connectionSocket = -1
    · rw [acceptStep_nothing s listenerSocket e hacc hlive]
      simp [AcceptStep.trace, socketOpens, closeCalls]
    · cases hfw : s.__callFirewallCallback__ e.peerIP
      · rw [acceptStep_rejected s listenerSocket e hacc hlive hfw]
        simp [AcceptStep.trace, socketOpens, closeCalls, hacc]
      · by_cases hfc : e.fcntl = -1
        · rw [acceptStep_not_nonblocking s listenerSocket e hacc hlive hfw hfc]
          simp [AcceptStep.trace, socketOpens, closeCalls, hacc]
        · rw [acceptStep_admitted s listenerSocket e hacc hlive hfw hfc]
          have hm1 : ∀ b : Bool, s.__threadedMode__ = b →
              ({ s with __listenerState__ := LISTENER_STATE_TYPE.ACCEPTING_CONNECTIONS }
                : TcpServer).__threadedMode__ = b := fun b h => h
          cases hmode : s.__threadedMode__
          · simp [AcceptStep.trace, socketOpens, closeCalls]
          · rw [newConnection_threaded _ _ _ _ (hm1 true hmode) hacc]
            cases e.taskCreated <;>
              simp [AcceptStep.trace, socketOpens, closeCalls, hacc]
  · rw [acceptStep_timed_out s listenerSocket e hlive]
    simp [AcceptStep.trace, socketOpens, closeCalls]

theorem endsByClosing_prepend (acceptEnv : Nat → AcceptEnv) (tr : List SrvEvent)
    (o : ListenerOutcome) (l : Int) (htr : closesOnlyAccepted acceptEnv tr)
    (ho : endsByClosing acceptEnv o l) : endsByClosing acceptEnv (o.prepend tr) l := by
  obtain ⟨pre, h1, h2⟩ := ho
  refine ⟨tr ++ pre, by simp [ListenerOutcome.prepend, h1], ?_⟩
  intro x hx
  rw [closeCalls_append, List.mem_append] at hx
  rcases hx with hx | hx
  · exact htr x hx
  · exact h2 x hx

theorem endsByClosing_terminate (acceptEnv : Nat → AcceptEnv) (s : TcpServer) (l : Int) :
    endsByClosing acceptEnv (s.terminateListener l) l :=
  ⟨[], rfl, fun x hx => by simp [closeCalls] at hx⟩

theorem closesOnlyAccepted_of_no_close (acceptEnv : Nat → AcceptEnv) (tr : List SrvEvent)
    (h : closeCalls tr = []) : closesOnlyAccepted acceptEnv tr := by
  intro x hx
  rw [h] at hx
  exact absurd hx (List.not_mem_nil x)

/-- From the test of the inner loop on, or from a test of the outer loop with
the unload flag set, no socket is created, and a run that finishes ends by
closing the listening socket it holds. -/
theorem listenerLoop_holds_socket (startEnv : Nat → StartEnv) (acceptEnv : Nat → AcceptEnv) :
    ∀ (fuel : Nat) (at_ : ListenerAt) (i j : Nat) (listenerSocket : Int) (s : TcpServer),
      (at_ = ListenerAt.accepting ∨ s.__instanceUnloading__ = true) →
      socketOpens (TcpServer.listenerLoop startEnv acceptEnv fuel at_ i j listenerSocket
        s).trace = [] ∧
      ((TcpServer.listenerLoop startEnv acceptEnv fuel at_ i j listenerSocket s).finished
          = true →
        endsByClosing acceptEnv
          (TcpServer.listenerLoop startEnv acceptEnv fuel at_ i j listenerSocket s)
          listenerSocket) := by
  intro fuel
  induction fuel with
  | zero =>
    intro at_ i j ls s _
    refine ⟨rfl, fun h => ?_⟩
    simp [TcpServer.listenerLoop] at h
  | succ fuel ih =>
    intro at_ i j ls s hpos
    cases at_ with
    | prepare =>
      have hun : s.__instanceUnloading__ = true := by
        rcases hpos with h | h
        · cases h
        · exact h
      have hun2 : (s.noteUnload (startEnv i).unload).__instanceUnloading__ = true := by
        unfold TcpServer.noteUnload
        split_ifs
        · rfl
        · exact hun
      rw [TcpServer.listenerLoop]
      simp only [hun2, if_true]
      exact ⟨by simp [TcpServer.terminateListener, socketOpens],
        fun _ => endsByClosing_terminate acceptEnv _ ls⟩
    | accepting =>
      rw [TcpServer.listenerLoop]
      split_ifs with hun
      · exact ih _ _ _ _ _ (Or.inr hun)
      · have hstep := acceptStep_closes_and_opens (s.noteUnload (acceptEnv j).unload) ls
          (acceptEnv j)
        cases hs : (s.noteUnload (acceptEnv j).unload).acceptStep ls (acceptEnv j) with
        | again s1 tr =>
          rw [hs] at hstep
          simp only [AcceptStep.trace] at hstep
          have hrec := ih ListenerAt.accepting i (j + 1) ls s1 (Or.inl rfl)
          refine ⟨?_, fun hfin => ?_⟩
          · simp only [ListenerOutcome.prepend, socketOpens_append, hstep.1, hrec.1,
              List.append_nil]
          · exact endsByClosing_prepend acceptEnv tr _ ls
              (fun x hx => ⟨(hstep.2 x hx).1, j, (hstep.2 x hx).2⟩) (hrec.2 hfin)
        | terminate s1 tr =>
          rw [hs] at hstep
          simp only [AcceptStep.trace] at hstep
          refine ⟨?_, fun _ => ?_⟩
          · simp only [ListenerOutcome.prepend, socketOpens_append, hstep.1]
            simp [TcpServer.terminateListener, socketOpens]
          · exact endsByClosing_prepend acceptEnv tr _ ls
              (fun x hx => ⟨(hstep.2 x hx).1, j, (hstep.2 x hx).2⟩)
              (endsByClosing_terminate acceptEnv s1 ls)

/-- From a test of the outer loop with no socket held, at most one socket is
created, and a run that finishes ends by closing it (or by close (-1) when
none was created). -/
theorem listenerLoop_opens_once (startEnv : Nat → StartEnv) (acceptEnv : Nat → AcceptEnv) :
    ∀ (fuel i j : Nat) (s : TcpServer),
      (socketOpens (TcpServer.listenerLoop startEnv acceptEnv fuel ListenerAt.prepare i j (-1)
        s).trace).length ≤ 1 ∧
      ((TcpServer.listenerLoop startEnv acceptEnv fuel ListenerAt.prepare i j (-1) s).finished
          = true →
        ∃ l, endsByClosing acceptEnv
            (TcpServer.listenerLoop startEnv acceptEnv fuel ListenerAt.prepare i j (-1) s) l ∧
          (socketOpens (TcpServer.listenerLoop startEnv acceptEnv fuel ListenerAt.prepare i j
              (-1) s).trace = [l] ∨
           (socketOpens (TcpServer.listenerLoop startEnv acceptEnv fuel ListenerAt.prepare i j
              (-1) s).trace = [] ∧ l = -1))) := by
  intro fuel
  induction fuel with
  | zero =>
    intro i j s
    refine ⟨by simp [TcpServer.listenerLoop, socketOpens], fun h => ?_⟩
    simp [TcpServer.listenerLoop] at h
  | succ fuel ih =>
    intro i j s
    have hterm : ∀ (t : TcpServer) (l : Int) (evs : List SrvEvent),
        socketOpens evs = [l] → closeCalls evs = [] →
        (socketOpens ((t.terminateListener l).prepend evs).trace).length ≤ 1 ∧
        (((t.terminateListener l).prepend evs).finished = true →
          ∃ l1, endsByClosing acceptEnv ((t.terminateListener l).prepend evs) l1 ∧
            (socketOpens ((t.terminateListener l).prepend evs).trace = [l1] ∨
             (socketOpens ((t.terminateListener l).prepend evs).trace = [] ∧ l1 = -1))) := by
      intro t l evs ho hc
      have hopens : socketOpens ((t.terminateListener l).prepend evs).trace = [l] := by
        simp only [ListenerOutcome.prepend, socketOpens_append, ho]
        simp [TcpServer.terminateListener, socketOpens]
      rw [hopens]
      refine ⟨by simp, fun _ => ⟨l, ?_, Or.inl rfl⟩⟩
      exact endsByClosing_prepend acceptEnv evs _ l
        (closesOnlyAccepted_of_no_close acceptEnv evs hc) (endsByClosing_terminate acceptEnv t l)
    rw [TcpServer.listenerLoop]
    split_ifs with hun hsock hbind hlisten hfcntl
    · refine ⟨by simp [TcpServer.terminateListener, socketOpens], fun _ => ⟨-1, ?_, Or.inr ⟨?_, rfl⟩⟩⟩
      · exact endsByClosing_terminate acceptEnv _ (-1)
      · simp [TcpServer.terminateListener, socketOpens]
    · rw [hsock]
      have hrec := ih (i + 1) j (s.noteUnload (startEnv i).unload)
      have hop : ∀ o : ListenerOutcome,
          socketOpens (o.prepend [SrvEvent.socket (-1), SrvEvent.io (Event.delay 1000)]).trace
            = socketOpens o.trace := by
        intro o
        simp [ListenerOutcome.prepend, socketOpens]
      rw [hop]
      refine ⟨hrec.1, fun hfin => ?_⟩
      obtain ⟨l, hl1, hl2⟩ := hrec.2 hfin
      exact ⟨l, endsByClosing_prepend acceptEnv _ _ l
        (closesOnlyAccepted_of_no_close acceptEnv _ (by simp [closeCalls])) hl1, hl2⟩
    · exact hterm _ _ _ (by simp [socketOpens, hsock]) (by simp [closeCalls])
    · exact hterm _ _ _ (by simp [socketOpens, hsock]) (by simp [closeCalls])
    · exact hterm _ _ _ (by simp [socketOpens, hsock]) (by simp [closeCalls])
    · have hrec := listenerLoop_holds_socket startEnv acceptEnv fuel ListenerAt.accepting (i + 1)
        j (startEnv i).socket (s.noteUnload (startEnv i).unload) (Or.inl rfl)
      have hopens : socketOpens ((TcpServer.listenerLoop startEnv acceptEnv fuel
          ListenerAt.accepting (i + 1) j (startEnv i).socket
          (s.noteUnload (startEnv i).unload)).prepend
          [SrvEvent.socket (startEnv i).socket, SrvEvent.setsockopt (startEnv i).socket,
           SrvEvent.bind (startEnv i).socket (startEnv i).bind,
           SrvEvent.listen (startEnv i).socket (startEnv i).listen,
           SrvEvent.fcntl (startEnv i).socket (startEnv i).fcntl]).trace
          = [(startEnv i).socket] := by
        simp only [ListenerOutcome.prepend, socketOpens_append, hrec.1]
        simp [socketOpens, hsock]
      rw [hopens]
      refine ⟨by simp, fun hfin => ⟨(startEnv i).socket, ?_, Or.inl rfl⟩⟩
      exact endsByClosing_prepend acceptEnv _ _ _
        (closesOnlyAccepted_of_no_close acceptEnv _ (by simp [closeCalls])) (hrec.2 hfin)

/-- C25: in every run of the listener at most one listening socket is created,
so at most one is open at a time; a run that reaches FINISHED ends with
STOPPED, close (l), FINISHED, where l is the socket created (l is -1 and no
socket was created otherwise); every earlier close () is of a socket returned
by accept, so that, accept never returning the listening socket itself, l is
closed exactly once. -/
theorem listener_socket_closed_once (s : TcpServer) (startEnv : Nat → StartEnv)
    (acceptEnv : Nat → AcceptEnv) (fuel : Nat) :
    (socketOpens (s.__listener__ startEnv acceptEnv fuel).trace).length ≤ 1 ∧
    ((s.__listener__ startEnv acceptEnv fuel).finished = true →
      ∃ pre l,
        (s.__listener__ startEnv acceptEnv fuel).trace
          = pre ++ [SrvEvent.setState LISTENER_STATE_TYPE.STOPPED, SrvEvent.io (Event.close l),
              SrvEvent.setState LISTENER_STATE_TYPE.FINISHED] ∧
        (socketOpens (s.__listener__ startEnv acceptEnv fuel).trace = [l] ∨
          (socketOpens (s.__listener__ startEnv acceptEnv fuel).trace = [] ∧ l = -1)) ∧
        (∀ x ∈ closeCalls pre, x ≠ -1 ∧ ∃ j, x = (acceptEnv j).connectionSocket) ∧
        ((∀ j, (acceptEnv j).connectionSocket ≠ l) →
          (closeCalls (s.__listener__ startEnv acceptEnv fuel).trace).count l = 1)) := by
  have h := listenerLoop_opens_once startEnv acceptEnv fuel 0 0
    { s with __listenerState__ := LISTENER_STATE_TYPE.RUNNING }
  have hop : socketOpens (s.__listener__ startEnv acceptEnv fuel).trace
      = socketOpens (TcpServer.listenerLoop startEnv acceptEnv fuel ListenerAt.prepare 0 0 (-1)
          { s with __listenerState__ := LISTENER_STATE_TYPE.RUNNING }).trace := by
    simp [TcpServer.__listener__, ListenerOutcome.prepend, socketOpens]
  rw [hop]
  refine ⟨h.1, fun hfin => ?_⟩
  have hfin2 : (TcpServer.listenerLoop startEnv acceptEnv fuel ListenerAt.prepare 0 0 (-1)
      { s with __listenerState__ := LISTENER_STATE_TYPE.RUNNING }).finished = true := hfin
  obtain ⟨l, hl1, hl2⟩ := h.2 hfin2
  have hl3 := endsByClosing_prepend acceptEnv [SrvEvent.setState LISTENER_STATE_TYPE.RUNNING] _ l
    (closesOnlyAccepted_of_no_close acceptEnv _ (by simp [closeCalls])) hl1
  obtain ⟨pre, hpre, hclo⟩ := hl3
  have htrace : (s.__listener__ startEnv acceptEnv fuel).trace
      = pre ++ [SrvEvent.setState LISTENER_STATE_TYPE.STOPPED, SrvEvent.io (Event.close l),
          SrvEvent.setState LISTENER_STATE_TYPE.FINISHED] := hpre
  refine ⟨pre, l, htrace, hl2, hclo, fun hdiff => ?_⟩
  rw [htrace, closeCalls_append, List.count_append]
  have h0 : (closeCalls pre).count l = 0 := by
    rw [List.count_eq_zero]
    intro hmem
    obtain ⟨_, j, hj⟩ := hclo l hmem
    exact hdiff j hj.symm
  rw [h0]
  simp [closeCalls]

/-- C25 on a run in which a peer at 10.0.0.2 is accepted in the first pass of a
single-shot server: the listener finishes, one listening socket was created,
and the trace ends with STOPPED, the close of that socket and FINISHED. -/
theorem listener_socket_closed_once_witness :
    ((sampleServer false none).__listener__ goodStart (onePeer "10.0.0.2" true) 5).finished
      = true ∧
    socketOpens ((sampleServer false none).__listener__ goodStart
      (onePeer "10.0.0.2" true) 5).trace = [3] ∧
    (closeCalls ((sampleServer false none).__listener__ goodStart
      (onePeer "10.0.0.2" true) 5).trace).count 3 = 1 ∧
    (socketOpens ((sampleServer false none).__listener__ goodStart
      (onePeer "10.0.0.2" true) 5).trace).length ≤ 1 ∧
    ∃ pre l,
      ((sampleServer false none).__listener__ goodStart (onePeer "10.0.0.2" true) 5).trace
        = pre ++ [SrvEvent.setState LISTENER_STATE_TYPE.STOPPED, SrvEvent.io (Event.close l),
            SrvEvent.setState LISTENER_STATE_TYPE.FINISHED] ∧
      (socketOpens ((sampleServer false none).__listener__ goodStart
          (onePeer "10.0.0.2" true) 5).trace = [l] ∨
        (socketOpens ((sampleServer false none).__listener__ goodStart
          (onePeer "10.0.0.2" true) 5).trace = [] ∧ l = -1)) ∧
      (∀ x ∈ closeCalls pre, x ≠ -1 ∧ ∃ j, x = (onePeer "10.0.0.2" true j).connectionSocket) ∧
      ((∀ j, (onePeer "10.0.0.2" true j).connectionSocket ≠ l) →
        (closeCalls ((sampleServer false none).__listener__ goodStart
          (onePeer "10.0.0.2" true) 5).trace).count l = 1) :=
  ⟨by decide, by decide, by decide,
   (listener_socket_closed_once (sampleServer false none) goodStart
      (onePeer "10.0.0.2" true) 5).1,
   (listener_socket_closed_once (sampleServer false none) goodStart
      (onePeer "10.0.0.2" true) 5).2 (by decide)⟩

/-! ## network.h : the access point configuration -/

set_option maxRecDepth 100000 in
/-- C26 at the failing input: a hostapd.conf with a line country_code = SI in
front of the interface line. Its compact form has the line interface wlan1
followed by the lines ssid ESP32_SRV and wpa_passphrase YOUR-AP-PASSWORD, yet
the SSID read is empty: the text is cut at the interface line and then cut
again by the same offset plus 15. For the default file, where that offset is
1, the SSID and the password are read as written. Both results are the same
when the carriage returns are taken out of the file first. -/
theorem access_point_ssid_lost_behind_offset :
    __compactNetworkConfiguration__ (hostapdConfWithCountry ++ ['\n'])
      = ("country_code SI\ninterface wlan1\nssid ESP32_SRV\n" ++
          "wpa_passphrase YOUR-AP-PASSWORD\n").toList ∧
    accessPointCredentials hostapdConfWithCountry = ([], "YOUR-AP-PASSWORD".toList) ∧
    accessPointCredentials (hostapdConfWithCountry.filter (fun c => c ≠ '\r'))
      = ([], "YOUR-AP-PASSWORD".toList) ∧
    accessPointCredentials defaultHostapdConf
      = ("ESP32_SRV".toList, "YOUR-AP-PASSWORD".toList) ∧
    accessPointCredentials (defaultHostapdConf.filter (fun c => c ≠ '\r'))
      = ("ESP32_SRV".toList, "YOUR-AP-PASSWORD".toList) := by
  decide

/-! ## network.h : the text between two brackets -/

theorem startsAt_iff (needle s : List Char) : needle.isPrefixOf s = true ↔ needle <+: s :=
  List.isPrefixOf_iff_prefix

theorem chain_dropLast {R : Char → Char → Prop} {s : List Char} (h : List.Chain' R s) :
    List.Chain' R s.dropLast :=
  List.Chain'.prefix h ( List.dropLast_prefix s)

theorem chain_part {R : Char → Char → Prop} {s t : List Char} (h : List.Chain' R s)
    (ht : t <:+: s) : List.Chain' R t :=
  List.Chain'.infix h ht

theorem firstAt_unique {needle s : List Char} {i j : Nat}
    (hi : firstAt needle s i) (hj : firstAt needle s j) : i = j := by
  rcases Nat.lt_trichotomy i j with h | h | h
  · exact absurd hi.2.1 (hj.2.2 i h)
  · exact h
  · exact absurd hj.2.1 (hi.2.2 j h)

theorem strstr_some (s needle : List Char) (i : Nat) (h : strstr s needle = some i) :
    firstAt needle s i := by
  induction s generalizing i with
  | nil =>
    simp only [strstr] at h
    split_ifs at h with hp
    cases h
    exact ⟨Nat.le_refl _, (startsAt_iff _ _).mp hp, fun k hk => absurd hk (Nat.not_lt_zero k)⟩
  | cons c t ih =>
    simp only [strstr] at h
    split_ifs at h with hp
    · cases h
      exact ⟨Nat.zero_le _, (startsAt_iff _ _).mp hp,
        fun k hk => absurd hk (Nat.not_lt_zero k)⟩
    · cases hs : strstr t needle with
      | none => rw [hs] at h; cases h
      | some j =>
        rw [hs] at h
        simp only [Option.map_some', Option.some.injEq] at h
        subst h
        have hj := ih j hs
        refine ⟨by simpa using hj.1, by simpa using hj.2.1, ?_⟩
        intro k hk
        cases k with
        | zero =>
          intro hpre
          exact hp ((startsAt_iff _ _).mpr (by simpa using hpre))
        | succ k =>
          simpa using hj.2.2 k (by omega)

theorem strstr_none (s needle : List Char) (h : strstr s needle = none) (k : Nat) :
    ¬ needle <+: s.drop k := by
  induction s generalizing k with
  | nil =>
    simp only [strstr] at h
    split_ifs at h with hp
    intro hpre
    exact hp ((startsAt_iff _ _).mpr (by simpa using hpre))
  | cons c t ih =>
    simp only [strstr] at h
    split_ifs at h with hp
    cases hs : strstr t needle with
    | some j => rw [hs] at h; cases h
    | none =>
      cases k with
      | zero =>
        intro hpre
        exact hp ((startsAt_iff _ _).mpr (by simpa using hpre))
      | succ k => simpa using ih hs k

theorem strstr_of_firstAt {needle s : List Char} {i : Nat} (h : firstAt needle s i) :
    strstr s needle = some i := by
  cases hs : strstr s needle with
  | none => exact absurd h.2.1 (strstr_none s needle hs i)
  | some j => rw [firstAt_unique (strstr_some s needle j hs) h]

theorem arduinoSubstringFrom_eq_drop (s : List Char) (n : Nat) :
    arduinoSubstringFrom s n = s.drop n := by
  unfold arduinoSubstringFrom arduinoSubstring
  by_cases h : n > s.length
  · simp [h, List.drop_eq_nil_of_le (Nat.le_of_lt h)]
  · simp only [h, if_false, Nat.min_self, List.take_length]
    split_ifs with h2
    · exact (List.drop_eq_nil_of_le h2).symm
    · rfl

theorem arduinoSubstring_zero (s : List Char) (r : Nat) :
    arduinoSubstring s 0 r = s.take r := by
  unfold arduinoSubstring
  cases s with
  | nil => simp
  | cons c t =>
    simp only [gt_iff_lt, Nat.not_lt_zero, if_false, List.length_cons, ge_iff_le,
      Nat.le_zero_eq, Nat.add_one_ne_zero, List.drop_zero]
    by_cases hr : r ≤ t.length + 1
    · rw [Nat.min_eq_left hr]
    · have hr2 : t.length + 1 ≤ r := Nat.le_of_lt (Nat.lt_of_not_le hr)
      rw [Nat.min_eq_right hr2, List.take_of_length_le (by simp),
        List.take_of_length_le (by simpa using hr2)]

/-- What __insideBrackets__ computes when both searches succeed. -/
theorem insideBrackets_found (inp opening closing : List Char) (i j : Nat)
    (hi : firstAt opening inp i)
    (hj : firstAt closing (inp.drop (i + opening.length)) j) :
    __insideBrackets__ inp opening closing = (inp.drop (i + opening.length)).take j := by
  have hj0 : (inp.drop (i + opening.length)) = [] → j = 0 := by
    intro h0
    have := hj.1
    rw [h0] at this
    simpa using this
  unfold __insideBrackets__
  simp only [arduinoSubstringFrom_eq_drop, arduinoSubstring_zero]
  by_cases hinp : inp = []
  · subst hinp
    simp [arduinoIndexOf]
  · have hlen : inp.length ≠ 0 := by simpa using hinp
    have h1 : arduinoIndexOf inp opening = (i : Int) := by
      simp [arduinoIndexOf, hlen, strstr_of_firstAt hi]
    rw [h1]
    simp only [Int.toNat_ofNat, ge_iff_le, Int.ofNat_zero_le, if_true]
    by_cases hrest : inp.drop (i + opening.length) = []
    · rw [hrest]
      simp [arduinoIndexOf]
    · have hlen2 : (inp.drop (i + opening.length)).length ≠ 0 := by
        intro h0
        exact hrest (List.length_eq_zero.mp h0)
      have h2 : arduinoIndexOf (inp.drop (i + opening.length)) closing = (j : Int) := by
        simp only [arduinoIndexOf, hlen2, if_false, strstr_of_firstAt hj]
      rw [h2]
      simp

/-- When one of the searches fails __insideBrackets__ gives the empty text. -/
theorem insideBrackets_not_found (inp opening closing : List Char)
    (h : ¬ ∃ i j, firstAt opening inp i ∧ firstAt closing (inp.drop (i + opening.length)) j) :
    __insideBrackets__ inp opening closing = [] := by
  unfold __insideBrackets__
  simp only [arduinoSubstringFrom_eq_drop, arduinoSubstring_zero]
  by_cases hinp : inp.length = 0
  · simp [arduinoIndexOf, hinp]
  · cases hs : strstr inp opening with
    | none => simp [arduinoIndexOf, hinp, hs]
    | some i =>
      have h1 : arduinoIndexOf inp opening = (i : Int) := by
        simp [arduinoIndexOf, hinp, hs]
      rw [h1]
      simp only [Int.toNat_ofNat, ge_iff_le, Int.ofNat_zero_le, if_true]
      by_cases hrest : (inp.drop (i + opening.length)).length = 0
      · simp [arduinoIndexOf, hrest]
      · cases hs2 : strstr (inp.drop (i + opening.length)) closing with
        | none => simp [arduinoIndexOf, hrest, hs2]
        | some j =>
          exact absurd ⟨i, j, strstr_some _ _ _ hs, strstr_some _ _ _ hs2⟩ h

theorem between_occurs (inp opening closing : List Char) (i j : Nat)
    (hi : firstAt opening inp i)
    (hj : firstAt closing (inp.drop (i + opening.length)) j) :
    opening ++ (inp.drop (i + opening.length)).take j ++ closing <:+: inp := by
  obtain ⟨r, hr⟩ := hi.2.1
  obtain ⟨p, hp⟩ := hj.2.1
  have hrest : inp.drop (i + opening.length) = r := by
    rw [← List.drop_drop, ← hr]
    simp
  rw [hrest] at hp ⊢
  refine ⟨inp.take i, p, ?_⟩
  have h1 : inp = inp.take i ++ inp.drop i := (List.take_append_drop i inp).symm
  have h2 : r = r.take j ++ r.drop j := (List.take_append_drop j r).symm
  conv_rhs => rw [h1, ← hr, h2, ← hp]
  simp [List.append_assoc]

theorem between_free (s closing : List Char) (j : Nat)
    (hj : firstAt closing s j) (hne : closing ≠ []) :
    ¬ closing <:+: s.take j := by
  rintro ⟨a, b, hab⟩
  have hlen : a.length + closing.length + b.length = (s.take j).length := by
    rw [← hab]; simp; omega
  have hcl : 0 < closing.length := List.length_pos.mpr hne
  have hjl : (s.take j).length ≤ j := by simp
  have hlt : a.length < j := by omega
  apply hj.2.2 a.length hlt
  have h1 : s = s.take j ++ s.drop j := (List.take_append_drop j s).symm
  rw [h1, ← hab]
  simp [List.append_assoc]

theorem firstAt_of_occurs {needle s : List Char} (h : needle <:+: s) :
    ∃ i, firstAt needle s i := by
  cases hs : strstr s needle with
  | some i => exact ⟨i, strstr_some _ _ _ hs⟩
  | none =>
    obtain ⟨a, b, hab⟩ := h
    exfalso
    apply strstr_none s needle hs a.length
    rw [← hab]
    simp [List.append_assoc]

theorem occurs_of_firstAt {needle s : List Char} {i : Nat} (h : firstAt needle s i) :
    needle <:+: s := by
  obtain ⟨r, hr⟩ := h.2.1
  exact ⟨s.take i, r, by rw [List.append_assoc, hr, List.take_append_drop]⟩

/-- C28: opening occurs in inp exactly when it has a first place i there. If
closing occurs in the text behind the opening at i, it has a first place j in
that text and __insideBrackets__ returns the j characters in between: opening,
the result and closing follow one another in inp, and a closing that is not
empty does not occur in the result. If opening does not occur in inp, or
closing does not occur behind the first opening, the result is empty. -/
theorem insideBrackets_between (inp opening closing : List Char) :
    (opening <:+: inp ↔ ∃ i, firstAt opening inp i) ∧
    (∀ i, firstAt opening inp i → closing <:+: inp.drop (i + opening.length) →
      ∃ j, firstAt closing (inp.drop (i + opening.length)) j ∧
        __insideBrackets__ inp opening closing = (inp.drop (i + opening.length)).take j ∧
        opening ++ __insideBrackets__ inp opening closing ++ closing <:+: inp ∧
        (closing ≠ [] → ¬ closing <:+: __insideBrackets__ inp opening closing)) ∧
    (¬ opening <:+: inp → __insideBrackets__ inp opening closing = []) ∧
    (∀ i, firstAt opening inp i → ¬ closing <:+: inp.drop (i + opening.length) →
      __insideBrackets__ inp opening closing = []) := by
  refine ⟨⟨firstAt_of_occurs, fun ⟨i, hi⟩ => occurs_of_firstAt hi⟩, ?_, ?_, ?_⟩
  · intro i hi hc
    obtain ⟨j, hj⟩ := firstAt_of_occurs hc
    have heq := insideBrackets_found inp opening closing i j hi hj
    refine ⟨j, hj, heq, ?_, ?_⟩
    · rw [heq]
      exact between_occurs inp opening closing i j hi hj
    · intro hne
      rw [heq]
      exact between_free _ closing j hj hne
  · intro hno
    apply insideBrackets_not_found
    rintro ⟨i, j, hi, _⟩
    exact hno (occurs_of_firstAt hi)
  · intro i hi hno
    apply insideBrackets_not_found
    rintro ⟨i2, j, hi2, hj⟩
    rw [firstAt_unique hi2 hi] at hj
    exact hno (occurs_of_firstAt hj)

/-- C28 on the text ssid ESP32_SRV, line end, wpa_passphrase x, line end, with
the brackets ssid and line end: the opening is first found at the start and
the result is the text up to the first line end behind it. -/
theorem insideBrackets_between_witness :
    firstAt "ssid ".toList "ssid ESP32_SRV\nwpa_passphrase x\n".toList 0 ∧
    ∃ j, firstAt "\n".toList
        (("ssid ESP32_SRV\nwpa_passphrase x\n".toList).drop (0 + "ssid ".toList.length)) j ∧
      __insideBrackets__ "ssid ESP32_SRV\nwpa_passphrase x\n".toList "ssid ".toList
          "\n".toList
        = (("ssid ESP32_SRV\nwpa_passphrase x\n".toList).drop
            (0 + "ssid ".toList.length)).take j ∧
      "ssid ".toList ++ __insideBrackets__ "ssid ESP32_SRV\nwpa_passphrase x\n".toList
          "ssid ".toList "\n".toList ++ "\n".toList
        <:+: "ssid ESP32_SRV\nwpa_passphrase x\n".toList ∧
      ("\n".toList ≠ [] → ¬ "\n".toList <:+:
        __insideBrackets__ "ssid ESP32_SRV\nwpa_passphrase x\n".toList "ssid ".toList
          "\n".toList) :=
  ⟨by decide,
   (insideBrackets_between "ssid ESP32_SRV\nwpa_passphrase x\n".toList "ssid ".toList
      "\n".toList).2.1 0 (by decide) (by decide)⟩

/-! ## network.h : the compact form -/

theorem arduinoEndsWith_single (s : List Char) (c : Char) :
    arduinoEndsWith s [c] = true ↔ s.getLast? = some c := by
  unfold arduinoEndsWith
  rcases List.eq_nil_or_concat s with h | ⟨init, l, h⟩
  · subst h; simp
  · subst h
    simp

theorem arduinoSubstring_dropLast (s : List Char) :
    arduinoSubstring s 0 (s.length - 1) = s.dropLast := by
  rw [arduinoSubstring_zero, List.dropLast_eq_take]

theorem compactForm_nil : compactForm [] := by
  simp [compactForm]

theorem compactForm_dropLast {s : List Char} (h : compactForm s) : compactForm s.dropLast :=
  ⟨fun c hc => h.1 c (List.mem_of_mem_dropLast hc), chain_dropLast h.2⟩

theorem compactForm_append {s t : List Char} (hs : compactForm s) (ht : compactForm t)
    (hjoin : ∀ a, s.getLast? = some a → ∀ b, t.head? = some b → compactPair a b) :
    compactForm (s ++ t) := by
  refine ⟨?_, ?_⟩
  · intro c hc
    rcases List.mem_append.mp hc with h | h
    · exact hs.1 c h
    · exact ht.1 c h
  · rw [List.chain'_append]
    exact ⟨hs.2, ht.2, fun a ha b hb => hjoin a ha b hb⟩

theorem getLast_dropLast_of_compactForm {s : List Char} (h : compactForm s)
    (hl : s.getLast? = some ' ') :
    s.dropLast.getLast? ≠ some ' ' ∧ s.dropLast.getLast? ≠ some '\n' := by
  obtain ⟨init, hinit⟩ := List.getLast?_eq_some_iff.mp hl
  subst hinit
  rw [List.dropLast_concat]
  have hc := h.2
  rw [List.chain'_append] at hc
  constructor
  · intro h1
    exact (hc.2.2 ' ' h1 ' ' (by simp)).1 ⟨rfl, rfl⟩
  · intro h1
    exact (hc.2.2 '\n' h1 ' ' (by simp)).2.2 ⟨rfl, rfl⟩

theorem stripLineEnd_spec (n : Nat) (s : List Char) (h : compactForm s) :
    compactForm (stripLineEnd n s) ∧
    (s.length ≤ n → (stripLineEnd n s).getLast? ≠ some '\n' ∧
      (stripLineEnd n s).getLast? ≠ some ' ') := by
  induction n generalizing s with
  | zero =>
    refine ⟨h, fun hlen => ?_⟩
    have : s = [] := List.length_eq_zero.mp (Nat.le_zero.mp hlen)
    subst this
    simp [stripLineEnd]
  | succ n ih =>
    unfold stripLineEnd
    split_ifs with hends
    · rw [arduinoSubstring_dropLast]
      have := ih s.dropLast (compactForm_dropLast h)
      refine ⟨this.1, fun hlen => this.2 ?_⟩
      rw [List.length_dropLast]
      omega
    · refine ⟨h, fun _ => ?_⟩
      simp only [Bool.or_eq_true, arduinoEndsWith_single, not_or] at hends
      exact hends

theorem compactForm_braces (s : List Char) (b : Char) (h : compactForm s)
    (hb : b = '\x7b' ∨ b = '\x7d') :
    compactForm (stripLineEnd s.length s ++ ['\n', b, '\n']) := by
  have hs := stripLineEnd_spec s.length s h
  have hlast := hs.2 (Nat.le_refl _)
  apply compactForm_append hs.1
  · refine ⟨?_, ?_⟩
    · intro c hc
      simp only [List.mem_cons, List.mem_singleton, List.not_mem_nil, or_false] at hc
      rcases hc with hc | hc | hc
      · subst hc; decide
      · subst hc
        rcases hb with hb | hb <;> subst hb <;> decide
      · subst hc; decide
    · rcases hb with hb | hb <;> subst hb <;>
        simp [List.Chain', compactPair]
  · intro a ha b1 hb1
    simp only [List.head?_cons, Option.some.injEq] at hb1
    subst hb1
    refine ⟨fun hh => absurd hh.2 (by decide), fun hh => ?_, fun hh => absurd hh.2 (by decide)⟩
    exact hlast.1 (by rw [ha, hh.1])

theorem compactForm_lineEnd (st : CompactState) (h : compactForm st.outp) :
    compactForm (if (!arduinoEndsWith st.outp ['\n']) = true then
        (if (!st.inQuotation && arduinoEndsWith st.outp [' ']) = true then
          arduinoSubstring st.outp 0 (st.outp.length - 1) else st.outp) ++ ['\n']
      else st.outp) := by
  have hnl : compactForm ['\n'] := ⟨by simp, by simp⟩
  by_cases hn : (!arduinoEndsWith st.outp ['\n']) = true
  · rw [if_pos hn]
    have hne : st.outp.getLast? ≠ some '\n' := by
      intro hl
      rw [← arduinoEndsWith_single] at hl
      rw [hl] at hn
      exact absurd hn (by decide)
    by_cases hq : (!st.inQuotation && arduinoEndsWith st.outp [' ']) = true
    · rw [if_pos hq, arduinoSubstring_dropLast]
      simp only [Bool.and_eq_true, arduinoEndsWith_single] at hq
      have hl := getLast_dropLast_of_compactForm h hq.2
      apply compactForm_append (compactForm_dropLast h) hnl
      intro a ha b hb
      simp only [List.head?_cons, Option.some.injEq] at hb
      subst hb
      refine ⟨fun hh => absurd hh.2 (by decide), fun hh => ?_,
        fun hh => absurd hh.2 (by decide)⟩
      exact hl.2 (by rw [ha, hh.1])
    · rw [if_neg hq]
      apply compactForm_append h hnl
      intro a ha b hb
      simp only [List.head?_cons, Option.some.injEq] at hb
      subst hb
      refine ⟨fun hh => absurd hh.2 (by decide), fun hh => ?_,
        fun hh => absurd hh.2 (by decide)⟩
      exact hne (by rw [ha, hh.1])
  · rw [if_neg hn]
    exact h

theorem compactStep_compactForm (st : CompactState) (c : Char) (h : compactForm st.outp) :
    compactForm (compactStep st c).outp := by
  unfold compactStep
  by_cases h1 : c = '#'
  · rw [if_pos h1]; exact h
  rw [if_neg h1]
  by_cases h2 : c = '\x22'
  · rw [if_pos h2]; exact h
  rw [if_neg h2]
  by_cases h3 : c = '\n'
  · rw [if_pos h3]; exact compactForm_lineEnd st h
  rw [if_neg h3]
  by_cases h4 : c = '\x7b'
  · rw [if_pos h4]
    by_cases hc : (!st.inComment) = true
    · rw [if_pos hc]; exact compactForm_braces st.outp '\x7b' h (Or.inl rfl)
    · rw [if_neg hc]; exact h
  rw [if_neg h4]
  by_cases h5 : c = '\x7d'
  · rw [if_pos h5]
    by_cases hc : (!st.inComment) = true
    · rw [if_pos hc]; exact compactForm_braces st.outp '\x7d' h (Or.inr rfl)
    · rw [if_neg hc]; exact h
  rw [if_neg h5]
  by_cases h6 : c = ' ' ∨ c = '\t' ∨ c = '=' ∨ c = '\r'
  · rw [if_pos h6]
    by_cases h7 : (!st.inComment && !arduinoEndsWith st.outp [' '] &&
        !arduinoEndsWith st.outp ['\n']) = true
    · rw [if_pos h7]
      simp only [Bool.and_eq_true, Bool.not_eq_true', ← Bool.not_eq_true,
        arduinoEndsWith_single] at h7
      apply compactForm_append h
      · exact ⟨by simp, by simp⟩
      · intro a ha b hb
        simp only [List.head?_cons, Option.some.injEq] at hb
        subst hb
        refine ⟨fun hh => h7.1.2 (by rw [ha, hh.1]), fun hh => absurd hh.2 (by decide),
          fun hh => h7.2 (by rw [ha, hh.1])⟩
    · rw [if_neg h7]; exact h
  rw [if_neg h6]
  by_cases hc : (!st.inComment) = true
  · rw [if_pos hc]
    simp only [not_or] at h6
    apply compactForm_append h
    · refine ⟨?_, by simp⟩
      intro d hd
      simp only [List.mem_singleton] at hd
      subst hd
      exact ⟨h1, h2, h6.2.2.1, h6.2.1, h6.2.2.2⟩
    · intro a ha b hb
      simp only [List.head?_cons, Option.some.injEq] at hb
      subst hb
      exact ⟨fun hh => h6.1 hh.2, fun hh => h3 hh.2, fun hh => h6.1 hh.2⟩
  · rw [if_neg hc]; exact h

theorem compactFrom_compactForm (inp : List Char) (st : CompactState)
    (h : compactForm st.outp) : compactForm (compactFrom st inp).outp := by
  induction inp generalizing st with
  | nil => exact h
  | cons c t ih => exact ih (compactStep st c) (compactStep_compactForm st c h)

theorem compactStep_inComment (st : CompactState) (c : Char) (hc : st.inComment = true)
    (hn : c ≠ '\n') :
    (compactStep st c).outp = st.outp ∧ (compactStep st c).inComment = true := by
  unfold compactStep
  split_ifs <;> simp_all

theorem compactFrom_inComment (comment : List Char) (st : CompactState)
    (hc : st.inComment = true) (hn : '\n' ∉ comment) :
    (compactFrom st comment).outp = st.outp ∧ (compactFrom st comment).inComment = true := by
  induction comment generalizing st with
  | nil => exact ⟨rfl, hc⟩
  | cons c t ih =>
    have hstep := compactStep_inComment st c hc
      (fun h => hn (by rw [h]; exact List.mem_cons_self _ _))
    have := ih (compactStep st c) hstep.2 (fun h => hn (List.mem_cons_of_mem _ h))
    exact ⟨this.1.trans hstep.1, this.2⟩

theorem compactLoop_skips_comment (before comment rest : List Char) (hn : '\n' ∉ comment) :
    ∃ q, compactLoop (before ++ '#' :: comment ++ rest)
      = compactFrom ⟨(compactLoop before).outp, true, q⟩ rest := by
  have hsplit : compactLoop (before ++ '#' :: comment ++ rest)
      = compactFrom (compactFrom (compactStep (compactLoop before) '#') comment) rest := by
    simp [compactLoop, compactFrom, List.foldl_append]
  have hhash : (compactStep (compactLoop before) '#').outp = (compactLoop before).outp ∧
      (compactStep (compactLoop before) '#').inComment = true := by
    simp [compactStep]
  have hc := compactFrom_inComment comment _ hhash.2 hn
  refine ⟨(compactFrom (compactStep (compactLoop before) '#') comment).inQuotation, ?_⟩
  rw [hsplit]
  congr 1
  rw [← hhash.1, ← hc.1]
  cases hst : compactFrom (compactStep (compactLoop before) '#') comment with
  | mk o ic iq =>
    rw [hst] at hc
    simp only at hc
    simp [hc.2]

theorem compact_not_ending_blank (outp : List Char) (h : compactForm outp) :
    (if arduinoEndsWith outp [' '] then arduinoSubstring outp 0 (outp.length - 1)
      else outp).getLast? ≠ some ' ' := by
  by_cases he : arduinoEndsWith outp [' '] = true
  · rw [if_pos he, arduinoSubstring_dropLast]
    exact (getLast_dropLast_of_compactForm h ((arduinoEndsWith_single _ _).mp he)).1
  · rw [if_neg he]
    intro hl
    exact he ((arduinoEndsWith_single _ _).mpr hl)

theorem compact_compactForm (inp : List Char) :
    compactForm (__compactNetworkConfiguration__ inp) := by
  have h : compactForm (compactLoop inp).outp :=
    compactFrom_compactForm inp _ compactForm_nil
  unfold __compactNetworkConfiguration__
  simp only
  split_ifs
  · rw [arduinoSubstring_dropLast]
    exact compactForm_dropLast h
  · exact h

theorem compactForm_no_pair (outp : List Char) (h : compactForm outp) (a b : Char)
    (hab : ¬ compactPair a b) : ¬ [a, b] <:+: outp := by
  intro hin
  have := chain_part h.2 hin
  simp only [List.chain'_cons, List.chain'_singleton, and_true] at this
  exact hab this

/-- C27: for every input the output of __compactNetworkConfiguration__ has
none of the characters #, double quote, =, tab and carriage return, has no two
blanks and no two line ends in a row, has no blank right after a line end and
does not end with a blank; and wherever the input has a # followed by a text
without a line end, the loop goes on behind that text with the output it had
built before the #, so that no character of the comment gets into the output. -/
theorem compact_output_is_compact (inp : List Char) :
    (∀ c ∈ __compactNetworkConfiguration__ inp,
      c ≠ '#' ∧ c ≠ '\x22' ∧ c ≠ '=' ∧ c ≠ '\t' ∧ c ≠ '\r') ∧
    ¬ [' ', ' '] <:+: __compactNetworkConfiguration__ inp ∧
    ¬ ['\n', '\n'] <:+: __compactNetworkConfiguration__ inp ∧
    ¬ ['\n', ' '] <:+: __compactNetworkConfiguration__ inp ∧
    (__compactNetworkConfiguration__ inp).getLast? ≠ some ' ' ∧
    (∀ before comment rest, inp = before ++ '#' :: comment ++ rest → '\n' ∉ comment →
      ∃ q, compactLoop inp = compactFrom ⟨(compactLoop before).outp, true, q⟩ rest) := by
  have h := compact_compactForm inp
  refine ⟨h.1, compactForm_no_pair _ h _ _ (by simp [compactPair]),
    compactForm_no_pair _ h _ _ (by simp [compactPair]),
    compactForm_no_pair _ h _ _ (by simp [compactPair]), ?_, ?_⟩
  · exact compact_not_ending_blank _ (compactFrom_compactForm inp _ compactForm_nil)
  · intro before comment rest hinp hn
    rw [hinp]
    exact compactLoop_skips_comment before comment rest hn

/-- C27 on the input a = 1, a comment, a line end: the loop goes on behind the
comment with the output a 1 and a blank that it had before the #. -/
theorem compact_output_is_compact_witness :
    __compactNetworkConfiguration__ "a = 1 # x = 2\n".toList = "a 1\n".toList ∧
    ∃ q, compactLoop "a = 1 # x = 2\n".toList
      = compactFrom ⟨(compactLoop "a = 1 ".toList).outp, true, q⟩ "\n".toList :=
  ⟨by decide,
   (compact_output_is_compact "a = 1 # x = 2\n".toList).2.2.2.2.2 "a = 1 ".toList
      " x = 2".toList "\n".toList (by decide) (by decide)⟩

/-! ## network.h : addresses -/

theorem scanDigits_stop (base : Nat) (hb : base ≤ 10) (rest : List Char) (acc : Nat)
    (hrest : notDecimalDigit rest) : scanDigits base rest acc = (acc, rest) := by
  cases rest with
  | nil => rfl
  | cons c t =>
    have hc := hrest c rfl
    unfold scanDigits digitValue
    rw [if_neg hc]
    split_ifs with h1 h2
    · simp only
      rw [if_neg (by omega)]
    · simp only
      rw [if_neg (by omega)]
    · rfl

theorem scanDigits_digits (base : Nat) (hb : base ≤ 10) (ds rest : List Char) (acc : Nat)
    (hds : ∀ c ∈ ds, 48 ≤ c.toNat ∧ c.toNat < 48 + base) (hrest : notDecimalDigit rest) :
    scanDigits base (ds ++ rest) acc
      = (ds.foldl (fun acc c => base * acc + (c.toNat - 48)) acc, rest) := by
  induction ds generalizing acc with
  | nil => exact scanDigits_stop base hb rest acc hrest
  | cons c t ih =>
    have hc := hds c (List.mem_cons_self _ _)
    have hv : digitValue c = some (c.toNat - 48) := by
      unfold digitValue
      rw [if_pos ⟨hc.1, by omega⟩]
    rw [List.cons_append, scanDigits, hv]
    simp only
    rw [if_pos (by omega), ih _ (fun d hd => hds d (List.mem_cons_of_mem _ hd))]
    rfl

theorem scanUnsigned_numeral (ds rest : List Char)
    (hne : ds ≠ []) (hds : ∀ c ∈ ds, 48 ≤ c.toNat ∧ c.toNat < 48 + numeralBase ds)
    (hrest : notDecimalDigit rest) (hx : notHexMark rest) :
    scanUnsigned (ds ++ rest) = some (numeralValue ds, rest) := by
  cases ds with
  | nil => exact absurd rfl hne
  | cons c t =>
    have hc := hds c (List.mem_cons_self _ _)
    by_cases h0 : c = '0'
    · subst h0
      have hbase : numeralBase ('0' :: t) = 8 := by simp [numeralBase]
      rw [hbase] at hds
      have hval : numeralValue ('0' :: t)
          = t.foldl (fun acc c => 8 * acc + (c.toNat - 48)) 0 := by
        simp [numeralValue, hbase]
      rw [hval]
      have htail := scanDigits_digits 8 (by omega) t rest 0
        (fun d hd => hds d (List.mem_cons_of_mem _ hd)) hrest
      cases t with
      | nil =>
        cases rest with
        | nil => rfl
        | cons x t2 =>
          have hx1 : x ≠ 'x' := fun h => hx.1 (by rw [h]; rfl)
          have hx2 : x ≠ 'X' := fun h => hx.2 (by rw [h]; rfl)
          simp only [List.cons_append, List.nil_append, scanUnsigned, if_true]
          rw [if_neg (by simp [hx1, hx2])]
          simpa using htail
      | cons x t2 =>
        have hxd := hds x (List.mem_cons_of_mem _ (List.mem_cons_self _ _))
        have hx1 : x ≠ 'x' := by
          intro h; subst h; revert hxd; decide
        have hx2 : x ≠ 'X' := by
          intro h; subst h; revert hxd; decide
        simp only [List.cons_append, scanUnsigned, if_true]
        rw [if_neg (by simp [hx1, hx2])]
        rw [← List.cons_append, htail]
    · have hbase : numeralBase (c :: t) = 10 := by simp [numeralBase, h0]
      rw [hbase] at hds hc
      have hv : digitValue c = some (c.toNat - 48) := by
        unfold digitValue
        rw [if_pos ⟨hc.1, by omega⟩]
      rw [List.cons_append, scanUnsigned.eq_def]
      simp only [h0, if_false, hv]
      rw [if_pos (by omega), scanDigits_digits 10 (Nat.le_refl _) t rest _
        (fun d hd => hds d (List.mem_cons_of_mem _ hd)) hrest]
      simp [numeralValue, hbase]

theorem scanInt_numeral (ds rest : List Char) (h : intNumeral ds)
    (hrest : notDecimalDigit rest) (hx : notHexMark rest) :
    scanInt (ds ++ rest) = some ((numeralValue ds : Int), rest) := by
  have hu := scanUnsigned_numeral ds rest h.1 h.2.2.1 hrest hx
  have hsat : strtolRange (numeralValue ds : Int) = (numeralValue ds : Int) := by
    have := h.2.2.2
    unfold strtolRange
    rw [if_neg (by omega), if_neg (by omega)]
  cases ds with
  | nil => exact absurd rfl h.1
  | cons c t =>
    have hc := h.2.2.1 c (List.mem_cons_self _ _)
    have hb : numeralBase (c :: t) ≤ 10 := by
      unfold numeralBase; split_ifs <;> omega
    have hsp : isspace c = false := by
      unfold isspace
      simp only [decide_eq_false_iff_not]
      omega
    have hminus : c ≠ '-' := by
      intro h; subst h; revert hc; simp [numeralBase]
    have hplus : c ≠ '+' := by
      intro h; subst h; revert hc; simp [numeralBase]
    rw [List.cons_append] at hu ⊢
    unfold scanInt
    simp only [skipSpace, hsp, Bool.false_eq_true, if_false, hminus, hplus, hu,
      Option.map_some', hsat]

theorem scanInt_noNumberAhead (s : List Char) (h : noNumberAhead s) : scanInt s = none := by
  cases s with
  | nil => rfl
  | cons c t =>
    obtain ⟨hsp, hminus, hplus, hdig⟩ := h c rfl
    have h0 : c ≠ '0' := by
      intro h; subst h; exact hdig (by decide)
    have hun : scanUnsigned (c :: t) = none := by
      rw [scanUnsigned.eq_def]
      simp only [h0, if_false]
      unfold digitValue
      rw [if_neg hdig]
      split_ifs with h1 h2
      · simp only
        rw [if_neg (by omega)]
      · simp only
        rw [if_neg (by omega)]
      · rfl
    unfold scanInt
    simp only [skipSpace, hsp, Bool.false_eq_true, if_false, hminus, hplus, hun, Option.map_none']

theorem notDecimalDigit_dot (t : List Char) : notDecimalDigit ('.' :: t) := by
  intro c hc
  simp only [List.head?_cons, Option.some.injEq] at hc
  subst hc
  decide

theorem notHexMark_dot (t : List Char) : notHexMark ('.' :: t) := by
  constructor <;> simp

theorem scanFields_numeral_dot (n : Nat) (ds t : List Char) (h : intNumeral ds) :
    scanFields (n + 1) (ds ++ '.' :: t) = (numeralValue ds : Int) :: scanFields n t := by
  rw [scanFields, scanInt_numeral ds _ h (notDecimalDigit_dot t) (notHexMark_dot t)]
  simp

theorem scanFields_numeral_last (ds t : List Char) (h : intNumeral ds)
    (ht : notDecimalDigit t) (hx : notHexMark t) :
    scanFields 1 (ds ++ t) = [(numeralValue ds : Int)] := by
  rw [scanFields, scanInt_numeral ds t h ht hx]
  cases t with
  | nil => rfl
  | cons c t2 => simp [scanFields]

theorem scanFields_numeral_end (n : Nat) (ds : List Char) (h : intNumeral ds) :
    scanFields (n + 1) ds = [(numeralValue ds : Int)] := by
  have := scanInt_numeral ds [] h (by intro c hc; simp at hc) (by constructor <;> simp)
  rw [List.append_nil] at this
  rw [scanFields, this]

theorem toUint8_natCast (n : Nat) : toUint8 (n : Int) = n % 256 := by
  unfold toUint8
  omega

theorem numeralValue_noLeadingZero (ds : List Char) (hz : noLeadingZero ds) :
    numeralValue ds = decimalValue ds := by
  by_cases h0 : ds.head? = some '0'
  · rw [hz h0]
    decide
  · simp [numeralValue, decimalValue, numeralBase, h0]

theorem dotted_append (a b c d t : List Char) :
    dotted a b c d ++ t = a ++ '.' :: (b ++ '.' :: (c ++ '.' :: (d ++ t))) := by
  simp [dotted]

theorem IPAddressFromString_four (a b c d t : List Char)
    (ha : intNumeral a) (hb : intNumeral b) (hc : intNumeral c) (hd : intNumeral d)
    (ht : notDecimalDigit t) (hx : notHexMark t) :
    IPAddressFromString (dotted a b c d ++ t)
      = ⟨numeralValue a % 256, numeralValue b % 256, numeralValue c % 256,
          numeralValue d % 256⟩ := by
  unfold IPAddressFromString
  rw [dotted_append, scanFields_numeral_dot 3 a _ ha, scanFields_numeral_dot 2 b _ hb,
    scanFields_numeral_dot 1 c _ hc, scanFields_numeral_last d t hd ht hx]
  simp only [toUint8_natCast]

/-- C29 as stated fails: the numeral 010 is a decimal numeral of 10 with a
leading zero, yet 010.0.0.1 is read as (8, 0, 0, 1), the directive %i taking a
numeral that starts with 0 as octal. Nor do all other texts give the marker:
256.1.1.1 gives (0, 1, 1, 1) and 1.2.3.4xyz gives (1, 2, 3, 4). -/
theorem dotted_decimal_counterexample :
    ¬ (∀ a b c d : List Char,
      octetNumeral a → octetNumeral b → octetNumeral c → octetNumeral d →
      IPAddressFromString (dotted a b c d)
        = ⟨decimalValue a, decimalValue b, decimalValue c, decimalValue d⟩) ∧
    octetNumeral "010".toList ∧ decimalValue "010".toList = 10 ∧
    IPAddressFromString "010.0.0.1".toList = ⟨8, 0, 0, 1⟩ ∧
    IPAddressFromString "256.1.1.1".toList = ⟨0, 1, 1, 1⟩ ∧
    IPAddressFromString "1.2.3.4xyz".toList = ⟨1, 2, 3, 4⟩ := by
  refine ⟨?_, by decide, by decide, by decide, by decide, by decide⟩
  intro h
  have := h "010".toList "0".toList "0".toList "1".toList (by decide) (by decide) (by decide)
    (by decide)
  revert this
  decide

/-- C29 amended: let a, b, c, d be numerals of at most 12 digits, read in base
8 when they start with 0 and in base 10 otherwise, with values up to 2^31 - 1,
and let t be a text that does not start with a decimal digit, x or X. For the
text a.b.c.d followed by t, IPAddressFromString gives the address whose bytes
are the four values modulo 256; when the four numerals have no leading zero
and are at most 255, that is the address (a, b, c, d) of the decimal values.
For the text a.b.c with three numerals only, and for every text that is empty
or starts with a character that is not white space, a sign or a decimal digit,
it gives the marker (0, 42, 42, 42). -/
theorem address_from_four_numerals (a b c d t : List Char)
    (ha : intNumeral a) (hb : intNumeral b) (hc : intNumeral c) (hd : intNumeral d)
    (ht : notDecimalDigit t) (hx : notHexMark t) :
    IPAddressFromString (dotted a b c d ++ t)
      = ⟨numeralValue a % 256, numeralValue b % 256, numeralValue c % 256,
          numeralValue d % 256⟩ ∧
    (noLeadingZero a → noLeadingZero b → noLeadingZero c → noLeadingZero d →
      decimalValue a ≤ 255 → decimalValue b ≤ 255 → decimalValue c ≤ 255 →
      decimalValue d ≤ 255 →
      IPAddressFromString (dotted a b c d ++ t)
        = ⟨decimalValue a, decimalValue b, decimalValue c, decimalValue d⟩) ∧
    IPAddressFromString (a ++ '.' :: (b ++ '.' :: c)) = ⟨0, 42, 42, 42⟩ ∧
    (∀ s, noNumberAhead s → IPAddressFromString s = ⟨0, 42, 42, 42⟩) := by
  have hfour := IPAddressFromString_four a b c d t ha hb hc hd ht hx
  refine ⟨hfour, ?_, ?_, ?_⟩
  · intro za zb zc zd la lb lc ld
    rw [hfour, numeralValue_noLeadingZero a za, numeralValue_noLeadingZero b zb,
      numeralValue_noLeadingZero c zc, numeralValue_noLeadingZero d zd,
      Nat.mod_eq_of_lt (by omega), Nat.mod_eq_of_lt (by omega), Nat.mod_eq_of_lt (by omega),
      Nat.mod_eq_of_lt (by omega)]
  · unfold IPAddressFromString
    rw [scanFields_numeral_dot 3 a _ ha, scanFields_numeral_dot 2 b _ hb,
      scanFields_numeral_end 1 c hc]
  · intro s hs
    unfold IPAddressFromString
    rw [scanFields, scanInt_noNumberAhead s hs]

/-- C29 amended on the texts 192.168.0.1 (decimal numerals), 010.0.0.1 with
the text /24 behind it (010 is octal), 192.168.0 and the empty text. -/
theorem address_from_four_numerals_witness :
    IPAddressFromString "192.168.0.1".toList = ⟨192, 168, 0, 1⟩ ∧
    IPAddressFromString "010.0.0.1/24".toList = ⟨8, 0, 0, 1⟩ ∧
    IPAddressFromString "192.168.0".toList = ⟨0, 42, 42, 42⟩ ∧
    IPAddressFromString [] = ⟨0, 42, 42, 42⟩ :=
  ⟨(address_from_four_numerals "192".toList "168".toList "0".toList "1".toList []
      (by decide) (by decide) (by decide) (by decide) (by decide) (by decide)).2.1
      (by decide) (by decide) (by decide) (by decide) (by decide) (by decide) (by decide)
      (by decide),
   (address_from_four_numerals "010".toList "0".toList "0".toList "1".toList "/24".toList
      (by decide) (by decide) (by decide) (by decide) (by decide) (by decide)).1,
   (address_from_four_numerals "192".toList "168".toList "0".toList "1".toList []
      (by decide) (by decide) (by decide) (by decide) (by decide) (by decide)).2.2.1,
   (address_from_four_numerals "192".toList "168".toList "0".toList "1".toList []
      (by decide) (by decide) (by decide) (by decide) (by decide) (by decide)).2.2.2 []
      (by intro c hc; simp at hc)⟩
